import Mathlib

/-!
# A shallow embedding of the go6502 processor core

Machine integers are natural numbers; every place where the Go code computes in
`uint8` or `uint16` reduces modulo `256` or `65536` explicitly.  Memory is a total
map from addresses to bytes, a memory reference that may be `nil` is an `Option`,
and the in-place writes of the Go code are threaded through the results.
-/

namespace Processor

/-! ## errors.go -/

/-- The error values of `errors.go`. -/
inductive Error where
  | InstructionSetEmpty
  | OpCodeNotInInstructionSet
  | MemoryMustBeProvided
  | InvalidMemorySizeProvided
  | UninitialisedCpu
  | NoAddressingModeFunction
  | NoOperationFunction
  deriving DecidableEq, Repr

/-! ## status.go -/

def FlagNone : Nat := 0x00
def FlagCarry : Nat := 0x01
def FlagNoBorrow : Nat := 0x01
def FlagZero : Nat := 0x02
def FlagInterrupt : Nat := 0x04
def FlagDecimal : Nat := 0x08
def FlagBreak : Nat := 0x10
def FlagConstant : Nat := 0x20
def FlagOverflow : Nat := 0x40
def FlagNegative : Nat := 0x80
def FlagAll : Nat := 0xFF

/-- The 8-bit status register (`type Status uint8`). -/
abbrev Status := Nat

def Status.WithConstantSet (s : Status) : Status := s ||| FlagConstant
def Status.WithConstantCleared (s : Status) : Status := s &&& (0xFF ^^^ FlagConstant)
def Status.WithCarrySet (s : Status) : Status := s ||| FlagCarry
def Status.WithCarryCleared (s : Status) : Status := s &&& (0xFF ^^^ FlagCarry)
def Status.WithZeroSet (s : Status) : Status := s ||| FlagZero
def Status.WithZeroCleared (s : Status) : Status := s &&& (0xFF ^^^ FlagZero)
def Status.WithInterruptSet (s : Status) : Status := s ||| FlagInterrupt
def Status.WithInterruptCleared (s : Status) : Status := s &&& (0xFF ^^^ FlagInterrupt)
def Status.WithDecimalSet (s : Status) : Status := s ||| FlagDecimal
def Status.WithDecimalCleared (s : Status) : Status := s &&& (0xFF ^^^ FlagDecimal)
def Status.WithBreakSet (s : Status) : Status := s ||| FlagBreak
def Status.WithBreakCleared (s : Status) : Status := s &&& (0xFF ^^^ FlagBreak)
def Status.WithOverflowSet (s : Status) : Status := s ||| FlagOverflow
def Status.WithOverflowCleared (s : Status) : Status := s &&& (0xFF ^^^ FlagOverflow)
def Status.WithNegativeSet (s : Status) : Status := s ||| FlagNegative
def Status.WithNegativeCleared (s : Status) : Status := s &&& (0xFF ^^^ FlagNegative)

/-- The mutators `SetX` / `ClearX` assign `*s = s.WithX...()`; here they return the
new value of the register. -/
def Status.SetCarry (s : Status) : Status := Status.WithCarrySet s
def Status.ClearCarry (s : Status) : Status := Status.WithCarryCleared s
def Status.SetZero (s : Status) : Status := Status.WithZeroSet s
def Status.ClearZero (s : Status) : Status := Status.WithZeroCleared s
def Status.SetInterrupt (s : Status) : Status := Status.WithInterruptSet s
def Status.ClearInterrupt (s : Status) : Status := Status.WithInterruptCleared s
def Status.SetDecimal (s : Status) : Status := Status.WithDecimalSet s
def Status.ClearDecimal (s : Status) : Status := Status.WithDecimalCleared s
def Status.SetBreak (s : Status) : Status := Status.WithBreakSet s
def Status.SetConstant (s : Status) : Status := Status.WithConstantSet s
def Status.ClearBreak (s : Status) : Status := Status.WithBreakCleared s
def Status.ClearConstant (s : Status) : Status := Status.WithConstantCleared s
def Status.SetOverflow (s : Status) : Status := Status.WithOverflowSet s
def Status.ClearOverflow (s : Status) : Status := Status.WithOverflowCleared s
def Status.SetNegative (s : Status) : Status := Status.WithNegativeSet s
def Status.ClearNegative (s : Status) : Status := Status.WithNegativeCleared s

/-- The individual flags of a status register as booleans. -/
structure Flags where
  Carry : Bool
  Zero : Bool
  Interrupt : Bool
  Decimal : Bool
  Break : Bool
  Overflow : Bool
  Negative : Bool
  deriving DecidableEq, Repr

def Status.ToFlags (s : Status) : Flags :=
  { Carry := (s &&& FlagCarry) != 0
    Zero := (s &&& FlagZero) != 0
    Interrupt := (s &&& FlagInterrupt) != 0
    Decimal := (s &&& FlagDecimal) != 0
    Break := (s &&& FlagBreak) != 0
    Overflow := (s &&& FlagOverflow) != 0
    Negative := (s &&& FlagNegative) != 0 }

def Flags.ToStatus (f : Flags) : Status :=
  let result := FlagConstant
  let result := if f.Carry then result ||| FlagCarry else result
  let result := if f.Zero then result ||| FlagZero else result
  let result := if f.Interrupt then result ||| FlagInterrupt else result
  let result := if f.Decimal then result ||| FlagDecimal else result
  let result := if f.Break then result ||| FlagBreak else result
  let result := if f.Overflow then result ||| FlagOverflow else result
  let result := if f.Negative then result ||| FlagNegative else result
  result

/-! ## address.go: addresses, memory and the register snapshot -/

def BaseStack : Nat := 0x100

/-- `MakeAddress` of address.go: `Address(l) | (Address(h) << 8)` in `uint16`. -/
def MakeAddress (l h : Nat) : Nat := l ||| ((h <<< 8) % 65536)

/-- `SplitAddress` of address.go: the low byte first, the high byte second. -/
def SplitAddress (address : Nat) : Nat × Nat :=
  let low := (address &&& 0xFF) % 256
  let high := ((address >>> 8) &&& 0xFF) % 256
  (low, high)

/-- A memory implementing the `Memory` interface: a byte for every address. -/
structure Memory where
  cells : Nat → Nat

def Memory.Read (m : Memory) (address : Nat) : Nat := m.cells address

def Memory.Write (m : Memory) (address value : Nat) : Memory :=
  { cells := fun a => if a = address then value else m.cells a }

/-- The register snapshot of cpu.go (`PC` is 16 bits wide, the others 8). -/
structure State where
  PC : Nat
  SP : Nat
  A : Nat
  X : Nat
  Y : Nat
  P : Status
  deriving DecidableEq, Repr

/-- Every register of the snapshot fits its machine width. -/
def State.WF (s : State) : Prop :=
  s.PC < 65536 ∧ s.SP < 256 ∧ s.A < 256 ∧ s.X < 256 ∧ s.Y < 256 ∧ s.P < 256

instance (s : State) : Decidable s.WF := by
  unfold State.WF
  infer_instance

/-- The addressing result of address.go; `Memory` is `none` for a nil memory. -/
structure Addressing where
  ProgramCounterChange : Nat
  Value : Nat
  Accumulator : Bool
  EffectiveAddress : Nat
  PageBoundaryCrossed : Bool
  Memory : Option Memory

/-- The zero value `Addressing{}`. -/
def Addressing.zero : Addressing :=
  { ProgramCounterChange := 0, Value := 0, Accumulator := false, EffectiveAddress := 0,
    PageBoundaryCrossed := false, Memory := none }

/-! ## operation.go: flag helpers -/

def isCarrySet (value : Nat) : Bool := (value &&& 0xFF00) != 0

def carrySet (s : Status) (value : Nat) : Status :=
  if isCarrySet value then Status.SetCarry s else Status.ClearCarry s

def isNegative (value : Nat) : Bool := (value &&& 0x80) != 0

def negativeSet (s : Status) (value : Nat) : Status :=
  if isNegative value then Status.SetNegative s else Status.ClearNegative s

def isZero (value : Nat) : Bool := (value &&& 0x00FF) == 0

def zeroSet (s : Status) (value : Nat) : Status :=
  if isZero value then Status.SetZero s else Status.ClearZero s

def isOverflow (decimal : Bool) (accumulator value result : Nat) : Bool :=
  let overflow : Bool := ((accumulator ^^^ value) &&& 0x80) == 0
  let comparator : Nat := if decimal then 0xA0 else 0x100
  if result ≥ comparator then
    if overflow && decide (result ≥ 0x180) then false else overflow
  else
    if overflow && decide (result < 0x80) then false else overflow

def overflowSet (s : Status) (accumulator value result : Nat) : Status :=
  if isOverflow (Status.ToFlags s).Decimal accumulator value result then Status.SetOverflow s
  else Status.ClearOverflow s

/-! ## operation.go: ADC and SBC -/

/-- The carry-in of ADC and SBC: `carry := uint16(0); if state.P.ToFlags().Carry { carry = 1 }`. -/
def carryIn (p : Status) : Nat := if (Status.ToFlags p).Carry then 1 else 0

/-- The 16-bit intermediate of `AddWithCarry`. -/
def adcResult (decimal : Bool) (accum value carry : Nat) : Nat :=
  if decimal then
    let result := ((accum &&& 0x0F) + (value &&& 0x0F) + carry) % 65536
    let result := if result ≥ 10 then 0x10 ||| ((result + 0x06) % 65536 &&& 0x0F) else result
    let result := (result + ((accum &&& 0xF0) + (value &&& 0xF0)) % 65536) % 65536
    let result := if result ≥ 0xA0 then (result + 0x60) % 65536 else result
    result
  else
    (accum + value + carry) % 65536

/-- `AddWithCarry` (ADC) of operation.go. -/
def AddWithCarry (state : State) (addressing : Addressing) : Except Error (State × Option Memory) :=
  let accum := state.A
  let value := addressing.Value
  let carry := carryIn state.P
  let result := adcResult (Status.ToFlags state.P).Decimal accum value carry
  let p := overflowSet state.P accum value result
  let p := carrySet p result
  let p := negativeSet p result
  let p := zeroSet p result
  .ok ({ state with P := p, A := result % 256 }, addressing.Memory)

/-- The 16-bit intermediate of `SubtractWithCarry`; `raw` is the operand byte and
`value` its complement `raw ^ 0x00FF`. -/
def sbcResult (decimal : Bool) (accum raw value carry : Nat) : Nat :=
  if decimal then
    let result := (0x0F + (accum &&& 0x0F) + (65536 - (raw &&& 0x0F)) + carry) % 65536
    let upperNibble := 0
    let result1 := if result < 0x10 then (result + (65536 - 0x06)) % 65536
                   else (result + (65536 - 0x10)) % 65536
    let upperNibble := if result < 0x10 then upperNibble else 0x10
    let upperNibble := (upperNibble + (0xF0 + (accum &&& 0xF0) + (65536 - (raw &&& 0xF0)))) % 65536
    let upperNibble := if upperNibble < 0x100 then (upperNibble + (65536 - 0x60)) % 65536
                       else upperNibble
    (result1 + upperNibble) % 65536
  else
    (accum + value + carry) % 65536

/-- `SubtractWithCarry` (SBC) of operation.go. -/
def SubtractWithCarry (state : State) (addressing : Addressing) :
    Except Error (State × Option Memory) :=
  let accum := state.A
  let value := addressing.Value ^^^ 0x00FF
  let carry := carryIn state.P
  let result := sbcResult (Status.ToFlags state.P).Decimal accum addressing.Value value carry
  let p := overflowSet state.P accum value result
  let p := carrySet p result
  let p := negativeSet p result
  let p := zeroSet p result
  .ok ({ state with P := p, A := result % 256 }, addressing.Memory)

/-! ## bcd.go -/

/-- `ExtractBcdValues` of bcd.go: the digit of the high nibble first. -/
def ExtractBcdValues (value : Nat) : Nat × Nat :=
  let vl := value &&& 0x0F
  let vh := (value &&& 0xF0) >>> 4
  (vh, vl)

/-- `DecodeBcdValue` of bcd.go; `0xFF` when a digit exceeds 9. -/
def DecodeBcdValue (value : Nat) : Nat :=
  let h := (ExtractBcdValues value).1
  let l := (ExtractBcdValues value).2
  if h > 9 ∨ l > 9 then 0xFF else ((h * 10) % 256 + l) % 256

/-- The first loop of `EncodeBcdValue`: `for value > 99 { value -= 100 }`. -/
def encodeReduce : Nat → Nat → Nat
  | 0, value => value
  | fuel + 1, value => if value > 99 then encodeReduce fuel (value - 100) else value

/-- The second loop of `EncodeBcdValue`: `for value > 9 { h++; value -= 10 }`. -/
def encodeTens : Nat → Nat → Nat → Nat × Nat
  | 0, h, value => (h, value)
  | fuel + 1, h, value =>
    if value > 9 then encodeTens fuel ((h + 1) % 256) (value - 10) else (h, value)

/-- `EncodeBcdValue` of bcd.go.  Both loops strictly decrease `value`, so `value`
itself bounds the number of iterations of each. -/
def EncodeBcdValue (value : Nat) : Nat :=
  let value := encodeReduce value value
  let r := encodeTens value 0 value
  (((r.1 <<< 4) % 256) + r.2) % 256

/-- Both nibbles of the byte are decimal digits. -/
def validBcd (value : Nat) : Prop :=
  value < 256 ∧ (ExtractBcdValues value).1 ≤ 9 ∧ (ExtractBcdValues value).2 ≤ 9

instance (value : Nat) : Decidable (validBcd value) := by
  unfold validBcd
  infer_instance

/-! ## address.go: stack helpers -/

/-- `Addressing.Store`: to the accumulator or to memory at the effective address. -/
def Addressing.Store (ad : Addressing) (state : State) (value : Nat) :
    Except Error (State × Option Processor.Memory) :=
  if ad.Accumulator then
    .ok ({ state with A := value }, ad.Memory)
  else
    match ad.Memory with
    | none => .error Error.MemoryMustBeProvided
    | some memory => .ok (state, some (memory.Write ad.EffectiveAddress value))

/-- `Addressing.PushByte`: write at `0x100 + SP`, then decrement `SP`.  The returned
addressing refers to the memory after the write. -/
def Addressing.PushByte (ad : Addressing) (state : State) (byte : Nat) :
    Except Error (State × Addressing) :=
  match ad.Memory with
  | none => .error Error.MemoryMustBeProvided
  | some memory =>
    let address := (BaseStack + state.SP) % 65536
    let state := { state with SP := (state.SP + 255) % 256 }
    .ok (state, { ad with Memory := some (memory.Write address byte) })

/-- `Addressing.PushStatus`: `PushByte` of the status with the constant flag set. -/
def Addressing.PushStatus (ad : Addressing) (state : State) (status : Status) :
    Except Error (State × Addressing) :=
  ad.PushByte state (Status.WithConstantSet status % 256)

/-- `Addressing.PushAddress`: the high byte first, the low byte second. -/
def Addressing.PushAddress (ad : Addressing) (state : State) (address : Nat) :
    Except Error (State × Addressing) :=
  let lowByte := (SplitAddress address).1
  let highByte := (SplitAddress address).2
  match ad.PushByte state highByte with
  | .error err => .error err
  | .ok (state, ad) => ad.PushByte state lowByte

/-- `Addressing.PullByte`: increment `SP`, then read at `0x100 + SP`. -/
def Addressing.PullByte (ad : Addressing) (state : State) : Except Error (State × Nat) :=
  match ad.Memory with
  | none => .error Error.MemoryMustBeProvided
  | some memory =>
    let state := { state with SP := (state.SP + 1) % 256 }
    let address := (BaseStack + state.SP) % 65536
    let value := memory.Read address
    .ok (state, value)

/-- `Addressing.PullStatus`: the pulled byte with break cleared and constant set. -/
def Addressing.PullStatus (ad : Addressing) (state : State) : Except Error State :=
  match ad.PullByte state with
  | .error err => .error err
  | .ok (state, value) =>
    let status := Status.SetConstant (Status.ClearBreak value)
    .ok { state with P := status }

/-- `Addressing.PullAddress`: the low byte first, the high byte second. -/
def Addressing.PullAddress (ad : Addressing) (state : State) : Except Error (State × Nat) :=
  match ad.PullByte state with
  | .error err => .error err
  | .ok (state, lowByte) =>
    match ad.PullByte state with
    | .error err => .error err
    | .ok (state, highByte) => .ok (state, MakeAddress lowByte highByte)

/-! ## address.go: addressing functions -/

/-- `AbsoluteAddressing` of address.go. -/
def AbsoluteAddressing (state : State) (memory : Option Memory) (offset : Nat) :
    Except Error Addressing :=
  match memory with
  | none => .error Error.MemoryMustBeProvided
  | some m =>
    let low := m.Read state.PC
    let high := m.Read ((state.PC + 1) % 65536)
    let effectiveAddress := MakeAddress low high
    let startPage := effectiveAddress &&& 0xFF00
    let effectiveAddress :=
      if offset ≠ 0 then (effectiveAddress + offset) % 65536 else effectiveAddress
    let pageBoundaryCrossed :=
      if offset ≠ 0 then startPage != (effectiveAddress &&& 0xFF00) else false
    .ok { EffectiveAddress := effectiveAddress
          Value := m.Read effectiveAddress
          ProgramCounterChange := 2
          PageBoundaryCrossed := pageBoundaryCrossed
          Accumulator := false
          Memory := memory }

/-- `Absolute` of address.go: the page crossing is forced to false. -/
def Absolute (state : State) (memory : Option Memory) : Except Error Addressing :=
  match AbsoluteAddressing state memory 0 with
  | .error err => .error err
  | .ok result => .ok { result with PageBoundaryCrossed := false }

/-- `AbsoluteX` of address.go. -/
def AbsoluteX (state : State) (memory : Option Memory) : Except Error Addressing :=
  AbsoluteAddressing state memory state.X

/-- `AbsoluteY` of address.go. -/
def AbsoluteY (state : State) (memory : Option Memory) : Except Error Addressing :=
  AbsoluteAddressing state memory state.Y

/-- `Accumulator` of address.go. -/
def Accumulator (state : State) (memory : Option Memory) : Except Error Addressing :=
  .ok { Addressing.zero with Accumulator := true, Value := state.A, Memory := memory }

/-- `Immediate` of address.go. -/
def Immediate (state : State) (memory : Option Memory) : Except Error Addressing :=
  match memory with
  | none => .error Error.MemoryMustBeProvided
  | some m =>
    .ok { Addressing.zero with
          EffectiveAddress := state.PC
          Value := m.Read state.PC
          ProgramCounterChange := 1
          Memory := memory }

/-- `Implied` of address.go. -/
def Implied (_ : State) (memory : Option Memory) : Except Error Addressing :=
  .ok { Addressing.zero with Memory := memory }

/-- `Indirect` of address.go, with the page wrap of the pointer's second byte. -/
def Indirect (state : State) (memory : Option Memory) : Except Error Addressing :=
  match memory with
  | none => .error Error.MemoryMustBeProvided
  | some m =>
    let indirectAddressLow := m.Read state.PC
    let indirectAddressHigh := m.Read ((state.PC + 1) % 65536)
    let indirectAddress := MakeAddress indirectAddressLow indirectAddressHigh
    let indirectAddressPlusOne :=
      (indirectAddress &&& 0xFF00) ||| (((indirectAddress + 1) % 65536) &&& 0x00FF)
    let low := m.Read indirectAddress
    let high := m.Read indirectAddressPlusOne
    let effectiveAddress := MakeAddress low high
    .ok { Addressing.zero with
          EffectiveAddress := effectiveAddress
          Value := m.Read effectiveAddress
          ProgramCounterChange := 2
          Memory := memory }

/-- `IndirectX` of address.go: the operand and `X` are added as bytes; the second pointer
byte is read at `indirectAddress + 1`. -/
def IndirectX (state : State) (memory : Option Memory) : Except Error Addressing :=
  match memory with
  | none => .error Error.MemoryMustBeProvided
  | some m =>
    let indirectAddress := ((m.Read state.PC + state.X) % 256) &&& 0x00FF
    let low := m.Read indirectAddress
    let high := m.Read ((indirectAddress + 1) % 65536)
    let effectiveAddress := MakeAddress low high
    .ok { Addressing.zero with
          EffectiveAddress := effectiveAddress
          Value := m.Read effectiveAddress
          ProgramCounterChange := 1
          Memory := memory }

/-- `IndirectY` of address.go. -/
def IndirectY (state : State) (memory : Option Memory) : Except Error Addressing :=
  match memory with
  | none => .error Error.MemoryMustBeProvided
  | some m =>
    let indirectAddress := m.Read state.PC &&& 0x00FF
    let indirectAddressPlusOne := ((indirectAddress + 1) % 65536) &&& 0x00FF
    let low := m.Read indirectAddress
    let high := m.Read indirectAddressPlusOne
    let effectiveAddress := MakeAddress low high
    let startPage := effectiveAddress &&& 0xFF00
    let effectiveAddress := (effectiveAddress + state.Y) % 65536
    let pageBoundaryCrossed := startPage != (effectiveAddress &&& 0xFF00)
    .ok { Addressing.zero with
          EffectiveAddress := effectiveAddress
          Value := m.Read effectiveAddress
          ProgramCounterChange := 1
          PageBoundaryCrossed := pageBoundaryCrossed
          Memory := memory }

/-- `Relative` of address.go: the operand byte sign-extended to 16 bits. -/
def Relative (state : State) (memory : Option Memory) : Except Error Addressing :=
  match memory with
  | none => .error Error.MemoryMustBeProvided
  | some m =>
    let value := m.Read state.PC
    let relativeAddress := value
    let relativeAddress :=
      if (value &&& 0x80) != 0 then relativeAddress ||| 0xFF00 else relativeAddress
    .ok { Addressing.zero with
          EffectiveAddress := (state.PC + 1 + relativeAddress) % 65536
          Value := value
          ProgramCounterChange := 1
          Memory := memory }

/-- `ZeroPage` of address.go. -/
def ZeroPage (state : State) (memory : Option Memory) : Except Error Addressing :=
  match memory with
  | none => .error Error.MemoryMustBeProvided
  | some m =>
    let effectiveAddress := m.Read state.PC
    .ok { Addressing.zero with
          EffectiveAddress := effectiveAddress
          Value := m.Read effectiveAddress
          ProgramCounterChange := 1
          Memory := memory }

/-- `ZeroPageX` of address.go: the operand and `X` are added as bytes. -/
def ZeroPageX (state : State) (memory : Option Memory) : Except Error Addressing :=
  match memory with
  | none => .error Error.MemoryMustBeProvided
  | some m =>
    let effectiveAddress := ((m.Read state.PC + state.X) % 256) &&& 0xFF
    .ok { Addressing.zero with
          EffectiveAddress := effectiveAddress
          Value := m.Read effectiveAddress
          ProgramCounterChange := 1
          Memory := memory }

/-- `ZeroPageY` of address.go: the operand and `Y` are added as bytes. -/
def ZeroPageY (state : State) (memory : Option Memory) : Except Error Addressing :=
  match memory with
  | none => .error Error.MemoryMustBeProvided
  | some m =>
    let effectiveAddress := ((m.Read state.PC + state.Y) % 256) &&& 0xFF
    .ok { Addressing.zero with
          EffectiveAddress := effectiveAddress
          Value := m.Read effectiveAddress
          ProgramCounterChange := 1
          Memory := memory }

/-! ## memory.go: vectors -/

def NmiVectorAddress : Nat := 0xFFFA
def ResetVectorAddress : Nat := 0xFFFC
def IrqVectorAddress : Nat := 0xFFFE

def ReadVectorFromMemory (memory : Option Memory) (address : Nat) : Except Error Nat :=
  match memory with
  | none => .error Error.MemoryMustBeProvided
  | some m =>
    let lowByte := m.Read address
    let highByte := m.Read ((address + 1) % 65536)
    .ok (MakeAddress lowByte highByte)

def ReadNmiVectorFromMemory (memory : Option Memory) : Except Error Nat :=
  ReadVectorFromMemory memory NmiVectorAddress

def ReadResetVectorFromMemory (memory : Option Memory) : Except Error Nat :=
  ReadVectorFromMemory memory ResetVectorAddress

def ReadIrqVectorFromMemory (memory : Option Memory) : Except Error Nat :=
  ReadVectorFromMemory memory IrqVectorAddress

/-! ## operation.go: interrupts and subroutines -/

/-- `Break` (BRK) of operation.go. -/
def Break (state : State) (addressing : Addressing) : Except Error (State × Option Memory) :=
  match ReadIrqVectorFromMemory addressing.Memory with
  | .error err => .error err
  | .ok irqVector =>
    let addressToPush := (state.PC + 1) % 65536
    match addressing.PushAddress state addressToPush with
    | .error err => .error err
    | .ok (state, addressing) =>
      match addressing.PushStatus state (Status.WithBreakSet state.P) with
      | .error err => .error err
      | .ok (state, addressing) =>
        let state := { state with P := Status.SetInterrupt state.P }
        let state := { state with PC := irqVector }
        .ok (state, addressing.Memory)

/-- `Interrupt` (IRQ) of operation.go. -/
def Interrupt (state : State) (addressing : Addressing) :
    Except Error (State × Option Memory) :=
  match ReadIrqVectorFromMemory addressing.Memory with
  | .error err => .error err
  | .ok irqVector =>
    match addressing.PushAddress state state.PC with
    | .error err => .error err
    | .ok (state, addressing) =>
      match addressing.PushStatus state state.P with
      | .error err => .error err
      | .ok (state, addressing) =>
        let state := { state with P := Status.SetInterrupt state.P }
        let state := { state with PC := irqVector }
        .ok (state, addressing.Memory)

/-- `Nmi` of operation.go. -/
def Nmi (state : State) (addressing : Addressing) : Except Error (State × Option Memory) :=
  match ReadNmiVectorFromMemory addressing.Memory with
  | .error err => .error err
  | .ok nmiVector =>
    match addressing.PushAddress state state.PC with
    | .error err => .error err
    | .ok (state, addressing) =>
      match addressing.PushStatus state state.P with
      | .error err => .error err
      | .ok (state, addressing) =>
        let state := { state with P := Status.SetInterrupt state.P }
        let state := { state with PC := nmiVector }
        .ok (state, addressing.Memory)

/-- `ReturnFromInterrupt` (RTI) of operation.go. -/
def ReturnFromInterrupt (state : State) (addressing : Addressing) :
    Except Error (State × Option Memory) :=
  match addressing.PullStatus state with
  | .error err => .error err
  | .ok state =>
    match addressing.PullAddress state with
    | .error err => .error err
    | .ok (state, addressFromStack) =>
      .ok ({ state with PC := addressFromStack }, addressing.Memory)

/-- `JumpSubRoutine` (JSR) of operation.go. -/
def JumpSubRoutine (state : State) (addressing : Addressing) :
    Except Error (State × Option Memory) :=
  let addressToPush := (state.PC + 65535) % 65536
  let state := { state with PC := addressing.EffectiveAddress }
  match addressing.PushAddress state addressToPush with
  | .error err => .error err
  | .ok (state, addressing) => .ok (state, addressing.Memory)

/-- `ReturnFromSubroutine` (RTS) of operation.go. -/
def ReturnFromSubroutine (state : State) (addressing : Addressing) :
    Except Error (State × Option Memory) :=
  match addressing.PullAddress state with
  | .error err => .error err
  | .ok (state, addressFromStack) =>
    .ok ({ state with PC := (addressFromStack + 1) % 65536 }, addressing.Memory)

/-- `PushP` (PHP) of operation.go. -/
def PushP (state : State) (addressing : Addressing) : Except Error (State × Option Memory) :=
  match addressing.PushStatus state (Status.WithBreakSet state.P) with
  | .error err => .error err
  | .ok (state, addressing) => .ok (state, addressing.Memory)

/-- `PullP` (PLP) of operation.go. -/
def PullP (state : State) (addressing : Addressing) : Except Error (State × Option Memory) :=
  match addressing.PullStatus state with
  | .error err => .error err
  | .ok state => .ok (state, addressing.Memory)

/-! ## instruction.go and cpu.go -/

/-- An operation: the new snapshot and the memory after its writes, or an error. -/
abbrev Operation := State → Addressing → Except Error (State × Option Memory)

/-- An addressing function of address.go. -/
abbrev AddressingFunc := State → Option Memory → Except Error Addressing

/-- The `Instruction` record of instruction.go; a nil function is `none`. -/
structure Instruction where
  Opcode : Nat
  AddressingFunc : Option AddressingFunc
  Operation : Option Operation
  Cycles : Nat
  PageBoundaryPenalty : Bool

/-- The `InstructionSet` of instruction.go: the map from opcodes to instructions,
kept as a list of bindings with distinct keys. -/
structure InstructionSet where
  instructions : List (Nat × Instruction)

/-- The `Cpu` of cpu.go. -/
structure Cpu where
  State : State
  memory : Option Memory
  instructionSet : InstructionSet

/-- `Cpu.Interrupt` of cpu.go on the receiver `c` (`none` is the nil pointer): the
receiver after the call and the returned error (`none` is the nil error). -/
def Cpu.Interrupt (c : Option Cpu) : Option Cpu × Option Error :=
  match c with
  | none => (none, some Error.UninitialisedCpu)
  | some c =>
    if (Status.ToFlags c.State.P).Interrupt then
      (some c, none)
    else
      let addressing := { Addressing.zero with Memory := c.memory }
      match Processor.Interrupt c.State addressing with
      | .error err => (some c, some err)
      | .ok (state, memory) => (some { c with State := state, memory := memory }, none)

/-- `Cpu.Nmi` of cpu.go, with the same conventions as `Cpu.Interrupt`. -/
def Cpu.Nmi (c : Option Cpu) : Option Cpu × Option Error :=
  match c with
  | none => (none, some Error.UninitialisedCpu)
  | some c =>
    let addressing := { Addressing.zero with Memory := c.memory }
    match Processor.Nmi c.State addressing with
    | .error err => (some c, some err)
    | .ok (state, memory) => (some { c with State := state, memory := memory }, none)

/-- `Cpu.Step` reports cycles as a Go `uint`; its arithmetic is taken modulo `2 ^ 64`. -/
def uintSize : Nat := 2 ^ 64

/-- `InstructionSet.validate` of instruction.go: the empty set is an error. -/
def InstructionSet.validate (is : InstructionSet) : Option Error :=
  if is.instructions.length ≤ 0 then some Error.InstructionSetEmpty else none

/-- `InstructionSet.Get` of instruction.go. -/
def InstructionSet.Get (is : InstructionSet) (opcode : Nat) : Except Error Instruction :=
  match is.validate with
  | some err => .error err
  | none =>
    match is.instructions.lookup opcode with
    | some val => .ok val
    | none => .error Error.OpCodeNotInInstructionSet

/-- `Instruction.Execute` of instruction.go: the new snapshot, the cycles and the memory
after the writes of the operation.  With an error Go returns `State{}` and 0 cycles.
The operation writes through the memory reference of the addressing result, which the
addressing functions of address.go take from the memory they are given. -/
def Instruction.Execute (i : Instruction) (state : State) (memory : Option Memory) :
    Except Error (State × Nat × Option Memory) :=
  match memory with
  | none => .error Error.MemoryMustBeProvided
  | some _ =>
    match i.AddressingFunc with
    | none => .error Error.NoAddressingModeFunction
    | some addressingFunc =>
      match i.Operation with
      | none => .error Error.NoOperationFunction
      | some operation =>
        match addressingFunc state memory with
        | .error err => .error err
        | .ok addressingState =>
          let cycles := i.Cycles
          let cycles :=
            if i.PageBoundaryPenalty && addressingState.PageBoundaryCrossed then
              (cycles + 1) % uintSize
            else cycles
          let state :=
            { state with PC := (state.PC + addressingState.ProgramCounterChange) % 65536 }
          match operation state addressingState with
          | .error err => .error err
          | .ok (state, written) => .ok (state, cycles, written)

/-- `Cpu.Step` of cpu.go on the receiver `c`: the receiver after the call, the cycles and
the returned error.  The outer `none` is the panic of `c.memory.Read` on a nil memory.
The program counter is incremented in the receiver before the opcode is looked up.
An operation that was handed no memory reference has written nothing, so the memory
of the receiver stays as it was. -/
def Cpu.Step (c : Option Cpu) : Option (Option Cpu × Nat × Option Error) :=
  match c with
  | none => some (none, 0, some Error.UninitialisedCpu)
  | some c =>
    match c.memory with
    | none => none
    | some memory =>
      let opcode := memory.Read c.State.PC
      let c := { c with State := { c.State with PC := (c.State.PC + 1) % 65536 } }
      match c.instructionSet.Get opcode with
      | .error err => some (some c, 1, some err)
      | .ok instruction =>
        match instruction.Execute c.State c.memory with
        | .error err => some (some c, (0 + 1) % uintSize, some err)
        | .ok (newState, cycles, written) =>
          let memory := match written with
            | some w => some w
            | none => c.memory
          some (some { c with State := newState, memory := memory }, (cycles + 1) % uintSize,
            none)

/-- `toSigned` of operation_arithmetic_test.go: the byte read as a two's complement number. -/
def toSigned (value : Nat) : Int :=
  if (value &&& 0x80) != 0 then ((value &&& 0x7F : Nat) : Int) - 128 else ((value &&& 0x7F : Nat) : Int)

/-- Bit `j` of `p`, the view of a status byte the proofs work with. -/
def hasBit (p j : Nat) : Bool := p.testBit j

/-- A 64K memory with the IRQ vector `0xA002` (as in operation_interrupt_test.go) and the
NMI vector `0xB004`, zero elsewhere. -/
def testMemory : Memory :=
  { cells := fun a =>
      if a = 0xFFFE then 0x02 else if a = 0xFFFF then 0xA0
      else if a = 0xFFFA then 0x04 else if a = 0xFFFB then 0xB0 else 0 }

/-- A start state of operation_interrupt_test.go: `PC = 0xF0A0`, `SP = 0xFB`, `P = C | Z`. -/
def testState : State := ⟨0xF0A0, 0xFB, 0, 0, 0, 0x03⟩

/-- The addressing result `Addressing{Memory: memory}` over `testMemory`. -/
def testAddressing : Addressing := { Addressing.zero with Memory := some testMemory }

/-- A 64K memory with the cells of the page-wrap test of address_test.go: the pointer
`0x01FF` at `0x0000/0x0001`, `0x02` at `0x0100`, `0xAA` at `0x01FF`, `0x03` at `0x0200`
and `0x0F` at `0x02AA`, zero elsewhere. -/
def addressingMemory : Memory :=
  { cells := fun a =>
      if a = 0x0000 then 0xFF else if a = 0x0001 then 0x01
      else if a = 0x0100 then 0x02 else if a = 0x01FF then 0xAA
      else if a = 0x0200 then 0x03 else if a = 0x02AA then 0x0F else 0 }

/-- A 64K memory holding `ADC #$20` at `0x0600`, zero elsewhere. -/
def stepMemory : Memory :=
  { cells := fun a => if a = 0x0600 then 0x69 else if a = 0x0601 then 0x20 else 0 }

/-- The instruction `ADC #` (opcode `0x69`): immediate addressing, `AddWithCarry`. -/
def adcImmediate : Instruction :=
  { Opcode := 0x69, AddressingFunc := some Immediate, Operation := some AddWithCarry,
    Cycles := 1, PageBoundaryPenalty := false }

/-- A Cpu over `stepMemory` whose instruction set holds `ADC #` only, with pc at the
instruction. -/
def stepCpu : Cpu :=
  { State := ⟨0x0600, 0xFD, 0x11, 0, 0, 0⟩, memory := some stepMemory,
    instructionSet := ⟨[(0x69, adcImmediate)]⟩ }

/-- The same Cpu with pc at `0x0700`, where the memory holds the unknown opcode `0x00`. -/
def errorCpu : Cpu :=
  { State := ⟨0x0700, 0xFD, 0x11, 0x22, 0x33, 0x01⟩, memory := some stepMemory,
    instructionSet := ⟨[(0x69, adcImmediate)]⟩ }

/-! ## operation.go: the remaining operations -/

/-- `AndWithA` (AND) of operation.go. -/
def AndWithA (state : State) (addressing : Addressing) : Except Error (State × Option Memory) :=
  let state := { state with A := addressing.Value &&& state.A }
  let state := { state with P := negativeSet state.P state.A }
  let state := { state with P := zeroSet state.P state.A }
  .ok (state, addressing.Memory)

/-- `ArithmeticShiftLeft` (ASL) of operation.go. -/
def ArithmeticShiftLeft (state : State) (addressing : Addressing) :
    Except Error (State × Option Memory) :=
  let value := (addressing.Value <<< 1) % 65536
  let state := { state with P := carrySet state.P value }
  let state := { state with P := negativeSet state.P value }
  let state := { state with P := zeroSet state.P value }
  addressing.Store state ((value &&& 0x00FF) % 256)

/-- `BranchOnCarryClear` (BCC) of operation.go. -/
def BranchOnCarryClear (state : State) (addressing : Addressing) :
    Except Error (State × Option Memory) :=
  let state :=
    if !(Status.ToFlags state.P).Carry then { state with PC := addressing.EffectiveAddress }
    else state
  .ok (state, addressing.Memory)

/-- `BranchOnCarrySet` (BCS) of operation.go. -/
def BranchOnCarrySet (state : State) (addressing : Addressing) :
    Except Error (State × Option Memory) :=
  let state :=
    if (Status.ToFlags state.P).Carry then { state with PC := addressing.EffectiveAddress }
    else state
  .ok (state, addressing.Memory)

/-- `BranchOnEqual` (BEQ) of operation.go. -/
def BranchOnEqual (state : State) (addressing : Addressing) :
    Except Error (State × Option Memory) :=
  let state :=
    if (Status.ToFlags state.P).Zero then { state with PC := addressing.EffectiveAddress }
    else state
  .ok (state, addressing.Memory)

/-- `BranchOnMinus` (BMI) of operation.go. -/
def BranchOnMinus (state : State) (addressing : Addressing) :
    Except Error (State × Option Memory) :=
  let state :=
    if (Status.ToFlags state.P).Negative then { state with PC := addressing.EffectiveAddress }
    else state
  .ok (state, addressing.Memory)

/-- `BranchOnNotEqual` (BNE) of operation.go. -/
def BranchOnNotEqual (state : State) (addressing : Addressing) :
    Except Error (State × Option Memory) :=
  let state :=
    if !(Status.ToFlags state.P).Zero then { state with PC := addressing.EffectiveAddress }
    else state
  .ok (state, addressing.Memory)

/-- `BranchOnOverflowClear` (BVC) of operation.go. -/
def BranchOnOverflowClear (state : State) (addressing : Addressing) :
    Except Error (State × Option Memory) :=
  let state :=
    if !(Status.ToFlags state.P).Overflow then { state with PC := addressing.EffectiveAddress }
    else state
  .ok (state, addressing.Memory)

/-- `BranchOnOverflowSet` (BVS) of operation.go. -/
def BranchOnOverflowSet (state : State) (addressing : Addressing) :
    Except Error (State × Option Memory) :=
  let state :=
    if (Status.ToFlags state.P).Overflow then { state with PC := addressing.EffectiveAddress }
    else state
  .ok (state, addressing.Memory)

/-- `BranchOnPlus` (BPL) of operation.go. -/
def BranchOnPlus (state : State) (addressing : Addressing) :
    Except Error (State × Option Memory) :=
  let state :=
    if !(Status.ToFlags state.P).Negative then { state with PC := addressing.EffectiveAddress }
    else state
  .ok (state, addressing.Memory)

/-- `ClearCarry` (CLC) of operation.go. -/
def ClearCarry (state : State) (addressing : Addressing) : Except Error (State × Option Memory) :=
  .ok ({ state with P := Status.ClearCarry state.P }, addressing.Memory)

/-- `ClearDecimal` (CLD) of operation.go. -/
def ClearDecimal (state : State) (addressing : Addressing) :
    Except Error (State × Option Memory) :=
  .ok ({ state with P := Status.ClearDecimal state.P }, addressing.Memory)

/-- `ClearInterrupt` (CLI) of operation.go. -/
def ClearInterrupt (state : State) (addressing : Addressing) :
    Except Error (State × Option Memory) :=
  .ok ({ state with P := Status.ClearInterrupt state.P }, addressing.Memory)

/-- `ClearOverflow` (CLV) of operation.go. -/
def ClearOverflow (state : State) (addressing : Addressing) :
    Except Error (State × Option Memory) :=
  .ok ({ state with P := Status.ClearOverflow state.P }, addressing.Memory)

/-- `compare` of operation.go: the status after comparing `register` with `value`. -/
def compare (s : Status) (register value : Nat) : Status :=
  let s := if register ≥ value then Status.SetCarry s else Status.ClearCarry s
  let result := (register + (65536 - value)) % 65536
  let s := negativeSet s result
  zeroSet s result

/-- `CompareWithA` (CMP) of operation.go. -/
def CompareWithA (state : State) (addressing : Addressing) :
    Except Error (State × Option Memory) :=
  .ok ({ state with P := compare state.P state.A addressing.Value }, addressing.Memory)

/-- `CompareWithX` (CPX) of operation.go. -/
def CompareWithX (state : State) (addressing : Addressing) :
    Except Error (State × Option Memory) :=
  .ok ({ state with P := compare state.P state.X addressing.Value }, addressing.Memory)

/-- `CompareWithY` (CPY) of operation.go. -/
def CompareWithY (state : State) (addressing : Addressing) :
    Except Error (State × Option Memory) :=
  .ok ({ state with P := compare state.P state.Y addressing.Value }, addressing.Memory)

/-- `Decrement` (DEC) of operation.go. -/
def Decrement (state : State) (addressing : Addressing) : Except Error (State × Option Memory) :=
  let value := (addressing.Value + 255) % 256
  let state := { state with P := negativeSet state.P value }
  let state := { state with P := zeroSet state.P value }
  addressing.Store state value

/-- `DecrementX` (DEX) of operation.go. -/
def DecrementX (state : State) (addressing : Addressing) : Except Error (State × Option Memory) :=
  let state := { state with X := (state.X + 255) % 256 }
  let state := { state with P := negativeSet state.P state.X }
  let state := { state with P := zeroSet state.P state.X }
  .ok (state, addressing.Memory)

/-- `DecrementY` (DEY) of operation.go. -/
def DecrementY (state : State) (addressing : Addressing) : Except Error (State × Option Memory) :=
  let state := { state with Y := (state.Y + 255) % 256 }
  let state := { state with P := negativeSet state.P state.Y }
  let state := { state with P := zeroSet state.P state.Y }
  .ok (state, addressing.Memory)

/-- `ExclusiveOrWithA` (EOR) of operation.go. -/
def ExclusiveOrWithA (state : State) (addressing : Addressing) :
    Except Error (State × Option Memory) :=
  let state := { state with A := addressing.Value ^^^ state.A }
  let state := { state with P := negativeSet state.P state.A }
  let state := { state with P := zeroSet state.P state.A }
  .ok (state, addressing.Memory)

/-- `Increment` (INC) of operation.go. -/
def Increment (state : State) (addressing : Addressing) : Except Error (State × Option Memory) :=
  let value := (addressing.Value + 1) % 256
  let state := { state with P := negativeSet state.P value }
  let state := { state with P := zeroSet state.P value }
  addressing.Store state value

/-- `IncrementX` (INX) of operation.go. -/
def IncrementX (state : State) (addressing : Addressing) : Except Error (State × Option Memory) :=
  let state := { state with X := (state.X + 1) % 256 }
  let state := { state with P := negativeSet state.P state.X }
  let state := { state with P := zeroSet state.P state.X }
  .ok (state, addressing.Memory)

/-- `IncrementY` (INY) of operation.go. -/
def IncrementY (state : State) (addressing : Addressing) : Except Error (State × Option Memory) :=
  let state := { state with Y := (state.Y + 1) % 256 }
  let state := { state with P := negativeSet state.P state.Y }
  let state := { state with P := zeroSet state.P state.Y }
  .ok (state, addressing.Memory)

/-- `Jump` (JMP) of operation.go. -/
def Jump (state : State) (addressing : Addressing) : Except Error (State × Option Memory) :=
  .ok ({ state with PC := addressing.EffectiveAddress }, addressing.Memory)

/-- `LoadA` (LDA) of operation.go. -/
def LoadA (state : State) (addressing : Addressing) : Except Error (State × Option Memory) :=
  let state := { state with A := addressing.Value }
  let state := { state with P := negativeSet state.P state.A }
  let state := { state with P := zeroSet state.P state.A }
  .ok (state, addressing.Memory)

/-- `LoadX` (LDX) of operation.go. -/
def LoadX (state : State) (addressing : Addressing) : Except Error (State × Option Memory) :=
  let state := { state with X := addressing.Value }
  let state := { state with P := negativeSet state.P state.X }
  let state := { state with P := zeroSet state.P state.X }
  .ok (state, addressing.Memory)

/-- `LoadY` (LDY) of operation.go. -/
def LoadY (state : State) (addressing : Addressing) : Except Error (State × Option Memory) :=
  let state := { state with Y := addressing.Value }
  let state := { state with P := negativeSet state.P state.Y }
  let state := { state with P := zeroSet state.P state.Y }
  .ok (state, addressing.Memory)

/-- `LogicalShiftRight` (LSR) of operation.go: bit 0 of the operand is carried in bit 8
of the intermediate. -/
def LogicalShiftRight (state : State) (addressing : Addressing) :
    Except Error (State × Option Memory) :=
  let value := addressing.Value >>> 1
  let value := if (addressing.Value &&& 0x01) != 0 then value ||| 0x0100 else value
  let state := { state with P := carrySet state.P value }
  let state := { state with P := negativeSet state.P value }
  let state := { state with P := zeroSet state.P value }
  addressing.Store state ((value &&& 0x00FF) % 256)

/-- `NoOperation` (NOP) of operation.go. -/
def NoOperation (state : State) (addressing : Addressing) :
    Except Error (State × Option Memory) :=
  .ok (state, addressing.Memory)

/-- `OrWithA` (ORA) of operation.go. -/
def OrWithA (state : State) (addressing : Addressing) : Except Error (State × Option Memory) :=
  let state := { state with A := addressing.Value ||| state.A }
  let state := { state with P := negativeSet state.P state.A }
  let state := { state with P := zeroSet state.P state.A }
  .ok (state, addressing.Memory)

/-- `PushA` (PHA) of operation.go. -/
def PushA (state : State) (addressing : Addressing) : Except Error (State × Option Memory) :=
  match addressing.PushByte state state.A with
  | .error err => .error err
  | .ok (state, addressing) => .ok (state, addressing.Memory)

/-- `PullA` (PLA) of operation.go. -/
def PullA (state : State) (addressing : Addressing) : Except Error (State × Option Memory) :=
  match addressing.PullByte state with
  | .error err => .error err
  | .ok (state, value) =>
    let state := { state with A := value }
    let state := { state with P := negativeSet state.P value }
    let state := { state with P := zeroSet state.P value }
    .ok (state, addressing.Memory)

/-- `RotateLeft` (ROL) of operation.go. -/
def RotateLeft (state : State) (addressing : Addressing) : Except Error (State × Option Memory) :=
  let value := (addressing.Value <<< 1) % 65536
  let value := if (Status.ToFlags state.P).Carry then (value + 1) % 65536 else value
  let state := { state with P := carrySet state.P value }
  let state := { state with P := negativeSet state.P value }
  let state := { state with P := zeroSet state.P value }
  addressing.Store state ((value &&& 0x00FF) % 256)

/-- `RotateRight` (ROR) of operation.go. -/
def RotateRight (state : State) (addressing : Addressing) :
    Except Error (State × Option Memory) :=
  let value := addressing.Value
  let value := if (Status.ToFlags state.P).Carry then value ||| 0x100 else value
  let value := if (value &&& 0x01) != 0 then value ||| 0x200 else value
  let value := value >>> 1
  let state := { state with P := carrySet state.P value }
  let state := { state with P := negativeSet state.P value }
  let state := { state with P := zeroSet state.P value }
  addressing.Store state ((value &&& 0x00FF) % 256)

/-- `SetCarry` (SEC) of operation.go. -/
def SetCarry (state : State) (addressing : Addressing) : Except Error (State × Option Memory) :=
  .ok ({ state with P := Status.SetCarry state.P }, addressing.Memory)

/-- `SetDecimal` (SED) of operation.go. -/
def SetDecimal (state : State) (addressing : Addressing) : Except Error (State × Option Memory) :=
  .ok ({ state with P := Status.SetDecimal state.P }, addressing.Memory)

/-- `SetInterrupt` (SEI) of operation.go. -/
def SetInterrupt (state : State) (addressing : Addressing) :
    Except Error (State × Option Memory) :=
  .ok ({ state with P := Status.SetInterrupt state.P }, addressing.Memory)

/-- `StoreA` (STA) of operation.go. -/
def StoreA (state : State) (addressing : Addressing) : Except Error (State × Option Memory) :=
  addressing.Store state state.A

/-- `StoreX` (STX) of operation.go. -/
def StoreX (state : State) (addressing : Addressing) : Except Error (State × Option Memory) :=
  addressing.Store state state.X

/-- `StoreY` (STY) of operation.go. -/
def StoreY (state : State) (addressing : Addressing) : Except Error (State × Option Memory) :=
  addressing.Store state state.Y

/-- `TestBitsInMemoryWithAccumulator` (BIT) of operation.go. -/
def TestBitsInMemoryWithAccumulator (state : State) (addressing : Addressing) :
    Except Error (State × Option Memory) :=
  let value := addressing.Value &&& state.A
  let state := { state with P := zeroSet state.P value }
  let state := { state with P := negativeSet state.P addressing.Value }
  let state := { state with P := Status.ClearOverflow state.P }
  let state :=
    if (addressing.Value &&& FlagOverflow) != 0 then
      { state with P := Status.SetOverflow state.P }
    else state
  .ok (state, addressing.Memory)

/-- `TransferAtoX` (TAX) of operation.go. -/
def TransferAtoX (state : State) (addressing : Addressing) :
    Except Error (State × Option Memory) :=
  let state := { state with X := state.A }
  let value := state.X
  let state := { state with P := zeroSet state.P value }
  let state := { state with P := negativeSet state.P value }
  .ok (state, addressing.Memory)

/-- `TransferAtoY` (TAY) of operation.go. -/
def TransferAtoY (state : State) (addressing : Addressing) :
    Except Error (State × Option Memory) :=
  let state := { state with Y := state.A }
  let value := state.Y
  let state := { state with P := zeroSet state.P value }
  let state := { state with P := negativeSet state.P value }
  .ok (state, addressing.Memory)

/-- `TransferSPtoX` (TSX) of operation.go. -/
def TransferSPtoX (state : State) (addressing : Addressing) :
    Except Error (State × Option Memory) :=
  let state := { state with X := state.SP }
  let value := state.X
  let state := { state with P := zeroSet state.P value }
  let state := { state with P := negativeSet state.P value }
  .ok (state, addressing.Memory)

/-- `TransferXtoA` (TXA) of operation.go. -/
def TransferXtoA (state : State) (addressing : Addressing) :
    Except Error (State × Option Memory) :=
  let state := { state with A := state.X }
  let value := state.A
  let state := { state with P := zeroSet state.P value }
  let state := { state with P := negativeSet state.P value }
  .ok (state, addressing.Memory)

/-- `TransferXtoSP` (TXS) of operation.go. -/
def TransferXtoSP (state : State) (addressing : Addressing) :
    Except Error (State × Option Memory) :=
  .ok ({ state with SP := state.X }, addressing.Memory)

/-- `TransferYtoA` (TYA) of operation.go. -/
def TransferYtoA (state : State) (addressing : Addressing) :
    Except Error (State × Option Memory) :=
  let state := { state with A := state.Y }
  let value := state.A
  let state := { state with P := zeroSet state.P value }
  let state := { state with P := negativeSet state.P value }
  .ok (state, addressing.Memory)

/-! ## cpu.go: construction, Reset and Execute -/

def StackPointerStart : Nat := 0xFD

/-- `NewCpu` of cpu.go: the zero snapshot, attached to the memory and the instruction
set. -/
def NewCpu (is : InstructionSet) (memory : Option Memory) : Except Error Cpu :=
  match is.validate with
  | some err => .error err
  | none =>
    match memory with
    | none => .error Error.MemoryMustBeProvided
    | some _ => .ok { State := ⟨0, 0, 0, 0, 0, 0⟩, memory := memory, instructionSet := is }

/-- `Cpu.Reset` of cpu.go on the receiver `c`: the receiver after the call and the
returned error.  The new snapshot is `State{PC: start, SP: StackPointerStart}`, whose
other fields are zero. -/
def Cpu.Reset (c : Option Cpu) : Option Cpu × Option Error :=
  match c with
  | none => (none, some Error.UninitialisedCpu)
  | some c =>
    match ReadResetVectorFromMemory c.memory with
    | .error err => (some c, some err)
    | .ok start =>
      (some { c with State := { PC := start, SP := StackPointerStart, A := 0, X := 0, Y := 0,
                                P := 0 } }, none)

/-- The loop of `Cpu.Execute`: `for elapsedCycles < cycles { ... }`.  Every call of `Step`
uses one unit of `fuel`; the result is `none` when the fuel runs out before the loop
ends or when `Step` panics. -/
def executeLoop (cycles : Nat) : Nat → Option Cpu → Nat → Option (Option Cpu × Nat × Option Error)
  | 0, c, elapsedCycles => if elapsedCycles < cycles then none else some (c, elapsedCycles, none)
  | fuel + 1, c, elapsedCycles =>
    if elapsedCycles < cycles then
      match Cpu.Step c with
      | none => none
      | some (c, stepCycles, err) =>
        let elapsedCycles := (elapsedCycles + stepCycles) % uintSize
        match err with
        | some err => some (c, elapsedCycles, some err)
        | none => executeLoop cycles fuel c elapsedCycles
    else some (c, elapsedCycles, none)

/-- `Cpu.Execute` of cpu.go on the receiver `c`: the receiver after the call, the elapsed
cycles and the returned error. -/
def Cpu.Execute (fuel : Nat) (c : Option Cpu) (cycles : Nat) :
    Option (Option Cpu × Nat × Option Error) :=
  match c with
  | none => some (none, 0, some Error.UninitialisedCpu)
  | some c =>
    let cycles := if cycles == 0 then uintSize - 1 - 100 else cycles
    let elapsedCycles := 0
    executeLoop cycles fuel (some c) elapsedCycles

/-- Consecutive calls of `Cpu.Step`, at most `k` of them and none after a call that
returned an error: the receiver after the last call, the cycle counts of the calls made
in order, and the error of the last call. -/
def stepN : Nat → Option Cpu → Option (Option Cpu × List Nat × Option Error)
  | 0, c => some (c, [], none)
  | k + 1, c =>
    match Cpu.Step c with
    | none => none
    | some (c, stepCycles, some err) => some (c, [stepCycles], some err)
    | some (c, stepCycles, none) =>
      match stepN k c with
      | none => none
      | some (c, rest, err) => some (c, stepCycles :: rest, err)

/-! ## memory.go: RepeatingRam -/

/-- The `RepeatingRam` of memory.go. -/
structure RepeatingRam where
  ram : List Nat
  size : Nat
  mask : Nat

/-- `RepeatingRam.Read` on the receiver `r` (`none` is the nil pointer); the result is
`none` when the index is outside the slice, where Go panics. -/
def RepeatingRam.Read (r : Option RepeatingRam) (address : Nat) : Option Nat :=
  match r with
  | none => some 0
  | some r => r.ram[r.mask &&& address]?

/-- `RepeatingRam.Write` on the receiver `r`: the receiver after the call, or `none`
when the index is outside the slice, where Go panics. -/
def RepeatingRam.Write (r : Option RepeatingRam) (address value : Nat) :
    Option (Option RepeatingRam) :=
  match r with
  | none => some none
  | some r =>
    if r.mask &&& address < r.ram.length then
      some (some { r with ram := r.ram.set (r.mask &&& address) value })
    else none

def EightBytes : Nat := 0x08
def SixteenBytes : Nat := 0x10
def ThirtyTwoBytes : Nat := 0x20
def SixtyFourBytes : Nat := 0x40
def OneHundredAndTwentyEightBytes : Nat := 0x80
def OneKiloByte : Nat := 0x400

/-- `NewRepeatingRam` of memory.go; `size` is a 16-bit `RepeatingRamSize`. -/
def NewRepeatingRam (size : Nat) : Except Error RepeatingRam :=
  if size = EightBytes ∨ size = SixteenBytes ∨ size = ThirtyTwoBytes ∨ size = SixtyFourBytes
      ∨ size = OneHundredAndTwentyEightBytes ∨ size = OneKiloByte then
    .ok { ram := List.replicate size 0, size := size % 65536,
          mask := (size + 65535) % 65536 }
  else .error Error.InvalidMemorySizeProvided

/-- The buffer, the size and the mask fit together as `NewRepeatingRam` sets them up. -/
def RepeatingRam.Valid (r : RepeatingRam) (size : Nat) : Prop :=
  r.ram.length = size ∧ r.size = size ∧ r.mask = size - 1

instance (r : RepeatingRam) (size : Nat) : Decidable (r.Valid size) := by
  unfold RepeatingRam.Valid
  infer_instance

/-! ## instruction.go: building and filling an instruction set -/

/-- The map assignment `m[k] = v` on a list of bindings with distinct keys. -/
def mapInsert {α : Type} (k : Nat) (v : α) (m : List (Nat × α)) : List (Nat × α) :=
  (k, v) :: m.filter (fun b => b.1 != k)

/-- `NewInstructionSet` of instruction.go. -/
def NewInstructionSet (is : List Instruction) : Except Error InstructionSet :=
  let instructions :=
    is.foldl (fun instructions instruction =>
      mapInsert instruction.Opcode instruction instructions) []
  let result : InstructionSet := { instructions := instructions }
  match result.validate with
  | some err => .error err
  | none => .ok result

/-- The body of the loop of `InstructionSet.Fill` for one `opcode`, on the set and the
local copy `instruction`, whose `Opcode` is overwritten when the gap is filled. -/
def fillStep (acc : InstructionSet × Instruction) (opcode : Nat) :
    InstructionSet × Instruction :=
  let key := opcode % 256
  match acc.1.instructions.lookup key with
  | some _ => acc
  | none =>
    let instruction := { acc.2 with Opcode := key }
    ({ instructions := mapInsert key instruction acc.1.instructions }, instruction)

/-- `InstructionSet.Fill` of instruction.go: the set after the call (the map is shared
with the receiver) and the returned error.  The loop `for opcode := range 255` visits
the opcodes `0` to `254`. -/
def InstructionSet.Fill (is : InstructionSet) (instruction : Instruction) :
    InstructionSet × Option Error :=
  match is.validate with
  | some err => (is, some err)
  | none => (((List.range 255).foldl fillStep (is, instruction)).1, none)

/-! ## mnemonic.go: the static opcode data -/

/-- The `MnemonicOperation` record of mnemonic.go, without its display texts and its
`AffectedFlags`, which no instruction is built from. -/
structure MnemonicOperation where
  Bytes : Nat
  Cycles : Nat
  PageBoundaryPenalty : Bool
  Operation : Option Operation

/-- The `MnemonicAddressingMode` record of mnemonic.go, without its display texts. -/
structure MnemonicAddressingMode where
  Bytes : Nat
  Cycles : Nat
  PageBoundaryPenalty : Bool
  AddressingFunc : Option AddressingFunc

/-- The `Mnemonic` record of mnemonic.go; `CycleAdjust` is a Go `int`. -/
structure Mnemonic where
  Opcode : Nat
  Operation : MnemonicOperation
  Addressing : MnemonicAddressingMode
  CycleAdjust : Int

/-- The flattened details of a mnemonic, without the display texts. -/
structure MnemonicDisplayDetails where
  Opcode : Nat
  Bytes : Nat
  Cycles : Nat
  PageBoundaryPenalty : Bool

namespace Records

/-! The addressing mode records and the operation records of mnemonic.go. -/

def Abs : MnemonicAddressingMode :=
  { Bytes := 2, Cycles := 3, PageBoundaryPenalty := false, AddressingFunc := some Absolute }

def AbsX : MnemonicAddressingMode :=
  { Bytes := 2, Cycles := 3, PageBoundaryPenalty := true, AddressingFunc := some AbsoluteX }

def AbsY : MnemonicAddressingMode :=
  { Bytes := 2, Cycles := 3, PageBoundaryPenalty := true, AddressingFunc := some AbsoluteY }

def Acc : MnemonicAddressingMode :=
  { Bytes := 0, Cycles := 0, PageBoundaryPenalty := false, AddressingFunc := some Accumulator }

def Imm : MnemonicAddressingMode :=
  { Bytes := 1, Cycles := 1, PageBoundaryPenalty := false, AddressingFunc := some Immediate }

def Imp : MnemonicAddressingMode :=
  { Bytes := 0, Cycles := 0, PageBoundaryPenalty := false, AddressingFunc := some Implied }

def Ind : MnemonicAddressingMode :=
  { Bytes := 2, Cycles := 4, PageBoundaryPenalty := false, AddressingFunc := some Indirect }

def IndX : MnemonicAddressingMode :=
  { Bytes := 1, Cycles := 5, PageBoundaryPenalty := false, AddressingFunc := some IndirectX }

def IndY : MnemonicAddressingMode :=
  { Bytes := 1, Cycles := 4, PageBoundaryPenalty := true, AddressingFunc := some IndirectY }

def Rel : MnemonicAddressingMode :=
  { Bytes := 1, Cycles := 1, PageBoundaryPenalty := true, AddressingFunc := some Relative }

def Zpg : MnemonicAddressingMode :=
  { Bytes := 1, Cycles := 2, PageBoundaryPenalty := false, AddressingFunc := some ZeroPage }

def ZpgX : MnemonicAddressingMode :=
  { Bytes := 1, Cycles := 3, PageBoundaryPenalty := false, AddressingFunc := some ZeroPageX }

def ZpgY : MnemonicAddressingMode :=
  { Bytes := 1, Cycles := 3, PageBoundaryPenalty := false, AddressingFunc := some ZeroPageY }

def Adc : MnemonicOperation :=
  { Bytes := 1, Cycles := 1, PageBoundaryPenalty := true, Operation := some AddWithCarry }

def And : MnemonicOperation :=
  { Bytes := 1, Cycles := 1, PageBoundaryPenalty := true, Operation := some AndWithA }

def Asl : MnemonicOperation :=
  { Bytes := 1, Cycles := 2, PageBoundaryPenalty := false, Operation := some ArithmeticShiftLeft }

def Bit : MnemonicOperation :=
  { Bytes := 1, Cycles := 1, PageBoundaryPenalty := false, Operation := some TestBitsInMemoryWithAccumulator }

def Bcc : MnemonicOperation :=
  { Bytes := 1, Cycles := 1, PageBoundaryPenalty := true, Operation := some BranchOnCarryClear }

def Bcs : MnemonicOperation :=
  { Bytes := 1, Cycles := 1, PageBoundaryPenalty := true, Operation := some BranchOnCarrySet }

def Beq : MnemonicOperation :=
  { Bytes := 1, Cycles := 1, PageBoundaryPenalty := true, Operation := some BranchOnEqual }

def Bmi : MnemonicOperation :=
  { Bytes := 1, Cycles := 1, PageBoundaryPenalty := true, Operation := some BranchOnMinus }

def Bne : MnemonicOperation :=
  { Bytes := 1, Cycles := 1, PageBoundaryPenalty := true, Operation := some BranchOnNotEqual }

def Bpl : MnemonicOperation :=
  { Bytes := 1, Cycles := 1, PageBoundaryPenalty := true, Operation := some BranchOnPlus }

def Brk : MnemonicOperation :=
  { Bytes := 1, Cycles := 7, PageBoundaryPenalty := false, Operation := some Break }

def Bvc : MnemonicOperation :=
  { Bytes := 1, Cycles := 1, PageBoundaryPenalty := true, Operation := some BranchOnOverflowClear }

def Bvs : MnemonicOperation :=
  { Bytes := 1, Cycles := 1, PageBoundaryPenalty := true, Operation := some BranchOnOverflowSet }

def Clc : MnemonicOperation :=
  { Bytes := 1, Cycles := 2, PageBoundaryPenalty := false, Operation := some ClearCarry }

def Cld : MnemonicOperation :=
  { Bytes := 1, Cycles := 2, PageBoundaryPenalty := false, Operation := some ClearDecimal }

def Cli : MnemonicOperation :=
  { Bytes := 1, Cycles := 2, PageBoundaryPenalty := false, Operation := some ClearInterrupt }

def Clv : MnemonicOperation :=
  { Bytes := 1, Cycles := 2, PageBoundaryPenalty := false, Operation := some ClearOverflow }

def Cmp : MnemonicOperation :=
  { Bytes := 1, Cycles := 1, PageBoundaryPenalty := true, Operation := some CompareWithA }

def Cpx : MnemonicOperation :=
  { Bytes := 1, Cycles := 1, PageBoundaryPenalty := false, Operation := some CompareWithX }

def Cpy : MnemonicOperation :=
  { Bytes := 1, Cycles := 1, PageBoundaryPenalty := true, Operation := some CompareWithY }

def Dec : MnemonicOperation :=
  { Bytes := 1, Cycles := 3, PageBoundaryPenalty := false, Operation := some Decrement }

def Dex : MnemonicOperation :=
  { Bytes := 1, Cycles := 2, PageBoundaryPenalty := false, Operation := some DecrementX }

def Dey : MnemonicOperation :=
  { Bytes := 1, Cycles := 2, PageBoundaryPenalty := false, Operation := some DecrementY }

def Eor : MnemonicOperation :=
  { Bytes := 1, Cycles := 1, PageBoundaryPenalty := true, Operation := some ExclusiveOrWithA }

def Inc : MnemonicOperation :=
  { Bytes := 1, Cycles := 3, PageBoundaryPenalty := false, Operation := some Increment }

def Inx : MnemonicOperation :=
  { Bytes := 1, Cycles := 2, PageBoundaryPenalty := false, Operation := some IncrementX }

def Iny : MnemonicOperation :=
  { Bytes := 1, Cycles := 2, PageBoundaryPenalty := false, Operation := some IncrementY }

def Jmp : MnemonicOperation :=
  { Bytes := 1, Cycles := 1, PageBoundaryPenalty := false, Operation := some Jump }

def Jsr : MnemonicOperation :=
  { Bytes := 1, Cycles := 3, PageBoundaryPenalty := false, Operation := some JumpSubRoutine }

def Lda : MnemonicOperation :=
  { Bytes := 1, Cycles := 1, PageBoundaryPenalty := true, Operation := some LoadA }

def Ldx : MnemonicOperation :=
  { Bytes := 1, Cycles := 1, PageBoundaryPenalty := true, Operation := some LoadX }

def Ldy : MnemonicOperation :=
  { Bytes := 1, Cycles := 1, PageBoundaryPenalty := true, Operation := some LoadY }

def Lsr : MnemonicOperation :=
  { Bytes := 1, Cycles := 2, PageBoundaryPenalty := false, Operation := some LogicalShiftRight }

def Nop : MnemonicOperation :=
  { Bytes := 1, Cycles := 2, PageBoundaryPenalty := false, Operation := some NoOperation }

def Ora : MnemonicOperation :=
  { Bytes := 1, Cycles := 1, PageBoundaryPenalty := true, Operation := some OrWithA }

def Pha : MnemonicOperation :=
  { Bytes := 1, Cycles := 3, PageBoundaryPenalty := false, Operation := some PushA }

def Php : MnemonicOperation :=
  { Bytes := 1, Cycles := 3, PageBoundaryPenalty := false, Operation := some PushP }

def Pla : MnemonicOperation :=
  { Bytes := 1, Cycles := 4, PageBoundaryPenalty := false, Operation := some PullA }

def Plp : MnemonicOperation :=
  { Bytes := 1, Cycles := 4, PageBoundaryPenalty := false, Operation := some PullP }

def Rol : MnemonicOperation :=
  { Bytes := 1, Cycles := 2, PageBoundaryPenalty := false, Operation := some RotateLeft }

def Ror : MnemonicOperation :=
  { Bytes := 1, Cycles := 2, PageBoundaryPenalty := false, Operation := some RotateRight }

def Rti : MnemonicOperation :=
  { Bytes := 1, Cycles := 6, PageBoundaryPenalty := false, Operation := some ReturnFromInterrupt }

def Rts : MnemonicOperation :=
  { Bytes := 1, Cycles := 6, PageBoundaryPenalty := false, Operation := some ReturnFromSubroutine }

def Sbc : MnemonicOperation :=
  { Bytes := 1, Cycles := 1, PageBoundaryPenalty := true, Operation := some SubtractWithCarry }

def Sec : MnemonicOperation :=
  { Bytes := 1, Cycles := 2, PageBoundaryPenalty := false, Operation := some SetCarry }

def Sed : MnemonicOperation :=
  { Bytes := 1, Cycles := 2, PageBoundaryPenalty := false, Operation := some SetDecimal }

def Sei : MnemonicOperation :=
  { Bytes := 1, Cycles := 2, PageBoundaryPenalty := false, Operation := some SetInterrupt }

def Sta : MnemonicOperation :=
  { Bytes := 1, Cycles := 1, PageBoundaryPenalty := false, Operation := some StoreA }

def Stx : MnemonicOperation :=
  { Bytes := 1, Cycles := 1, PageBoundaryPenalty := false, Operation := some StoreX }

def Sty : MnemonicOperation :=
  { Bytes := 1, Cycles := 1, PageBoundaryPenalty := false, Operation := some StoreY }

def Tax : MnemonicOperation :=
  { Bytes := 1, Cycles := 2, PageBoundaryPenalty := false, Operation := some TransferAtoX }

def Tay : MnemonicOperation :=
  { Bytes := 1, Cycles := 2, PageBoundaryPenalty := false, Operation := some TransferAtoY }

def Tsx : MnemonicOperation :=
  { Bytes := 1, Cycles := 2, PageBoundaryPenalty := false, Operation := some TransferSPtoX }

def Txa : MnemonicOperation :=
  { Bytes := 1, Cycles := 2, PageBoundaryPenalty := false, Operation := some TransferXtoA }

def Txs : MnemonicOperation :=
  { Bytes := 1, Cycles := 2, PageBoundaryPenalty := false, Operation := some TransferXtoSP }

def Tya : MnemonicOperation :=
  { Bytes := 1, Cycles := 2, PageBoundaryPenalty := false, Operation := some TransferYtoA }

end Records

/-- The `opcodes` table of mnemonic.go, in the order of the source. -/
def opcodes : List Mnemonic := [
  -- ADC
  Mnemonic.mk 0x61 Records.Adc Records.IndX 0,
  Mnemonic.mk 0x65 Records.Adc Records.Zpg 0,
  Mnemonic.mk 0x69 Records.Adc Records.Imm 0,
  Mnemonic.mk 0x6D Records.Adc Records.Abs 0,
  Mnemonic.mk 0x71 Records.Adc Records.IndY 0,
  Mnemonic.mk 0x75 Records.Adc Records.ZpgX 0,
  Mnemonic.mk 0x79 Records.Adc Records.AbsY 0,
  Mnemonic.mk 0x7D Records.Adc Records.AbsX 0,
  -- AND
  Mnemonic.mk 0x21 Records.And Records.IndX 0,
  Mnemonic.mk 0x25 Records.And Records.Zpg 0,
  Mnemonic.mk 0x29 Records.And Records.Imm 0,
  Mnemonic.mk 0x2D Records.And Records.Abs 0,
  Mnemonic.mk 0x31 Records.And Records.IndY 0,
  Mnemonic.mk 0x35 Records.And Records.ZpgX 0,
  Mnemonic.mk 0x39 Records.And Records.AbsY 0,
  Mnemonic.mk 0x3D Records.And Records.AbsX 0,
  -- ASL
  Mnemonic.mk 0x06 Records.Asl Records.Zpg 1,
  Mnemonic.mk 0x0A Records.Asl Records.Acc 0,
  Mnemonic.mk 0x0E Records.Asl Records.Abs 1,
  Mnemonic.mk 0x16 Records.Asl Records.ZpgX 1,
  Mnemonic.mk 0x1E Records.Asl Records.AbsX 2,
  -- BCC
  Mnemonic.mk 0x90 Records.Bcc Records.Rel 0,
  -- BCS
  Mnemonic.mk 0xB0 Records.Bcs Records.Rel 0,
  -- BEQ
  Mnemonic.mk 0xF0 Records.Beq Records.Rel 0,
  -- BIT
  Mnemonic.mk 0x24 Records.Bit Records.Zpg 0,
  Mnemonic.mk 0x2C Records.Bit Records.Abs 0,
  -- BMI
  Mnemonic.mk 0x30 Records.Bmi Records.Rel 0,
  -- BNE
  Mnemonic.mk 0xD0 Records.Bne Records.Rel 0,
  -- BPL
  Mnemonic.mk 0x10 Records.Bpl Records.Rel 0,
  -- BRK
  Mnemonic.mk 0x00 Records.Brk Records.Imp 0,
  -- BVC
  Mnemonic.mk 0x50 Records.Bvc Records.Rel 0,
  -- BVS
  Mnemonic.mk 0x70 Records.Bvs Records.Rel 0,
  -- CLC
  Mnemonic.mk 0x18 Records.Clc Records.Imp 0,
  -- CLD
  Mnemonic.mk 0xD8 Records.Cld Records.Imp 0,
  -- CLI
  Mnemonic.mk 0x58 Records.Cli Records.Imp 0,
  -- CLV
  Mnemonic.mk 0xB8 Records.Clv Records.Imp 0,
  -- CMP
  Mnemonic.mk 0xC1 Records.Cmp Records.IndX 0,
  Mnemonic.mk 0xC5 Records.Cmp Records.Zpg 0,
  Mnemonic.mk 0xC9 Records.Cmp Records.Imm 0,
  Mnemonic.mk 0xCD Records.Cmp Records.Abs 0,
  Mnemonic.mk 0xD1 Records.Cmp Records.IndY 0,
  Mnemonic.mk 0xD5 Records.Cmp Records.ZpgX 0,
  Mnemonic.mk 0xD9 Records.Cmp Records.AbsY 0,
  Mnemonic.mk 0xDD Records.Cmp Records.AbsX 0,
  -- CPX
  Mnemonic.mk 0xE0 Records.Cpx Records.Imm 0,
  Mnemonic.mk 0xE4 Records.Cpx Records.Zpg 0,
  Mnemonic.mk 0xEC Records.Cpx Records.Abs 0,
  -- CPY
  Mnemonic.mk 0xC0 Records.Cpy Records.Imm 0,
  Mnemonic.mk 0xC4 Records.Cpy Records.Zpg 0,
  Mnemonic.mk 0xCC Records.Cpy Records.Abs 0,
  -- DEC
  Mnemonic.mk 0xC6 Records.Dec Records.Zpg 0,
  Mnemonic.mk 0xCE Records.Dec Records.Abs 1,
  Mnemonic.mk 0xD6 Records.Dec Records.ZpgX 0,
  Mnemonic.mk 0xDE Records.Dec Records.AbsX 1,
  -- DEX
  Mnemonic.mk 0xCA Records.Dex Records.Imp 0,
  -- DEY
  Mnemonic.mk 0x88 Records.Dey Records.Imp 0,
  -- EOR
  Mnemonic.mk 0x41 Records.Eor Records.IndX 0,
  Mnemonic.mk 0x45 Records.Eor Records.Zpg 0,
  Mnemonic.mk 0x49 Records.Eor Records.Imm 0,
  Mnemonic.mk 0x4D Records.Eor Records.Abs 0,
  Mnemonic.mk 0x51 Records.Eor Records.IndY 0,
  Mnemonic.mk 0x55 Records.Eor Records.ZpgX 0,
  Mnemonic.mk 0x59 Records.Eor Records.AbsY 0,
  Mnemonic.mk 0x5D Records.Eor Records.AbsX 0,
  -- INC
  Mnemonic.mk 0xE6 Records.Inc Records.Zpg 0,
  Mnemonic.mk 0xEE Records.Inc Records.Abs 1,
  Mnemonic.mk 0xF6 Records.Inc Records.ZpgX 0,
  Mnemonic.mk 0xFE Records.Inc Records.AbsX 1,
  -- INX
  Mnemonic.mk 0xE8 Records.Inx Records.Imp 0,
  -- INY
  Mnemonic.mk 0xC8 Records.Iny Records.Imp 0,
  -- JMP
  Mnemonic.mk 0x4C Records.Jmp Records.Abs (-1),
  Mnemonic.mk 0x6C Records.Jmp Records.Ind 0,
  -- JSR
  Mnemonic.mk 0x20 Records.Jsr Records.Abs 0,
  -- LDA
  Mnemonic.mk 0xA1 Records.Lda Records.IndX 0,
  Mnemonic.mk 0xA5 Records.Lda Records.Zpg 0,
  Mnemonic.mk 0xA9 Records.Lda Records.Imm 0,
  Mnemonic.mk 0xAD Records.Lda Records.Abs 0,
  Mnemonic.mk 0xB1 Records.Lda Records.IndY 0,
  Mnemonic.mk 0xB5 Records.Lda Records.ZpgX 0,
  Mnemonic.mk 0xB9 Records.Lda Records.AbsY 0,
  Mnemonic.mk 0xBD Records.Lda Records.AbsX 0,
  -- LDX
  Mnemonic.mk 0xA2 Records.Ldx Records.Imm 0,
  Mnemonic.mk 0xA6 Records.Ldx Records.Zpg 0,
  Mnemonic.mk 0xAE Records.Ldx Records.Abs 0,
  Mnemonic.mk 0xB6 Records.Ldx Records.ZpgY 0,
  Mnemonic.mk 0xBE Records.Ldx Records.AbsY 0,
  -- LDY
  Mnemonic.mk 0xA0 Records.Ldy Records.Imm 0,
  Mnemonic.mk 0xA4 Records.Ldy Records.Zpg 0,
  Mnemonic.mk 0xAC Records.Ldy Records.Abs 0,
  Mnemonic.mk 0xB4 Records.Ldy Records.ZpgX 0,
  Mnemonic.mk 0xBC Records.Ldy Records.AbsX 0,
  -- LSR
  Mnemonic.mk 0x46 Records.Lsr Records.Zpg 1,
  Mnemonic.mk 0x4A Records.Lsr Records.Acc 0,
  Mnemonic.mk 0x4E Records.Lsr Records.Abs 1,
  Mnemonic.mk 0x56 Records.Lsr Records.ZpgX 1,
  Mnemonic.mk 0x5E Records.Lsr Records.AbsX 2,
  -- NOP
  Mnemonic.mk 0xEA Records.Nop Records.Imp 0,
  -- ORA
  Mnemonic.mk 0x01 Records.Ora Records.IndX 0,
  Mnemonic.mk 0x05 Records.Ora Records.Zpg 0,
  Mnemonic.mk 0x09 Records.Ora Records.Imm 0,
  Mnemonic.mk 0x0D Records.Ora Records.Abs 0,
  Mnemonic.mk 0x11 Records.Ora Records.IndY 0,
  Mnemonic.mk 0x15 Records.Ora Records.ZpgX 0,
  Mnemonic.mk 0x19 Records.Ora Records.AbsY 0,
  Mnemonic.mk 0x1D Records.Ora Records.AbsX 0,
  -- PHA
  Mnemonic.mk 0x48 Records.Pha Records.Imp 0,
  -- PHP
  Mnemonic.mk 0x08 Records.Php Records.Imp 0,
  -- PLA
  Mnemonic.mk 0x68 Records.Pla Records.Imp 0,
  -- PLP
  Mnemonic.mk 0x28 Records.Plp Records.Imp 0,
  -- ROL
  Mnemonic.mk 0x26 Records.Rol Records.Zpg 1,
  Mnemonic.mk 0x2A Records.Rol Records.Acc 0,
  Mnemonic.mk 0x2E Records.Rol Records.Abs 1,
  Mnemonic.mk 0x36 Records.Rol Records.ZpgX 1,
  Mnemonic.mk 0x3E Records.Rol Records.AbsX 2,
  -- ROR
  Mnemonic.mk 0x66 Records.Ror Records.Zpg 1,
  Mnemonic.mk 0x6A Records.Ror Records.Acc 0,
  Mnemonic.mk 0x6E Records.Ror Records.Abs 1,
  Mnemonic.mk 0x76 Records.Ror Records.ZpgX 1,
  Mnemonic.mk 0x7E Records.Ror Records.AbsX 2,
  -- RTI
  Mnemonic.mk 0x40 Records.Rti Records.Imp 0,
  -- RTS
  Mnemonic.mk 0x60 Records.Rts Records.Imp 0,
  -- SBC
  Mnemonic.mk 0xE1 Records.Sbc Records.IndX 0,
  Mnemonic.mk 0xE5 Records.Sbc Records.Zpg 0,
  Mnemonic.mk 0xE9 Records.Sbc Records.Imm 0,
  Mnemonic.mk 0xED Records.Sbc Records.Abs 0,
  Mnemonic.mk 0xF1 Records.Sbc Records.IndY 0,
  Mnemonic.mk 0xF5 Records.Sbc Records.ZpgX 0,
  Mnemonic.mk 0xF9 Records.Sbc Records.AbsY 0,
  Mnemonic.mk 0xFD Records.Sbc Records.AbsX 0,
  -- SEC
  Mnemonic.mk 0x38 Records.Sec Records.Imp 0,
  -- SED
  Mnemonic.mk 0xF8 Records.Sed Records.Imp 0,
  -- SEI
  Mnemonic.mk 0x78 Records.Sei Records.Imp 0,
  -- STA
  Mnemonic.mk 0x81 Records.Sta Records.IndX 0,
  Mnemonic.mk 0x85 Records.Sta Records.Zpg 0,
  Mnemonic.mk 0x8D Records.Sta Records.Abs 0,
  Mnemonic.mk 0x91 Records.Sta Records.IndY 1,
  Mnemonic.mk 0x95 Records.Sta Records.ZpgX 0,
  Mnemonic.mk 0x99 Records.Sta Records.AbsY 1,
  Mnemonic.mk 0x9D Records.Sta Records.AbsX 1,
  -- STX
  Mnemonic.mk 0x86 Records.Stx Records.Zpg 0,
  Mnemonic.mk 0x8E Records.Stx Records.Abs 0,
  Mnemonic.mk 0x96 Records.Stx Records.ZpgY 0,
  -- STY
  Mnemonic.mk 0x84 Records.Sty Records.Zpg 0,
  Mnemonic.mk 0x8C Records.Sty Records.Abs 0,
  Mnemonic.mk 0x94 Records.Sty Records.ZpgX 0,
  -- TAX
  Mnemonic.mk 0xAA Records.Tax Records.Imp 0,
  -- TAY
  Mnemonic.mk 0xA8 Records.Tay Records.Imp 0,
  -- TSX
  Mnemonic.mk 0xBA Records.Tsx Records.Imp 0,
  -- TXA
  Mnemonic.mk 0x8A Records.Txa Records.Imp 0,
  -- TXS
  Mnemonic.mk 0x9A Records.Txs Records.Imp 0,
  -- TYA
  Mnemonic.mk 0x98 Records.Tya Records.Imp 0 ]

/-- The conversion `int(x)` of a Go `uint`: the 64-bit pattern read as two's complement. -/
def intOfUint (x : Nat) : Int := ((x : Int) + 2 ^ 63) % 2 ^ 64 - 2 ^ 63

/-- A result of Go `int` arithmetic: reduced to the 64-bit two's complement range. -/
def wrapInt (z : Int) : Int := (z + 2 ^ 63) % 2 ^ 64 - 2 ^ 63

/-- The conversion `uint(z)` of a Go `int`. -/
def uintOfInt (z : Int) : Nat := (z % 2 ^ 64).toNat

/-- `NewInstruction` of mnemonic.go. -/
def NewInstruction (mnemonic : Mnemonic) : Instruction :=
  let cycles := intOfUint mnemonic.Operation.Cycles
  let cycles := if cycles > 0 then wrapInt (cycles - 1) else cycles
  let cycles := wrapInt (cycles + intOfUint mnemonic.Addressing.Cycles)
  let cycles := wrapInt (cycles + mnemonic.CycleAdjust)
  { Opcode := mnemonic.Opcode
    AddressingFunc := mnemonic.Addressing.AddressingFunc
    Operation := mnemonic.Operation.Operation
    Cycles := uintOfInt cycles
    PageBoundaryPenalty :=
      mnemonic.Operation.PageBoundaryPenalty && mnemonic.Addressing.PageBoundaryPenalty }

/-- `NewMnemonicDisplayDetails` of mnemonic.go. -/
def NewMnemonicDisplayDetails (mnemonic : Mnemonic) : MnemonicDisplayDetails :=
  let instruction := NewInstruction mnemonic
  { Opcode := mnemonic.Opcode
    Bytes := (mnemonic.Operation.Bytes + mnemonic.Addressing.Bytes) % uintSize
    Cycles := (instruction.Cycles + 1) % uintSize
    PageBoundaryPenalty := instruction.PageBoundaryPenalty }

/-- `AllOpcodes` of mnemonic.go: a copy of the table. -/
def AllOpcodes : List Mnemonic := opcodes

/-- The `mnemonics` map of mnemonic.go, populated from the table by `init`. -/
def mnemonics : List (Nat × Mnemonic) :=
  opcodes.foldl (fun mnemonics opcode => mapInsert opcode.Opcode opcode mnemonics) []

/-- `MnemonicFromOpCode` of mnemonic.go; `none` stands for its error. -/
def MnemonicFromOpCode (opcode : Nat) : Option Mnemonic := mnemonics.lookup opcode

/-- `New6502InstructionSet` of nmos/instruction.go. -/
def New6502InstructionSet : Except Error InstructionSet :=
  NewInstructionSet (AllOpcodes.map NewInstruction)

/-- The cycle counts of the reference tables in the comments of the `opcodes` list of
mnemonic.go: for each opcode the figure of the cycles column, without the marks for the
page and branch penalties. -/
def documentedCycles : List (Nat × Nat) := [
  -- ADC
  (0x61, 6), (0x65, 3), (0x69, 2), (0x6D, 4), (0x71, 5), (0x75, 4), (0x79, 4), (0x7D, 4),
  -- AND
  (0x21, 6), (0x25, 3), (0x29, 2), (0x2D, 4), (0x31, 5), (0x35, 4), (0x39, 4), (0x3D, 4),
  -- ASL
  (0x06, 5), (0x0A, 2), (0x0E, 6), (0x16, 6), (0x1E, 7),
  -- BCC
  (0x90, 2),
  -- BCS
  (0xB0, 2),
  -- BEQ
  (0xF0, 2),
  -- BIT
  (0x24, 3), (0x2C, 4),
  -- BMI
  (0x30, 2),
  -- BNE
  (0xD0, 2),
  -- BPL
  (0x10, 2),
  -- BRK
  (0x00, 7),
  -- BVC
  (0x50, 2),
  -- BVS
  (0x70, 2),
  -- CLC
  (0x18, 2),
  -- CLD
  (0xD8, 2),
  -- CLI
  (0x58, 2),
  -- CLV
  (0xB8, 2),
  -- CMP
  (0xC1, 6), (0xC5, 3), (0xC9, 2), (0xCD, 4), (0xD1, 5), (0xD5, 4), (0xD9, 4), (0xDD, 4),
  -- CPX
  (0xE0, 2), (0xE4, 3), (0xEC, 4),
  -- CPY
  (0xC0, 2), (0xC4, 3), (0xCC, 4),
  -- DEC
  (0xC6, 5), (0xCE, 6), (0xD6, 6), (0xDE, 7),
  -- DEX
  (0xCA, 2),
  -- DEY
  (0x88, 2),
  -- EOR
  (0x41, 6), (0x45, 3), (0x49, 2), (0x4D, 4), (0x51, 5), (0x55, 4), (0x59, 4), (0x5D, 4),
  -- INC
  (0xE6, 5), (0xEE, 6), (0xF6, 6), (0xFE, 7),
  -- INX
  (0xE8, 2),
  -- INY
  (0xC8, 2),
  -- JMP
  (0x4C, 3), (0x6C, 5),
  -- JSR
  (0x20, 6),
  -- LDA
  (0xA1, 6), (0xA5, 3), (0xA9, 2), (0xAD, 4), (0xB1, 5), (0xB5, 4), (0xB9, 4), (0xBD, 4),
  -- LDX
  (0xA2, 2), (0xA6, 3), (0xAE, 4), (0xB6, 4), (0xBE, 4),
  -- LDY
  (0xA0, 2), (0xA4, 3), (0xAC, 4), (0xB4, 4), (0xBC, 4),
  -- LSR
  (0x46, 5), (0x4A, 2), (0x4E, 6), (0x56, 6), (0x5E, 7),
  -- NOP
  (0xEA, 2),
  -- ORA
  (0x01, 6), (0x05, 3), (0x09, 2), (0x0D, 4), (0x11, 5), (0x15, 4), (0x19, 4), (0x1D, 4),
  -- PHA
  (0x48, 3),
  -- PHP
  (0x08, 3),
  -- PLA
  (0x68, 4),
  -- PLP
  (0x28, 4),
  -- ROL
  (0x26, 5), (0x2A, 2), (0x2E, 6), (0x36, 6), (0x3E, 7),
  -- ROR
  (0x66, 5), (0x6A, 2), (0x6E, 6), (0x76, 6), (0x7E, 7),
  -- RTI
  (0x40, 6),
  -- RTS
  (0x60, 6),
  -- SBC
  (0xE1, 6), (0xE5, 3), (0xE9, 2), (0xED, 4), (0xF1, 5), (0xF5, 4), (0xF9, 4), (0xFD, 4),
  -- SEC
  (0x38, 2),
  -- SED
  (0xF8, 2),
  -- SEI
  (0x78, 2),
  -- STA
  (0x81, 6), (0x85, 3), (0x8D, 4), (0x91, 6), (0x95, 4), (0x99, 5), (0x9D, 5),
  -- STX
  (0x86, 3), (0x8E, 4), (0x96, 4),
  -- STY
  (0x84, 3), (0x8C, 4), (0x94, 4),
  -- TAX
  (0xAA, 2),
  -- TAY
  (0xA8, 2),
  -- TSX
  (0xBA, 2),
  -- TXA
  (0x8A, 2),
  -- TXS
  (0x9A, 2),
  -- TYA
  (0x98, 2) ]

/-- A 64K memory with the reset vector `0x0600` at `0xFFFC/0xFFFD`, zero elsewhere. -/
def resetMemory : Memory :=
  { cells := fun a => if a = 0xFFFC then 0x00 else if a = 0xFFFD then 0x06 else 0 }

/-- A Cpu over `resetMemory` with every register and every flag in use. -/
def resetCpu : Cpu :=
  { State := ⟨0x1234, 0x45, 0x11, 0x22, 0x33, 0xFF⟩, memory := some resetMemory,
    instructionSet := ⟨[(0x69, adcImmediate)]⟩ }

/-- The instruction `NOP` (opcode `0xEA`) of the table, used to fill the gaps of a set. -/
def fillInstruction : Instruction := NewInstruction ⟨0xEA, Records.Nop, Records.Imp, 0⟩

/-! ## memory.go: writing vectors -/

/-- `WriteVectorToMemory` of memory.go: the memory after the two writes, the low byte
at `address` and the high byte at `address + 1`. -/
def WriteVectorToMemory (memory : Option Memory) (address vector : Nat) : Except Error Memory :=
  match memory with
  | none => .error Error.MemoryMustBeProvided
  | some m =>
    let lowByte := (SplitAddress vector).1
    let highByte := (SplitAddress vector).2
    let m := m.Write address lowByte
    let m := m.Write ((address + 1) % 65536) highByte
    .ok m

def WriteNmiVectorToMemory (memory : Option Memory) (vector : Nat) : Except Error Memory :=
  WriteVectorToMemory memory NmiVectorAddress vector

def WriteResetVectorToMemory (memory : Option Memory) (vector : Nat) : Except Error Memory :=
  WriteVectorToMemory memory ResetVectorAddress vector

def WriteIrqVectorToMemory (memory : Option Memory) (vector : Nat) : Except Error Memory :=
  WriteVectorToMemory memory IrqVectorAddress vector

/-! ## Running a Cpu with the 6502 instruction set -/

/-- The instruction set returned by `New6502InstructionSet`. -/
@[irreducible]
def set6502 : InstructionSet :=
  match New6502InstructionSet with
  | .ok is => is
  | .error _ => { instructions := [] }

/-- The calls that change a Cpu once it is reset. -/
inductive Event where
  | Step
  | Interrupt
  | Nmi
  deriving DecidableEq, Repr

/-- One call on the receiver `c`: the receiver afterwards, or `none` when `Step` panics. -/
def applyEvent (c : Option Cpu) : Event → Option (Option Cpu)
  | .Step =>
    match Cpu.Step c with
    | none => none
    | some (c, _, _) => some c
  | .Interrupt => some (Cpu.Interrupt c).1
  | .Nmi => some (Cpu.Nmi c).1

/-- A sequence of calls on the receiver `c`, in order. -/
def runEvents : List Event → Option Cpu → Option (Option Cpu)
  | [], c => some c
  | e :: es, c =>
    match applyEvent c e with
    | none => none
    | some c => runEvents es c

/-- A 64K memory holding the opcode `0xEA` (NOP) in every cell. -/
def nopMemory : Memory := { cells := fun _ => 0xEA }

/-- A Cpu with the 6502 instruction set over `nopMemory`, as `NewCpu` returns it. -/
def nopCpu : Cpu :=
  { State := ⟨0, 0, 0, 0, 0, 0⟩, memory := some nopMemory, instructionSet := set6502 }

/-- A 64K memory holding `BNE $FE` (branch to itself) at `0x06FE`, so that the branch
target `0x06FE` and the next instruction `0x0700` lie on different pages. -/
def branchMemory : Memory :=
  { cells := fun a => if a = 0x06FE then 0xD0 else if a = 0x06FF then 0xFE else 0 }

/-- A Cpu with the 6502 instruction set over `branchMemory`, pc at the branch, Z clear. -/
def branchCpu : Cpu :=
  { State := ⟨0x06FE, 0xFD, 0, 0, 0, 0⟩, memory := some branchMemory, instructionSet := set6502 }

/-! ## Predicates of the operation theorems -/

/-- The zero flag of `p` says that the byte `r` is zero and its negative flag is bit 7
of `r`. -/
def reflects (p : Status) (r : Nat) : Prop :=
  (Status.ToFlags p).Zero = decide (r = 0) ∧ (Status.ToFlags p).Negative = hasBit r 7

instance (p : Status) (r : Nat) : Decidable (reflects p r) := by
  unfold reflects
  infer_instance

/-- The operation `op` computes a byte `r` and a status `p` from the snapshot and the
operand alone and hands them to `Store`: with the accumulator sentinel `r` goes to `A`
and the memory reference is returned as it is, otherwise `r` goes to the memory cell at
the effective address and `A` stays, and without a memory the operation fails. -/
def storesResult (op : Operation) : Prop :=
  ∀ (s : State) (v : Nat), ∃ r p, ∀ ad : Addressing, ad.Value = v →
    (ad.Accumulator = true → op s ad = .ok ({ s with A := r, P := p }, ad.Memory)) ∧
    (ad.Accumulator = false → ∀ m, ad.Memory = some m →
      op s ad = .ok ({ s with P := p }, some (m.Write ad.EffectiveAddress r))) ∧
    (ad.Accumulator = false → ad.Memory = none →
      op s ad = .error Error.MemoryMustBeProvided)

/-- The operation `op` leaves the B bit of the status clear when it was clear. -/
def keepsBreakClear (op : Operation) : Prop :=
  ∀ (s : State) (ad : Addressing) (s' : State) (w : Option Memory),
    op s ad = .ok (s', w) → hasBit s.P 4 = false → hasBit s'.P 4 = false

/-! ## Bit-level lemmas -/

theorem and_two_pow_ne_zero (p j : Nat) : ((p &&& 2 ^ j) != 0) = hasBit p j := by
  unfold hasBit
  rw [Nat.and_two_pow]
  cases p.testBit j <;> simp

theorem and_two_pow_eq (p q j : Nat) (h : hasBit p j = hasBit q j) : p &&& 2 ^ j = q &&& 2 ^ j := by
  unfold hasBit at h
  rw [Nat.and_two_pow, Nat.and_two_pow, h]

theorem hasBit_div_mod (p j : Nat) : hasBit p j = decide (p / 2 ^ j % 2 = 1) := by
  unfold hasBit
  exact Nat.testBit_to_div_mod

theorem and_ff_eq_mod (x : Nat) : x &&& 0xFF = x % 256 := Nat.and_pow_two_sub_one_eq_mod x 8

theorem and_0f_eq_mod (x : Nat) : x &&& 0x0F = x % 16 := Nat.and_pow_two_sub_one_eq_mod x 4

theorem and_7f_eq_mod (x : Nat) : x &&& 0x7F = x % 128 := Nat.and_pow_two_sub_one_eq_mod x 7

theorem and_80_ne_zero (x : Nat) : ((x &&& 0x80) != 0) = decide (x / 128 % 2 = 1) := by
  have h : ((x &&& 0x80) != 0) = hasBit x 7 := and_two_pow_ne_zero x 7
  rw [h, hasBit_div_mod]
  rfl

theorem and_ff00_ne_zero (x : Nat) (h : x < 65536) :
    ((x &&& 0xFF00) != 0) = decide (x ≥ 256) := by
  by_cases hx : x ≥ 256
  · obtain ⟨i, hi, hb⟩ := Nat.ge_two_pow_implies_high_bit_true (n := 8) hx
    have hi16 : i < 16 := by
      by_contra hc
      have hlt : x < 2 ^ i := lt_of_lt_of_le h (by
        calc 65536 = 2 ^ 16 := by norm_num
          _ ≤ 2 ^ i := Nat.pow_le_pow_right (by norm_num) (by omega))
      rw [Nat.testBit_lt_two_pow hlt] at hb
      exact absurd hb (by simp)
    have hm : Nat.testBit 0xFF00 i = true := by
      interval_cases i <;> decide
    have hbit : (x &&& 0xFF00).testBit i = true := by
      rw [Nat.testBit_and, hb, hm]; rfl
    have hne : x &&& 0xFF00 ≠ 0 := by
      intro h0
      rw [h0] at hbit
      simp at hbit
    simp [hx, hne]
  · have hlt : x < 2 ^ 8 := by omega
    have h0 : x &&& 0xFF00 = 0 := by
      apply Nat.eq_of_testBit_eq
      intro i
      rw [Nat.testBit_and, Nat.zero_testBit]
      by_cases hi : i < 8
      · have hm : Nat.testBit 0xFF00 i = false := by interval_cases i <;> decide
        simp [hm]
      · have hxi : x < 2 ^ i :=
          lt_of_lt_of_le hlt (Nat.pow_le_pow_right (by norm_num) (by omega))
        simp [Nat.testBit_lt_two_pow hxi]
    simp [hx, h0]

theorem xor_and_80_eq_zero (a v : Nat) :
    (((a ^^^ v) &&& 0x80) == 0) = decide (a / 128 % 2 = v / 128 % 2) := by
  have h : (((a ^^^ v) &&& 0x80) != 0) = hasBit (a ^^^ v) 7 := and_two_pow_ne_zero (a ^^^ v) 7
  have hx : hasBit (a ^^^ v) 7 = (hasBit a 7 ^^ hasBit v 7) := by
    unfold hasBit
    exact Nat.testBit_xor a v 7
  have ha : hasBit a 7 = decide (a / 128 % 2 = 1) := hasBit_div_mod a 7
  have hv : hasBit v 7 = decide (v / 128 % 2 = 1) := hasBit_div_mod v 7
  rw [hx, ha, hv] at h
  have hb : (((a ^^^ v) &&& 0x80) == 0) = !(((a ^^^ v) &&& 0x80) != 0) := by
    simp [bne]
  rw [hb, h]
  have h1 := Nat.mod_two_eq_zero_or_one (a / 128)
  have h2 := Nat.mod_two_eq_zero_or_one (v / 128)
  rcases h1 with h1 | h1 <;> rcases h2 with h2 | h2 <;> simp [h1, h2]

set_option maxRecDepth 100000 in
theorem xor_ff_eq (v : Nat) (h : v < 256) : v ^^^ 0xFF = 255 - v := by
  revert v
  decide

set_option maxRecDepth 100000 in
theorem and_f0_eq (v : Nat) (h : v < 256) : v &&& 0xF0 = v / 16 * 16 := by
  revert v
  decide

set_option maxRecDepth 100000 in
theorem or_10_eq (v : Nat) (h : v < 16) : 0x10 ||| v = 16 + v := by
  revert v
  decide

/-! ## Status lemmas -/

theorem ToFlags_eq (p : Nat) : Status.ToFlags p =
    { Carry := hasBit p 0, Zero := hasBit p 1, Interrupt := hasBit p 2, Decimal := hasBit p 3,
      Break := hasBit p 4, Overflow := hasBit p 6, Negative := hasBit p 7 } := by
  have h0 : (p &&& 1 != 0) = hasBit p 0 := and_two_pow_ne_zero p 0
  have h1 : (p &&& 2 != 0) = hasBit p 1 := and_two_pow_ne_zero p 1
  have h2 : (p &&& 4 != 0) = hasBit p 2 := and_two_pow_ne_zero p 2
  have h3 : (p &&& 8 != 0) = hasBit p 3 := and_two_pow_ne_zero p 3
  have h4 : (p &&& 16 != 0) = hasBit p 4 := and_two_pow_ne_zero p 4
  have h6 : (p &&& 64 != 0) = hasBit p 6 := and_two_pow_ne_zero p 6
  have h7 : (p &&& 128 != 0) = hasBit p 7 := and_two_pow_ne_zero p 7
  simp only [Status.ToFlags, FlagCarry, FlagZero, FlagInterrupt, FlagDecimal, FlagBreak,
    FlagOverflow, FlagNegative, h0, h1, h2, h3, h4, h6, h7]

theorem hasBit_setFlag (p i j : Nat) :
    hasBit (p ||| 2 ^ i) j = (hasBit p j || decide (j = i)) := by
  unfold hasBit
  rw [Nat.testBit_or, Nat.testBit_two_pow]
  congr 1
  simp [eq_comm]

theorem hasBit_clearFlag (p i j : Nat) (hj : j < 8) :
    hasBit (p &&& (0xFF ^^^ 2 ^ i)) j = (hasBit p j && !decide (j = i)) := by
  unfold hasBit
  have h255 : Nat.testBit 0xFF j = true := by
    have h := Nat.testBit_two_pow_sub_one 8 j
    simpa [hj] using h
  rw [Nat.testBit_and, Nat.testBit_xor, Nat.testBit_two_pow, h255]
  congr 1
  simp [eq_comm]

theorem hasBit_SetCarry (p j : Nat) :
    hasBit (Status.SetCarry p) j = (hasBit p j || decide (j = 0)) := hasBit_setFlag p 0 j

theorem hasBit_ClearCarry (p j : Nat) (hj : j < 8) :
    hasBit (Status.ClearCarry p) j = (hasBit p j && !decide (j = 0)) := hasBit_clearFlag p 0 j hj

theorem hasBit_SetZero (p j : Nat) :
    hasBit (Status.SetZero p) j = (hasBit p j || decide (j = 1)) := hasBit_setFlag p 1 j

theorem hasBit_ClearZero (p j : Nat) (hj : j < 8) :
    hasBit (Status.ClearZero p) j = (hasBit p j && !decide (j = 1)) := hasBit_clearFlag p 1 j hj

theorem hasBit_SetInterrupt (p j : Nat) :
    hasBit (Status.SetInterrupt p) j = (hasBit p j || decide (j = 2)) := hasBit_setFlag p 2 j

theorem hasBit_ClearInterrupt (p j : Nat) (hj : j < 8) :
    hasBit (Status.ClearInterrupt p) j = (hasBit p j && !decide (j = 2)) :=
  hasBit_clearFlag p 2 j hj

theorem hasBit_SetDecimal (p j : Nat) :
    hasBit (Status.SetDecimal p) j = (hasBit p j || decide (j = 3)) := hasBit_setFlag p 3 j

theorem hasBit_ClearDecimal (p j : Nat) (hj : j < 8) :
    hasBit (Status.ClearDecimal p) j = (hasBit p j && !decide (j = 3)) :=
  hasBit_clearFlag p 3 j hj

theorem hasBit_WithBreakSet (p j : Nat) :
    hasBit (Status.WithBreakSet p) j = (hasBit p j || decide (j = 4)) := hasBit_setFlag p 4 j

theorem hasBit_ClearBreak (p j : Nat) (hj : j < 8) :
    hasBit (Status.ClearBreak p) j = (hasBit p j && !decide (j = 4)) := hasBit_clearFlag p 4 j hj

theorem hasBit_WithConstantSet (p j : Nat) :
    hasBit (Status.WithConstantSet p) j = (hasBit p j || decide (j = 5)) := hasBit_setFlag p 5 j

theorem hasBit_SetOverflow (p j : Nat) :
    hasBit (Status.SetOverflow p) j = (hasBit p j || decide (j = 6)) := hasBit_setFlag p 6 j

theorem hasBit_ClearOverflow (p j : Nat) (hj : j < 8) :
    hasBit (Status.ClearOverflow p) j = (hasBit p j && !decide (j = 6)) :=
  hasBit_clearFlag p 6 j hj

theorem hasBit_SetNegative (p j : Nat) :
    hasBit (Status.SetNegative p) j = (hasBit p j || decide (j = 7)) := hasBit_setFlag p 7 j

theorem hasBit_ClearNegative (p j : Nat) (hj : j < 8) :
    hasBit (Status.ClearNegative p) j = (hasBit p j && !decide (j = 7)) :=
  hasBit_clearFlag p 7 j hj

/-- The four flag updates shared by ADC and SBC, bit by bit. -/
theorem hasBit_arith (p a v r j : Nat) (hj : j < 8) :
    hasBit (zeroSet (negativeSet (carrySet (overflowSet p a v r) r) r) r) j =
      if j = 0 then isCarrySet r
      else if j = 1 then isZero r
      else if j = 6 then isOverflow (Status.ToFlags p).Decimal a v r
      else if j = 7 then isNegative r
      else hasBit p j := by
  unfold zeroSet negativeSet carrySet overflowSet
  cases isZero r <;> cases isNegative r <;> cases isCarrySet r <;>
    cases isOverflow (Status.ToFlags p).Decimal a v r <;>
    simp only [hasBit_SetCarry, hasBit_ClearCarry, hasBit_SetZero, hasBit_ClearZero,
      hasBit_SetOverflow, hasBit_ClearOverflow, hasBit_SetNegative, hasBit_ClearNegative, hj,
      if_true, if_false, Bool.false_eq_true] <;>
    interval_cases j <;> simp


/-! ## ADC and SBC -/

theorem carryIn_le (p : Status) : carryIn p ≤ 1 := by
  unfold carryIn
  split <;> omega

theorem isCarrySet_eq (r : Nat) (h : r < 65536) : isCarrySet r = decide (r ≥ 256) :=
  and_ff00_ne_zero r h

theorem isNegative_eq (r : Nat) : isNegative r = decide (r / 128 % 2 = 1) :=
  and_80_ne_zero r

theorem isZero_eq (r : Nat) : isZero r = decide (r % 256 = 0) := by
  unfold isZero
  rw [and_ff_eq_mod]
  rfl

theorem toSigned_eq (v : Nat) :
    toSigned v = if v / 128 % 2 = 1 then ((v % 128 : Nat) : Int) - 128 else ((v % 128 : Nat) : Int) := by
  unfold toSigned
  rw [and_80_ne_zero, and_7f_eq_mod]
  simp

theorem isOverflow_eq (d : Bool) (a v r : Nat) :
    isOverflow d a v r =
      (decide (a / 128 % 2 = v / 128 % 2) &&
        if r ≥ (if d then 0xA0 else 0x100) then decide (r < 0x180) else decide (r ≥ 0x80)) := by
  unfold isOverflow
  rw [xor_and_80_eq_zero]
  by_cases h1 : a / 128 % 2 = v / 128 % 2 <;> by_cases h2 : r ≥ (if d then 0xA0 else 0x100) <;>
    by_cases h3 : r ≥ 0x180 <;> by_cases h4 : r < 0x80 <;> simp [h1, h2, h3, h4] <;> omega

theorem Flags_arith (p a v r : Nat) :
    Status.ToFlags (zeroSet (negativeSet (carrySet (overflowSet p a v r) r) r) r) =
      { Status.ToFlags p with
        Carry := isCarrySet r, Zero := isZero r,
        Overflow := isOverflow (Status.ToFlags p).Decimal a v r, Negative := isNegative r } := by
  rw [ToFlags_eq]
  simp [hasBit_arith, ToFlags_eq p]

/-- The status after the four flag updates of ADC and SBC, for a 16-bit intermediate `r`. -/
theorem arith_status (p a v r : Nat) (hr : r < 65536) :
    (Status.ToFlags (zeroSet (negativeSet (carrySet (overflowSet p a v r) r) r) r)).Carry =
        decide (r ≥ 256) ∧
    (Status.ToFlags (zeroSet (negativeSet (carrySet (overflowSet p a v r) r) r) r)).Zero =
        decide (r % 256 = 0) ∧
    (Status.ToFlags (zeroSet (negativeSet (carrySet (overflowSet p a v r) r) r) r)).Negative =
        ((r % 256 &&& 0x80) != 0) ∧
    (Status.ToFlags (zeroSet (negativeSet (carrySet (overflowSet p a v r) r) r) r)).Overflow =
        isOverflow (Status.ToFlags p).Decimal a v r ∧
    (Status.ToFlags (zeroSet (negativeSet (carrySet (overflowSet p a v r) r) r) r)).Interrupt =
        (Status.ToFlags p).Interrupt ∧
    (Status.ToFlags (zeroSet (negativeSet (carrySet (overflowSet p a v r) r) r) r)).Decimal =
        (Status.ToFlags p).Decimal ∧
    (Status.ToFlags (zeroSet (negativeSet (carrySet (overflowSet p a v r) r) r) r)).Break =
        (Status.ToFlags p).Break ∧
    zeroSet (negativeSet (carrySet (overflowSet p a v r) r) r) r &&& FlagConstant =
        p &&& FlagConstant := by
  rw [Flags_arith]
  refine ⟨isCarrySet_eq r hr, isZero_eq r, ?_, rfl, rfl, rfl, rfl, ?_⟩
  · show isNegative r = _
    rw [isNegative_eq, and_80_ne_zero]
    congr 1
    apply propext
    omega
  · apply and_two_pow_eq _ _ 5
    rw [hasBit_arith _ _ _ _ _ (by norm_num)]
    simp

/-- Claim C1. With the decimal flag clear, `AddWithCarry` succeeds for every accumulator,
operand byte and carry-in: the new accumulator is the sum modulo 256, C is the unsigned
carry, V the signed overflow, Z and N describe the new accumulator, and PC, SP, X, Y and
the I, D, B and Constant bits of P are unchanged. -/
theorem AddWithCarry_binary (s : State) (ad : Addressing)
    (hA : s.A < 256) (hV : ad.Value < 256) (hD : (Status.ToFlags s.P).Decimal = false) :
    ∃ s', AddWithCarry s ad = .ok (s', ad.Memory) ∧
      s'.A = (s.A + ad.Value + carryIn s.P) % 256 ∧
      (Status.ToFlags s'.P).Carry = decide (s.A + ad.Value + carryIn s.P > 255) ∧
      (Status.ToFlags s'.P).Overflow =
        decide (toSigned s.A + toSigned ad.Value + (carryIn s.P : Int) < -128 ∨
          toSigned s.A + toSigned ad.Value + (carryIn s.P : Int) > 127) ∧
      (Status.ToFlags s'.P).Zero = decide (s'.A = 0) ∧
      (Status.ToFlags s'.P).Negative = ((s'.A &&& 0x80) != 0) ∧
      s'.PC = s.PC ∧ s'.SP = s.SP ∧ s'.X = s.X ∧ s'.Y = s.Y ∧
      (Status.ToFlags s'.P).Interrupt = (Status.ToFlags s.P).Interrupt ∧
      (Status.ToFlags s'.P).Decimal = (Status.ToFlags s.P).Decimal ∧
      (Status.ToFlags s'.P).Break = (Status.ToFlags s.P).Break ∧
      s'.P &&& FlagConstant = s.P &&& FlagConstant := by
  have hc := carryIn_le s.P
  have hr : adcResult (Status.ToFlags s.P).Decimal s.A ad.Value (carryIn s.P) =
      s.A + ad.Value + carryIn s.P := by
    rw [hD]
    show (s.A + ad.Value + carryIn s.P) % 65536 = _
    omega
  obtain ⟨h1, h2, h3, h4, h5, h6, h7, h8⟩ :=
    arith_status s.P s.A ad.Value (s.A + ad.Value + carryIn s.P) (by omega)
  have hs : AddWithCarry s ad = .ok
      ({ s with
          P := zeroSet (negativeSet (carrySet (overflowSet s.P s.A ad.Value
            (s.A + ad.Value + carryIn s.P)) (s.A + ad.Value + carryIn s.P))
            (s.A + ad.Value + carryIn s.P)) (s.A + ad.Value + carryIn s.P),
          A := (s.A + ad.Value + carryIn s.P) % 256 }, ad.Memory) := by
    simp only [AddWithCarry, hr]
  refine ⟨_, hs, rfl, ?_, ?_, h2, h3, rfl, rfl, rfl, rfl, h5, h6, h7, h8⟩
  · rw [h1]
    congr 1
  · rw [h4, hD, isOverflow_eq, toSigned_eq, toSigned_eq, Bool.eq_iff_iff]
    simp only [Bool.and_eq_true, decide_eq_true_eq, Bool.false_eq_true, if_false]
    split_ifs <;> simp only [decide_eq_true_eq] <;> omega

/-- Claim C2. With the decimal flag clear, `SubtractWithCarry` returns
`A - value - (1 - cin)` modulo 256, sets C exactly when that difference is not negative
(no borrow), V exactly when the signed difference leaves `[-128, 127]`, Z and N from the
new accumulator, and leaves every other register and flag bit unchanged. -/
theorem SubtractWithCarry_binary (s : State) (ad : Addressing)
    (hA : s.A < 256) (hV : ad.Value < 256) (hD : (Status.ToFlags s.P).Decimal = false) :
    ∃ s', SubtractWithCarry s ad = .ok (s', ad.Memory) ∧
      (s'.A : Int) = ((s.A : Int) - ad.Value - (1 - carryIn s.P)) % 256 ∧
      (Status.ToFlags s'.P).Carry = decide ((s.A : Int) - ad.Value - (1 - carryIn s.P) ≥ 0) ∧
      (Status.ToFlags s'.P).Overflow =
        decide (toSigned s.A - toSigned ad.Value - (1 - (carryIn s.P : Int)) < -128 ∨
          toSigned s.A - toSigned ad.Value - (1 - (carryIn s.P : Int)) > 127) ∧
      (Status.ToFlags s'.P).Zero = decide (s'.A = 0) ∧
      (Status.ToFlags s'.P).Negative = ((s'.A &&& 0x80) != 0) ∧
      s'.PC = s.PC ∧ s'.SP = s.SP ∧ s'.X = s.X ∧ s'.Y = s.Y ∧
      (Status.ToFlags s'.P).Interrupt = (Status.ToFlags s.P).Interrupt ∧
      (Status.ToFlags s'.P).Decimal = (Status.ToFlags s.P).Decimal ∧
      (Status.ToFlags s'.P).Break = (Status.ToFlags s.P).Break ∧
      s'.P &&& FlagConstant = s.P &&& FlagConstant := by
  have hc := carryIn_le s.P
  have hx : ad.Value ^^^ 0x00FF = 255 - ad.Value := xor_ff_eq ad.Value hV
  have hr : sbcResult (Status.ToFlags s.P).Decimal s.A ad.Value (255 - ad.Value)
      (carryIn s.P) = s.A + (255 - ad.Value) + carryIn s.P := by
    rw [hD]
    show (s.A + (255 - ad.Value) + carryIn s.P) % 65536 = _
    omega
  obtain ⟨h1, h2, h3, h4, h5, h6, h7, h8⟩ :=
    arith_status s.P s.A (255 - ad.Value) (s.A + (255 - ad.Value) + carryIn s.P) (by omega)
  have hs : SubtractWithCarry s ad = .ok
      ({ s with
          P := zeroSet (negativeSet (carrySet (overflowSet s.P s.A (255 - ad.Value)
            (s.A + (255 - ad.Value) + carryIn s.P)) (s.A + (255 - ad.Value) + carryIn s.P))
            (s.A + (255 - ad.Value) + carryIn s.P)) (s.A + (255 - ad.Value) + carryIn s.P),
          A := (s.A + (255 - ad.Value) + carryIn s.P) % 256 }, ad.Memory) := by
    simp only [SubtractWithCarry, hx, hr]
  refine ⟨_, hs, ?_, ?_, ?_, h2, h3, rfl, rfl, rfl, rfl, h5, h6, h7, h8⟩
  · show (((s.A + (255 - ad.Value) + carryIn s.P) % 256 : Nat) : Int) = _
    omega
  · rw [h1, Bool.eq_iff_iff]
    simp only [decide_eq_true_eq]
    omega
  · rw [h4, hD, isOverflow_eq, toSigned_eq, toSigned_eq, Bool.eq_iff_iff]
    simp only [Bool.and_eq_true, decide_eq_true_eq, Bool.false_eq_true, if_false]
    split_ifs <;> simp only [decide_eq_true_eq] <;> omega

/-! ## Decimal mode -/

theorem ExtractBcdValues_eq (v : Nat) (h : v < 256) : ExtractBcdValues v = (v / 16, v % 16) := by
  unfold ExtractBcdValues
  rw [and_0f_eq_mod, and_f0_eq v h, Nat.shiftRight_eq_div_pow]
  simp

theorem validBcd_iff (v : Nat) : validBcd v ↔ v < 256 ∧ v / 16 ≤ 9 ∧ v % 16 ≤ 9 := by
  unfold validBcd
  constructor
  · rintro ⟨h, h1, h2⟩
    rw [ExtractBcdValues_eq v h] at h1 h2
    exact ⟨h, h1, h2⟩
  · rintro ⟨h, h1, h2⟩
    rw [ExtractBcdValues_eq v h]
    exact ⟨h, h1, h2⟩

theorem DecodeBcdValue_eq (v : Nat) (h : validBcd v) : DecodeBcdValue v = v / 16 * 10 + v % 16 := by
  obtain ⟨h0, h1, h2⟩ := (validBcd_iff v).mp h
  unfold DecodeBcdValue
  rw [ExtractBcdValues_eq v h0]
  simp only []
  rw [if_neg (by omega)]
  omega

set_option maxRecDepth 100000 in
theorem EncodeBcdValue_eq (n : Nat) (h : n < 256) :
    EncodeBcdValue n = n % 100 / 10 * 16 + n % 100 % 10 := by
  revert n
  decide

theorem or_10_mod (x : Nat) : 0x10 ||| (x % 16) = 16 + x % 16 :=
  or_10_eq (x % 16) (Nat.mod_lt _ (by norm_num))

theorem adcResult_decimal (a v c : Nat) (ha : validBcd a) (hv : validBcd v) (hc : c ≤ 1) :
    adcResult true a v c < 65536 ∧
    adcResult true a v c % 256 =
      (a / 16 * 10 + a % 16 + (v / 16 * 10 + v % 16) + c) % 100 / 10 * 16 +
        (a / 16 * 10 + a % 16 + (v / 16 * 10 + v % 16) + c) % 100 % 10 ∧
    (adcResult true a v c ≥ 256 ↔ a / 16 * 10 + a % 16 + (v / 16 * 10 + v % 16) + c ≥ 100) := by
  obtain ⟨ha0, ha1, ha2⟩ := (validBcd_iff a).mp ha
  obtain ⟨hv0, hv1, hv2⟩ := (validBcd_iff v).mp hv
  unfold adcResult
  simp only [if_true, and_0f_eq_mod, and_f0_eq a ha0, and_f0_eq v hv0, or_10_mod]
  generalize hlo : (a % 16 + v % 16 + c) % 65536 = lo
  have hlo1 : lo = a % 16 + v % 16 + c := by omega
  generalize hlo' : (if lo ≥ 10 then 16 + (lo + 6) % 65536 % 16 else lo) = lo'
  have hlo2 : lo' = lo % 10 + 16 * (lo / 10) := by
    subst hlo'
    split_ifs <;> omega
  generalize hres : (lo' + (a / 16 * 16 + v / 16 * 16) % 65536) % 65536 = res
  have hres1 : res = lo % 10 + 16 * (lo / 10 + a / 16 + v / 16) := by omega
  have hsum : a / 16 * 10 + a % 16 + (v / 16 * 10 + v % 16) + c =
      10 * (lo / 10 + a / 16 + v / 16) + lo % 10 := by omega
  rw [hsum]
  generalize hhi : lo / 10 + a / 16 + v / 16 = hi at hres1
  have hhi1 : hi ≤ 19 := by omega
  have hd : lo % 10 ≤ 9 := by omega
  generalize lo % 10 = d at hres1 hd
  subst hres1
  clear hres hlo2 hlo' hlo hlo1 hhi
  by_cases h10 : hi < 10
  · have e1 : (10 * hi + d) % 100 = 10 * hi + d := by omega
    have e2 : (10 * hi + d) / 10 = hi := by omega
    have e3 : (10 * hi + d) % 10 = d := by omega
    rw [e1, e2, e3]
    clear e1 e2 e3
    split_ifs <;> omega
  · have e1 : (10 * hi + d) % 100 = 10 * (hi - 10) + d := by omega
    have e2 : (10 * (hi - 10) + d) / 10 = hi - 10 := by omega
    have e3 : (10 * (hi - 10) + d) % 10 = d := by omega
    rw [e1, e2, e3]
    clear e1 e2 e3
    split_ifs <;> omega

theorem sbcResult_decimal (a v x c : Nat) (ha : validBcd a) (hv : validBcd v) (hc : c ≤ 1) :
    sbcResult true a v x c < 65536 ∧
    (sbcResult true a v x c % 256 : Nat) =
      (100 + (a / 16 * 10 + a % 16) - (v / 16 * 10 + v % 16) - (1 - c)) % 100 / 10 * 16 +
        (100 + (a / 16 * 10 + a % 16) - (v / 16 * 10 + v % 16) - (1 - c)) % 100 % 10 ∧
    (sbcResult true a v x c ≥ 256 ↔
      a / 16 * 10 + a % 16 ≥ v / 16 * 10 + v % 16 + (1 - c)) := by
  obtain ⟨ha0, ha1, ha2⟩ := (validBcd_iff a).mp ha
  obtain ⟨hv0, hv1, hv2⟩ := (validBcd_iff v).mp hv
  unfold sbcResult
  simp only [if_true, and_0f_eq_mod, and_f0_eq a ha0, and_f0_eq v hv0]
  generalize hlo : (15 + a % 16 + (65536 - v % 16) + c) % 65536 = lo
  have hlo1 : lo + v % 16 = 15 + a % 16 + c := by omega
  generalize hd : (if lo < 16 then (lo + (65536 - 6)) % 65536 else (lo + (65536 - 16)) % 65536) = d
  generalize hu : (if lo < 16 then 0 else 16) = u
  have hd1 : d = if lo < 16 then lo - 6 else lo - 16 := by
    subst hd
    split_ifs <;> omega
  have hu1 : u = if lo < 16 then 0 else 16 := hu.symm
  generalize hup : (u + (240 + a / 16 * 16 + (65536 - v / 16 * 16))) % 65536 = up
  have hup1 : up + v / 16 * 16 = u + 240 + a / 16 * 16 := by
    subst hup
    have : u ≤ 16 := by rw [hu1]; split_ifs <;> omega
    omega
  have key : ∃ hi, hi ≤ 19 ∧ up = 16 * hi + 96 ∧ d ≤ 9 ∧
      100 + (a / 16 * 10 + a % 16) - (v / 16 * 10 + v % 16) - (1 - c) = 10 * hi + d ∧
      (a / 16 * 10 + a % 16 ≥ v / 16 * 10 + v % 16 + (1 - c) ↔ hi ≥ 10) := by
    by_cases hl : lo < 16
    · rw [if_pos hl] at hd1 hu1
      exact ⟨a / 16 + 9 - v / 16, by omega, by omega, by omega, by omega, by omega⟩
    · rw [if_neg hl] at hd1 hu1
      exact ⟨a / 16 + 10 - v / 16, by omega, by omega, by omega, by omega, by omega⟩
  obtain ⟨hi, hhi, hup2, hd2, hsum, hge⟩ := key
  rw [hsum, hge]
  subst hup2
  clear hup1 hup hu1 hd1 hu hd hlo1 hlo hsum hge
  by_cases h10 : hi < 10
  · have e1 : (10 * hi + d) % 100 = 10 * hi + d := by omega
    have e2 : (10 * hi + d) / 10 = hi := by omega
    have e3 : (10 * hi + d) % 10 = d := by omega
    rw [e1, e2, e3]
    clear e1 e2 e3
    split_ifs <;> omega
  · have e1 : (10 * hi + d) % 100 = 10 * (hi - 10) + d := by omega
    have e2 : (10 * (hi - 10) + d) / 10 = hi - 10 := by omega
    have e3 : (10 * (hi - 10) + d) % 10 = d := by omega
    rw [e1, e2, e3]
    clear e1 e2 e3
    split_ifs <;> omega

/-- Claim C3. With the decimal flag set and valid packed-BCD operands, `AddWithCarry`
returns the BCD encoding of the decimal sum modulo 100, sets C exactly when the decimal
sum reaches 100, Z and N from the new accumulator, and leaves the decimal flag set. -/
theorem AddWithCarry_decimal (s : State) (ad : Addressing)
    (hA : validBcd s.A) (hV : validBcd ad.Value) (hD : (Status.ToFlags s.P).Decimal = true) :
    ∃ s', AddWithCarry s ad = .ok (s', ad.Memory) ∧
      s'.A = EncodeBcdValue
        ((DecodeBcdValue s.A + DecodeBcdValue ad.Value + carryIn s.P) % 100) ∧
      (Status.ToFlags s'.P).Carry =
        decide (DecodeBcdValue s.A + DecodeBcdValue ad.Value + carryIn s.P ≥ 100) ∧
      (Status.ToFlags s'.P).Zero = decide (s'.A = 0) ∧
      (Status.ToFlags s'.P).Negative = ((s'.A &&& 0x80) != 0) ∧
      (Status.ToFlags s'.P).Decimal = true := by
  have hc := carryIn_le s.P
  obtain ⟨hr0, hr1, hr2⟩ := adcResult_decimal s.A ad.Value (carryIn s.P) hA hV hc
  obtain ⟨h1, h2, h3, -, -, h6, -, -⟩ :=
    arith_status s.P s.A ad.Value (adcResult true s.A ad.Value (carryIn s.P)) hr0
  have hs : AddWithCarry s ad = .ok
      ({ s with
          P := zeroSet (negativeSet (carrySet (overflowSet s.P s.A ad.Value
            (adcResult true s.A ad.Value (carryIn s.P)))
            (adcResult true s.A ad.Value (carryIn s.P)))
            (adcResult true s.A ad.Value (carryIn s.P)))
            (adcResult true s.A ad.Value (carryIn s.P)),
          A := adcResult true s.A ad.Value (carryIn s.P) % 256 }, ad.Memory) := by
    simp only [AddWithCarry, hD]
  refine ⟨_, hs, ?_, ?_, h2, h3, h6.trans hD⟩
  · show adcResult true s.A ad.Value (carryIn s.P) % 256 = _
    rw [hr1, DecodeBcdValue_eq _ hA, DecodeBcdValue_eq _ hV, EncodeBcdValue_eq _ (by omega)]
    omega
  · rw [h1, DecodeBcdValue_eq _ hA, DecodeBcdValue_eq _ hV, Bool.eq_iff_iff]
    simp only [decide_eq_true_eq]
    exact hr2

/-- Claim C4. With the decimal flag set and valid packed-BCD operands,
`SubtractWithCarry` returns the BCD encoding of `d mod 100` for the decimal difference
`d = A - value - (1 - cin)` (100 is added when `d` is negative), sets C exactly when
`d` is not negative, and Z and N from the new accumulator. -/
theorem SubtractWithCarry_decimal (s : State) (ad : Addressing)
    (hA : validBcd s.A) (hV : validBcd ad.Value) (hD : (Status.ToFlags s.P).Decimal = true) :
    ∃ s', SubtractWithCarry s ad = .ok (s', ad.Memory) ∧
      s'.A = EncodeBcdValue (Int.toNat
        (((DecodeBcdValue s.A : Int) - DecodeBcdValue ad.Value - (1 - carryIn s.P)) % 100)) ∧
      (Status.ToFlags s'.P).Carry =
        decide ((DecodeBcdValue s.A : Int) - DecodeBcdValue ad.Value - (1 - carryIn s.P) ≥ 0) ∧
      (Status.ToFlags s'.P).Zero = decide (s'.A = 0) ∧
      (Status.ToFlags s'.P).Negative = ((s'.A &&& 0x80) != 0) := by
  have hc := carryIn_le s.P
  obtain ⟨ha0, ha1, ha2⟩ := (validBcd_iff s.A).mp hA
  obtain ⟨hv0, hv1, hv2⟩ := (validBcd_iff ad.Value).mp hV
  obtain ⟨hr0, hr1, hr2⟩ :=
    sbcResult_decimal s.A ad.Value (ad.Value ^^^ 0x00FF) (carryIn s.P) hA hV hc
  obtain ⟨h1, h2, h3, -, -, -, -, -⟩ :=
    arith_status s.P s.A (ad.Value ^^^ 0x00FF)
      (sbcResult true s.A ad.Value (ad.Value ^^^ 0x00FF) (carryIn s.P)) hr0
  have hs : SubtractWithCarry s ad = .ok
      ({ s with
          P := zeroSet (negativeSet (carrySet (overflowSet s.P s.A (ad.Value ^^^ 0x00FF)
            (sbcResult true s.A ad.Value (ad.Value ^^^ 0x00FF) (carryIn s.P)))
            (sbcResult true s.A ad.Value (ad.Value ^^^ 0x00FF) (carryIn s.P)))
            (sbcResult true s.A ad.Value (ad.Value ^^^ 0x00FF) (carryIn s.P)))
            (sbcResult true s.A ad.Value (ad.Value ^^^ 0x00FF) (carryIn s.P)),
          A := sbcResult true s.A ad.Value (ad.Value ^^^ 0x00FF) (carryIn s.P) % 256 },
        ad.Memory) := by
    simp only [SubtractWithCarry, hD]
  have hd : Int.toNat (((DecodeBcdValue s.A : Int) - DecodeBcdValue ad.Value -
      (1 - carryIn s.P)) % 100) =
      (100 + (s.A / 16 * 10 + s.A % 16) - (ad.Value / 16 * 10 + ad.Value % 16) -
        (1 - carryIn s.P)) % 100 := by
    rw [DecodeBcdValue_eq _ hA, DecodeBcdValue_eq _ hV]
    omega
  refine ⟨_, hs, ?_, ?_, h2, h3⟩
  · show sbcResult true s.A ad.Value (ad.Value ^^^ 0x00FF) (carryIn s.P) % 256 = _
    rw [hr1, hd, EncodeBcdValue_eq _ (by omega)]
    omega
  · rw [h1, DecodeBcdValue_eq _ hA, DecodeBcdValue_eq _ hV, Bool.eq_iff_iff]
    simp only [decide_eq_true_eq]
    rw [hr2]
    omega

theorem AddWithCarry_binary_witness :
    ((0x50 : Nat) < 256 ∧ (0x50 : Nat) < 256 ∧ (Status.ToFlags 0x01).Decimal = false) ∧
    ∃ s', AddWithCarry ⟨0x0600, 0xFD, 0x50, 0, 0, 0x01⟩ { Addressing.zero with Value := 0x50 } =
        .ok (s', none) ∧
      s'.A = 0xA1 ∧ (Status.ToFlags s'.P).Carry = false ∧ (Status.ToFlags s'.P).Overflow = true :=
  ⟨by decide,
    (AddWithCarry_binary ⟨0x0600, 0xFD, 0x50, 0, 0, 0x01⟩ { Addressing.zero with Value := 0x50 }
      (by decide) (by decide) (by decide)).imp
      (fun _ h => ⟨h.1, h.2.1.trans (by decide), h.2.2.1.trans (by decide),
        h.2.2.2.1.trans (by decide)⟩)⟩

theorem SubtractWithCarry_binary_witness :
    ((0x50 : Nat) < 256 ∧ (0xB0 : Nat) < 256 ∧ (Status.ToFlags 0x01).Decimal = false) ∧
    ∃ s', SubtractWithCarry ⟨0x0600, 0xFD, 0x50, 0, 0, 0x01⟩
        { Addressing.zero with Value := 0xB0 } = .ok (s', none) ∧
      (s'.A : Int) = 0xA0 ∧ (Status.ToFlags s'.P).Carry = false ∧
      (Status.ToFlags s'.P).Overflow = true :=
  ⟨by decide,
    (SubtractWithCarry_binary ⟨0x0600, 0xFD, 0x50, 0, 0, 0x01⟩
      { Addressing.zero with Value := 0xB0 } (by decide) (by decide) (by decide)).imp
      (fun _ h => ⟨h.1, h.2.1.trans (by decide), h.2.2.1.trans (by decide),
        h.2.2.2.1.trans (by decide)⟩)⟩

theorem AddWithCarry_decimal_witness :
    (validBcd 0x58 ∧ validBcd 0x46 ∧ (Status.ToFlags 0x09).Decimal = true) ∧
    ∃ s', AddWithCarry ⟨0x0600, 0xFD, 0x58, 0, 0, 0x09⟩ { Addressing.zero with Value := 0x46 } =
        .ok (s', none) ∧
      s'.A = 0x05 ∧ (Status.ToFlags s'.P).Carry = true :=
  ⟨by decide,
    (AddWithCarry_decimal ⟨0x0600, 0xFD, 0x58, 0, 0, 0x09⟩ { Addressing.zero with Value := 0x46 }
      (by decide) (by decide) (by decide)).imp
      (fun _ h => ⟨h.1, h.2.1.trans (by decide), h.2.2.1.trans (by decide)⟩)⟩

theorem SubtractWithCarry_decimal_witness :
    (validBcd 0x46 ∧ validBcd 0x12 ∧ (Status.ToFlags 0x09).Decimal = true) ∧
    ∃ s', SubtractWithCarry ⟨0x0600, 0xFD, 0x46, 0, 0, 0x09⟩
        { Addressing.zero with Value := 0x12 } = .ok (s', none) ∧
      s'.A = 0x34 ∧ (Status.ToFlags s'.P).Carry = true :=
  ⟨by decide,
    (SubtractWithCarry_decimal ⟨0x0600, 0xFD, 0x46, 0, 0, 0x09⟩
      { Addressing.zero with Value := 0x12 } (by decide) (by decide) (by decide)).imp
      (fun _ h => ⟨h.1, h.2.1.trans (by decide), h.2.2.1.trans (by decide)⟩)⟩

/-! ## Stack, interrupts and subroutines -/

theorem SplitAddress_eq (a : Nat) : SplitAddress a = (a % 256, a / 256 % 256) := by
  unfold SplitAddress
  simp only [and_ff_eq_mod, Nat.shiftRight_eq_div_pow]
  norm_num

theorem MakeAddress_eq (l h : Nat) (hl : l < 256) (hh : h < 256) :
    MakeAddress l h = l + 256 * h := by
  unfold MakeAddress
  have h1 : (h <<< 8) % 65536 = 2 ^ 8 * h := by
    rw [Nat.shiftLeft_eq]
    omega
  rw [h1, Nat.or_comm, ← Nat.mul_add_lt_is_or (by omega) h]
  omega

theorem MakeAddress_split (a : Nat) (ha : a < 65536) :
    MakeAddress (SplitAddress a).1 (SplitAddress a).2 = a := by
  rw [SplitAddress_eq]
  simp only []
  rw [MakeAddress_eq _ _ (by omega) (by omega)]
  omega

theorem Read_Write (m : Memory) (a v x : Nat) :
    (m.Write a v).Read x = if x = a then v else m.Read x := rfl

theorem pushed_break_status (p : Nat) (hp : p < 256) :
    Status.WithConstantSet (Status.WithBreakSet p) % 256 = p ||| 0x30 := by
  have h : Status.WithConstantSet (Status.WithBreakSet p) = p ||| 0x30 := by
    show p ||| 16 ||| 32 = p ||| 48
    rw [Nat.or_assoc]
    rfl
  rw [h]
  exact Nat.mod_eq_of_lt (Nat.or_lt_two_pow (n := 8) hp (by norm_num))

theorem pushed_status (p : Nat) (hp : p < 256) :
    Status.WithConstantSet p % 256 = p ||| 0x20 :=
  Nat.mod_eq_of_lt (Nat.or_lt_two_pow (n := 8) hp (by norm_num [FlagConstant]))

theorem PushByte_some (ad : Addressing) (s : State) (b : Nat) (m : Memory)
    (h : ad.Memory = some m) :
    ad.PushByte s b = .ok ({ s with SP := (s.SP + 255) % 256 },
      { ad with Memory := some (m.Write ((BaseStack + s.SP) % 65536) b) }) := by
  unfold Addressing.PushByte
  rw [h]

theorem PullByte_some (ad : Addressing) (s : State) (m : Memory) (h : ad.Memory = some m) :
    ad.PullByte s = .ok ({ s with SP := (s.SP + 1) % 256 },
      m.Read ((BaseStack + (s.SP + 1) % 256) % 65536)) := by
  unfold Addressing.PullByte
  rw [h]

theorem PushAddress_some (ad : Addressing) (s : State) (a : Nat) (m : Memory)
    (h : ad.Memory = some m) :
    ad.PushAddress s a = .ok ({ s with SP := ((s.SP + 255) % 256 + 255) % 256 },
      { ad with Memory := some ((m.Write ((BaseStack + s.SP) % 65536) (a / 256 % 256)).Write
          ((BaseStack + (s.SP + 255) % 256) % 65536) (a % 256)) }) := by
  unfold Addressing.PushAddress
  simp only [SplitAddress_eq]
  rw [PushByte_some ad s _ m h]
  simp only []
  rw [PushByte_some _ _ _ _ rfl]

theorem PullAddress_some (ad : Addressing) (s : State) (m : Memory) (h : ad.Memory = some m) :
    ad.PullAddress s = .ok ({ s with SP := ((s.SP + 1) % 256 + 1) % 256 },
      MakeAddress (m.Read ((BaseStack + (s.SP + 1) % 256) % 65536))
        (m.Read ((BaseStack + ((s.SP + 1) % 256 + 1) % 256) % 65536))) := by
  unfold Addressing.PullAddress
  rw [PullByte_some ad s m h]
  simp only []
  rw [PullByte_some ad _ m h]

theorem ReadVector_some (m : Memory) (a : Nat) :
    ReadVectorFromMemory (some m) a = .ok (MakeAddress (m.Read a) (m.Read ((a + 1) % 65536))) :=
  rfl

/-- The result of `Break` on a present memory, in closed form. -/
theorem Break_some (s : State) (ad : Addressing) (m : Memory) (h : ad.Memory = some m) :
    Break s ad = .ok
      ({ s with
          SP := (((s.SP + 255) % 256 + 255) % 256 + 255) % 256,
          P := Status.SetInterrupt s.P,
          PC := MakeAddress (m.Read 0xFFFE) (m.Read 0xFFFF) },
        some (((m.Write ((BaseStack + s.SP) % 65536) ((s.PC + 1) % 65536 / 256 % 256)).Write
          ((BaseStack + (s.SP + 255) % 256) % 65536) ((s.PC + 1) % 65536 % 256)).Write
          ((BaseStack + ((s.SP + 255) % 256 + 255) % 256) % 65536)
          (Status.WithConstantSet (Status.WithBreakSet s.P) % 256))) := by
  unfold Break ReadIrqVectorFromMemory
  rw [h, ReadVector_some]
  simp only []
  rw [PushAddress_some ad s _ m h]
  simp only []
  unfold Addressing.PushStatus
  rw [PushByte_some _ _ _ _ rfl]
  rfl

/-- The result of `Interrupt` on a present memory, in closed form. -/
theorem Interrupt_some (s : State) (ad : Addressing) (m : Memory) (h : ad.Memory = some m) :
    Interrupt s ad = .ok
      ({ s with
          SP := (((s.SP + 255) % 256 + 255) % 256 + 255) % 256,
          P := Status.SetInterrupt s.P,
          PC := MakeAddress (m.Read 0xFFFE) (m.Read 0xFFFF) },
        some (((m.Write ((BaseStack + s.SP) % 65536) (s.PC / 256 % 256)).Write
          ((BaseStack + (s.SP + 255) % 256) % 65536) (s.PC % 256)).Write
          ((BaseStack + ((s.SP + 255) % 256 + 255) % 256) % 65536)
          (Status.WithConstantSet s.P % 256))) := by
  unfold Interrupt ReadIrqVectorFromMemory
  rw [h, ReadVector_some]
  simp only []
  rw [PushAddress_some ad s _ m h]
  simp only []
  unfold Addressing.PushStatus
  rw [PushByte_some _ _ _ _ rfl]
  rfl

/-- The result of `Nmi` on a present memory, in closed form. -/
theorem Nmi_some (s : State) (ad : Addressing) (m : Memory) (h : ad.Memory = some m) :
    Nmi s ad = .ok
      ({ s with
          SP := (((s.SP + 255) % 256 + 255) % 256 + 255) % 256,
          P := Status.SetInterrupt s.P,
          PC := MakeAddress (m.Read 0xFFFA) (m.Read 0xFFFB) },
        some (((m.Write ((BaseStack + s.SP) % 65536) (s.PC / 256 % 256)).Write
          ((BaseStack + (s.SP + 255) % 256) % 65536) (s.PC % 256)).Write
          ((BaseStack + ((s.SP + 255) % 256 + 255) % 256) % 65536)
          (Status.WithConstantSet s.P % 256))) := by
  unfold Nmi ReadNmiVectorFromMemory
  rw [h, ReadVector_some]
  simp only []
  rw [PushAddress_some ad s _ m h]
  simp only []
  unfold Addressing.PushStatus
  rw [PushByte_some _ _ _ _ rfl]
  rfl

/-- The three bytes of an interrupt frame and the cells it leaves alone. -/
theorem frame_reads (m : Memory) (sp hi lo st : Nat) (hSP : sp < 256) :
    (((m.Write ((BaseStack + sp) % 65536) hi).Write
        ((BaseStack + (sp + 255) % 256) % 65536) lo).Write
        ((BaseStack + ((sp + 255) % 256 + 255) % 256) % 65536) st).Read (0x0100 + sp) = hi ∧
    (((m.Write ((BaseStack + sp) % 65536) hi).Write
        ((BaseStack + (sp + 255) % 256) % 65536) lo).Write
        ((BaseStack + ((sp + 255) % 256 + 255) % 256) % 65536) st).Read
          (0x0100 + (sp + 255) % 256) = lo ∧
    (((m.Write ((BaseStack + sp) % 65536) hi).Write
        ((BaseStack + (sp + 255) % 256) % 65536) lo).Write
        ((BaseStack + ((sp + 255) % 256 + 255) % 256) % 65536) st).Read
          (0x0100 + (sp + 254) % 256) = st ∧
    ∀ a, a ≠ 0x0100 + sp → a ≠ 0x0100 + (sp + 255) % 256 → a ≠ 0x0100 + (sp + 254) % 256 →
      (((m.Write ((BaseStack + sp) % 65536) hi).Write
        ((BaseStack + (sp + 255) % 256) % 65536) lo).Write
        ((BaseStack + ((sp + 255) % 256 + 255) % 256) % 65536) st).Read a = m.Read a := by
  have e1 : (BaseStack + sp) % 65536 = 0x0100 + sp := by
    unfold BaseStack
    omega
  have e2 : (BaseStack + (sp + 255) % 256) % 65536 = 0x0100 + (sp + 255) % 256 := by
    unfold BaseStack
    omega
  have e3 : (BaseStack + ((sp + 255) % 256 + 255) % 256) % 65536 = 0x0100 + (sp + 254) % 256 := by
    unfold BaseStack
    omega
  have d12 : 0x0100 + sp ≠ 0x0100 + (sp + 255) % 256 := by omega
  have d13 : 0x0100 + sp ≠ 0x0100 + (sp + 254) % 256 := by omega
  have d23 : 0x0100 + (sp + 255) % 256 ≠ 0x0100 + (sp + 254) % 256 := by omega
  rw [e1, e2, e3]
  generalize 0x0100 + sp = a1 at d12 d13
  generalize 0x0100 + (sp + 255) % 256 = a2 at d12 d23
  generalize 0x0100 + (sp + 254) % 256 = a3 at d13 d23
  refine ⟨?_, ?_, ?_, ?_⟩
  · rw [Read_Write, Read_Write, Read_Write, if_neg d13, if_neg d12, if_pos rfl]
  · rw [Read_Write, Read_Write, if_neg d23, if_pos rfl]
  · rw [Read_Write, if_pos rfl]
  · intro a h1 h2 h3
    rw [Read_Write, Read_Write, Read_Write, if_neg h3, if_neg h2, if_neg h1]

/-- Claim C5. On a 64K memory `Break` writes the high byte of `pc + 1` at `0x0100 + S`,
its low byte at `0x0100 + (S - 1) mod 256` and `P OR 0x30` at `0x0100 + (S - 2) mod 256`,
touches no other cell, and returns `sp = (S - 3) mod 256`, `pc` the little-endian word at
`0xFFFE/0xFFFF`, `P` with only the I bit added, and `A`, `X`, `Y` unchanged. -/
theorem Break_frame (s : State) (ad : Addressing) (m : Memory) (hm : ad.Memory = some m)
    (hSP : s.SP < 256) (hP : s.P < 256)
    (hlo : m.Read 0xFFFE < 256) (hhi : m.Read 0xFFFF < 256) :
    ∃ s' m', Break s ad = .ok (s', some m') ∧
      m'.Read (0x0100 + s.SP) = (s.PC + 1) % 65536 / 256 ∧
      m'.Read (0x0100 + (s.SP + 255) % 256) = (s.PC + 1) % 65536 % 256 ∧
      m'.Read (0x0100 + (s.SP + 254) % 256) = s.P ||| 0x30 ∧
      (∀ a, a ≠ 0x0100 + s.SP → a ≠ 0x0100 + (s.SP + 255) % 256 →
        a ≠ 0x0100 + (s.SP + 254) % 256 → m'.Read a = m.Read a) ∧
      s'.SP = (s.SP + 253) % 256 ∧
      s'.PC = m.Read 0xFFFE + 256 * m.Read 0xFFFF ∧
      s'.P = s.P ||| 0x04 ∧
      s'.A = s.A ∧ s'.X = s.X ∧ s'.Y = s.Y := by
  obtain ⟨r1, r2, r3, r4⟩ := frame_reads m s.SP ((s.PC + 1) % 65536 / 256 % 256)
    ((s.PC + 1) % 65536 % 256) (Status.WithConstantSet (Status.WithBreakSet s.P) % 256) hSP
  refine ⟨_, _, Break_some s ad m hm, ?_, r2, ?_, r4, ?_, ?_, rfl, rfl, rfl, rfl⟩
  · rw [r1]
    omega
  · rw [r3, pushed_break_status s.P hP]
  · show (((s.SP + 255) % 256 + 255) % 256 + 255) % 256 = _
    omega
  · exact MakeAddress_eq _ _ hlo hhi

/-- Claim C6, counterexample. From a status with the B bit set (`P = 0x10`) `Interrupt`
pushes a status byte whose B bit is 1: the byte at `0x01FB` after the call has B set. -/
theorem Interrupt_pushes_break_bit :
    ∃ s' m', Interrupt ⟨0x0600, 0xFD, 0, 0, 0, 0x10⟩
        { Addressing.zero with Memory := some ⟨fun _ => 0⟩ } = .ok (s', some m') ∧
      (Status.ToFlags (m'.Read 0x01FB)).Break = true :=
  ⟨_, _, Interrupt_some _ _ _ rfl, by decide⟩

theorem ToFlags_WithConstantSet (p : Nat) :
    Status.ToFlags (p ||| 0x20) = Status.ToFlags p := by
  have h : p ||| 0x20 = Status.WithConstantSet p := rfl
  rw [h, ToFlags_eq, ToFlags_eq p]
  simp [hasBit_WithConstantSet]

theorem constant_bit_set (p : Nat) : (p ||| 0x20) &&& 0x20 = 0x20 := by
  have h : hasBit (Status.WithConstantSet p) 5 = true := by
    rw [hasBit_WithConstantSet]
    simp
  have h2 := Nat.and_two_pow (p ||| 0x20) 5
  have h3 : (p ||| 0x20).testBit 5 = true := h
  rw [h3] at h2
  exact h2

/-- Claim C6, amended. `Interrupt` and `Nmi` push the current pc high byte first then low
byte, then the status byte `P OR 0x20`: its Constant bit is 1 and its seven flags, B
included, are those of `P`, so its B bit is 0 whenever B is clear in `P`.  They then set
I, leave `sp` decreased by 3 modulo 256 and load `pc` from `0xFFFE/0xFFFF` (`Interrupt`)
or `0xFFFA/0xFFFB` (`Nmi`). -/
theorem Interrupt_Nmi_frame (s : State) (ad : Addressing) (m : Memory)
    (hm : ad.Memory = some m) (hPC : s.PC < 65536) (hSP : s.SP < 256) (hP : s.P < 256)
    (hv : ∀ a, m.Read a < 256) :
    (∃ s' m', Interrupt s ad = .ok (s', some m') ∧
      m'.Read (0x0100 + s.SP) = s.PC / 256 ∧
      m'.Read (0x0100 + (s.SP + 255) % 256) = s.PC % 256 ∧
      m'.Read (0x0100 + (s.SP + 254) % 256) = s.P ||| 0x20 ∧
      (∀ a, a ≠ 0x0100 + s.SP → a ≠ 0x0100 + (s.SP + 255) % 256 →
        a ≠ 0x0100 + (s.SP + 254) % 256 → m'.Read a = m.Read a) ∧
      s'.SP = (s.SP + 253) % 256 ∧
      s'.PC = m.Read 0xFFFE + 256 * m.Read 0xFFFF ∧
      s'.P = s.P ||| 0x04 ∧ s'.A = s.A ∧ s'.X = s.X ∧ s'.Y = s.Y) ∧
    (∃ s' m', Nmi s ad = .ok (s', some m') ∧
      m'.Read (0x0100 + s.SP) = s.PC / 256 ∧
      m'.Read (0x0100 + (s.SP + 255) % 256) = s.PC % 256 ∧
      m'.Read (0x0100 + (s.SP + 254) % 256) = s.P ||| 0x20 ∧
      (∀ a, a ≠ 0x0100 + s.SP → a ≠ 0x0100 + (s.SP + 255) % 256 →
        a ≠ 0x0100 + (s.SP + 254) % 256 → m'.Read a = m.Read a) ∧
      s'.SP = (s.SP + 253) % 256 ∧
      s'.PC = m.Read 0xFFFA + 256 * m.Read 0xFFFB ∧
      s'.P = s.P ||| 0x04 ∧ s'.A = s.A ∧ s'.X = s.X ∧ s'.Y = s.Y) ∧
    Status.ToFlags (s.P ||| 0x20) = Status.ToFlags s.P ∧
    (s.P ||| 0x20) &&& FlagConstant = FlagConstant ∧
    ((Status.ToFlags s.P).Break = false → (Status.ToFlags (s.P ||| 0x20)).Break = false) := by
  obtain ⟨r1, r2, r3, r4⟩ := frame_reads m s.SP (s.PC / 256 % 256) (s.PC % 256)
    (Status.WithConstantSet s.P % 256) hSP
  have hsp : (((s.SP + 255) % 256 + 255) % 256 + 255) % 256 = (s.SP + 253) % 256 := by omega
  have hhi : s.PC / 256 % 256 = s.PC / 256 := by omega
  have r1' := r1.trans hhi
  have r3' := r3.trans (pushed_status s.P hP)
  refine ⟨⟨_, _, Interrupt_some s ad m hm, r1', r2, r3', r4, hsp, ?_, rfl, rfl, rfl, rfl⟩,
    ⟨_, _, Nmi_some s ad m hm, r1', r2, r3', r4, hsp, ?_, rfl, rfl, rfl, rfl⟩,
    ToFlags_WithConstantSet s.P, constant_bit_set s.P, ?_⟩
  · exact MakeAddress_eq _ _ (hv _) (hv _)
  · exact MakeAddress_eq _ _ (hv _) (hv _)
  · intro hb
    rw [ToFlags_WithConstantSet]
    exact hb

/-- Claim C7. With the I flag set `Cpu.Interrupt` returns no error and leaves the
registers and the memory as they were; with I clear it commits exactly the state and the
memory returned by the `Interrupt` operation. -/
theorem Cpu_Interrupt_spec (c : Cpu) (m : Memory) (hm : c.memory = some m) :
    ((Status.ToFlags c.State.P).Interrupt = true → Cpu.Interrupt (some c) = (some c, none)) ∧
    ((Status.ToFlags c.State.P).Interrupt = false →
      ∃ s' m', Interrupt c.State { Addressing.zero with Memory := c.memory } = .ok (s', some m') ∧
        Cpu.Interrupt (some c) = (some { c with State := s', memory := some m' }, none)) := by
  constructor
  · intro hI
    simp only [Cpu.Interrupt, hI, if_true]
  · intro hI
    have h := Interrupt_some c.State { Addressing.zero with Memory := c.memory } m hm
    refine ⟨_, _, h, ?_⟩
    simp only [Cpu.Interrupt, hI, h]
    rfl

/-- The result of `ReturnFromInterrupt` on a present memory, in closed form. -/
theorem ReturnFromInterrupt_some (s : State) (ad : Addressing) (m : Memory)
    (h : ad.Memory = some m) :
    ReturnFromInterrupt s ad = .ok
      ({ s with
          SP := (((s.SP + 1) % 256 + 1) % 256 + 1) % 256,
          P := Status.SetConstant
            (Status.ClearBreak (m.Read ((BaseStack + (s.SP + 1) % 256) % 65536))),
          PC := MakeAddress (m.Read ((BaseStack + ((s.SP + 1) % 256 + 1) % 256) % 65536))
            (m.Read ((BaseStack + (((s.SP + 1) % 256 + 1) % 256 + 1) % 256) % 65536)) },
        some m) := by
  unfold ReturnFromInterrupt Addressing.PullStatus
  rw [PullByte_some ad s m h]
  simp only []
  rw [PullAddress_some ad _ m h, h]

set_option maxRecDepth 100000 in
theorem pulled_break_status (p : Nat) (hp : p < 256) :
    Status.SetConstant (Status.ClearBreak (p ||| 0x30)) = (p &&& 0xEF) ||| 0x20 ∧
    (Status.ToFlags ((p &&& 0xEF) ||| 0x20)).Interrupt = (Status.ToFlags p).Interrupt ∧
    (Status.ToFlags ((p &&& 0xEF) ||| 0x20)).Break = false := by
  revert p
  decide

/-- Claim C8. `Break` followed by `ReturnFromInterrupt` on the resulting state and memory
yields `pc = s.pc + 1`, `sp = s.sp`, `A`, `X`, `Y` unchanged and `P` equal to `s.P` with B
cleared and Constant set; in particular I has the value it had before the break. -/
theorem Break_then_ReturnFromInterrupt (s : State) (ad : Addressing) (m : Memory)
    (hm : ad.Memory = some m) (hSP : s.SP < 256) (hP : s.P < 256) :
    ∃ s1 m1, Break s ad = .ok (s1, some m1) ∧
      ∃ s2, ReturnFromInterrupt s1 { ad with Memory := some m1 } = .ok (s2, some m1) ∧
        s2.PC = (s.PC + 1) % 65536 ∧ s2.SP = s.SP ∧
        s2.A = s.A ∧ s2.X = s.X ∧ s2.Y = s.Y ∧
        s2.P = (s.P &&& 0xEF) ||| 0x20 ∧
        (Status.ToFlags s2.P).Break = false ∧
        s2.P &&& FlagConstant = FlagConstant ∧
        (Status.ToFlags s2.P).Interrupt = (Status.ToFlags s.P).Interrupt := by
  obtain ⟨r1, r2, r3, -⟩ := frame_reads m s.SP ((s.PC + 1) % 65536 / 256 % 256)
    ((s.PC + 1) % 65536 % 256) (Status.WithConstantSet (Status.WithBreakSet s.P) % 256) hSP
  obtain ⟨hp1, hp2, hp3⟩ := pulled_break_status s.P hP
  have e1 : (BaseStack + ((((s.SP + 255) % 256 + 255) % 256 + 255) % 256 + 1) % 256) % 65536 =
      0x0100 + (s.SP + 254) % 256 := by
    unfold BaseStack
    omega
  have e2 : (BaseStack + (((((s.SP + 255) % 256 + 255) % 256 + 255) % 256 + 1) % 256 + 1) % 256)
      % 65536 = 0x0100 + (s.SP + 255) % 256 := by
    unfold BaseStack
    omega
  have e3 : (BaseStack + ((((((s.SP + 255) % 256 + 255) % 256 + 255) % 256 + 1) % 256 + 1) % 256
      + 1) % 256) % 65536 = 0x0100 + s.SP := by
    unfold BaseStack
    omega
  have e4 : ((((((s.SP + 255) % 256 + 255) % 256 + 255) % 256 + 1) % 256 + 1) % 256 + 1) % 256 =
      s.SP := by omega
  have hP2 : Status.SetConstant (Status.ClearBreak
      (Status.WithConstantSet (Status.WithBreakSet s.P) % 256)) = (s.P &&& 0xEF) ||| 0x20 := by
    rw [pushed_break_status s.P hP, hp1]
  have hPCv : MakeAddress ((s.PC + 1) % 65536 % 256) ((s.PC + 1) % 65536 / 256 % 256) =
      (s.PC + 1) % 65536 := by
    rw [MakeAddress_eq _ _ (by omega) (by omega)]
    omega
  refine ⟨_, _, Break_some s ad m hm, _, ReturnFromInterrupt_some _ _ _ rfl, ?_, e4, rfl, rfl, rfl,
    ?_, ?_, ?_, ?_⟩
  · show MakeAddress _ _ = _
    simp only [e2, e3]
    rw [r1, r2, hPCv]
  · show Status.SetConstant (Status.ClearBreak _) = _
    simp only [e1]
    rw [r3, hP2]
  · show (Status.ToFlags (Status.SetConstant (Status.ClearBreak _))).Break = false
    simp only [e1]
    rw [r3, hP2, hp3]
  · show (Status.SetConstant (Status.ClearBreak _)) &&& FlagConstant = FlagConstant
    simp only [e1]
    rw [r3, hP2]
    exact constant_bit_set _
  · show (Status.ToFlags (Status.SetConstant (Status.ClearBreak _))).Interrupt = _
    simp only [e1]
    rw [r3, hP2, hp2]

/-- The result of `JumpSubRoutine` on a present memory, in closed form. -/
theorem JumpSubRoutine_some (s : State) (ad : Addressing) (m : Memory)
    (h : ad.Memory = some m) :
    JumpSubRoutine s ad = .ok
      ({ s with PC := ad.EffectiveAddress, SP := ((s.SP + 255) % 256 + 255) % 256 },
        some ((m.Write ((BaseStack + s.SP) % 65536) ((s.PC + 65535) % 65536 / 256 % 256)).Write
          ((BaseStack + (s.SP + 255) % 256) % 65536) ((s.PC + 65535) % 65536 % 256))) := by
  unfold JumpSubRoutine
  simp only []
  rw [PushAddress_some ad _ _ m h]

/-- The result of `ReturnFromSubroutine` on a present memory, in closed form. -/
theorem ReturnFromSubroutine_some (s : State) (ad : Addressing) (m : Memory)
    (h : ad.Memory = some m) :
    ReturnFromSubroutine s ad = .ok
      ({ s with
          SP := ((s.SP + 1) % 256 + 1) % 256,
          PC := (MakeAddress (m.Read ((BaseStack + (s.SP + 1) % 256) % 65536))
            (m.Read ((BaseStack + ((s.SP + 1) % 256 + 1) % 256) % 65536)) + 1) % 65536 },
        some m) := by
  unfold ReturnFromSubroutine
  rw [PullAddress_some ad s m h, h]

/-- The two bytes of a pushed address and the cells the push leaves alone. -/
theorem address_reads (m : Memory) (sp hi lo : Nat) (hSP : sp < 256) :
    ((m.Write ((BaseStack + sp) % 65536) hi).Write
        ((BaseStack + (sp + 255) % 256) % 65536) lo).Read (0x0100 + sp) = hi ∧
    ((m.Write ((BaseStack + sp) % 65536) hi).Write
        ((BaseStack + (sp + 255) % 256) % 65536) lo).Read (0x0100 + (sp + 255) % 256) = lo ∧
    ∀ a, a ≠ 0x0100 + sp → a ≠ 0x0100 + (sp + 255) % 256 →
      ((m.Write ((BaseStack + sp) % 65536) hi).Write
        ((BaseStack + (sp + 255) % 256) % 65536) lo).Read a = m.Read a := by
  have e1 : (BaseStack + sp) % 65536 = 0x0100 + sp := by
    unfold BaseStack
    omega
  have e2 : (BaseStack + (sp + 255) % 256) % 65536 = 0x0100 + (sp + 255) % 256 := by
    unfold BaseStack
    omega
  have d12 : 0x0100 + sp ≠ 0x0100 + (sp + 255) % 256 := by omega
  rw [e1, e2]
  generalize 0x0100 + sp = a1 at d12
  generalize 0x0100 + (sp + 255) % 256 = a2 at d12
  refine ⟨?_, ?_, ?_⟩
  · rw [Read_Write, Read_Write, if_neg d12, if_pos rfl]
  · rw [Read_Write, if_pos rfl]
  · intro a h1 h2
    rw [Read_Write, Read_Write, if_neg h2, if_neg h1]

/-- Claim C9. `JumpSubRoutine` pushes `s.pc - 1` (high byte first, then low) and sets `pc`
to the effective address; `ReturnFromSubroutine` on the resulting state and memory sets
`pc` back to `s.pc` and `sp` back to `s.sp`, also when `sp` wraps, and `A`, `X`, `Y`, `P`
are unchanged throughout. -/
theorem JumpSubRoutine_then_ReturnFromSubroutine (s : State) (ad : Addressing) (m : Memory)
    (hm : ad.Memory = some m) (hPC : s.PC < 65536) (hSP : s.SP < 256) :
    ∃ s1 m1, JumpSubRoutine s ad = .ok (s1, some m1) ∧
      m1.Read (0x0100 + s.SP) = (s.PC + 65535) % 65536 / 256 ∧
      m1.Read (0x0100 + (s.SP + 255) % 256) = (s.PC + 65535) % 65536 % 256 ∧
      (∀ a, a ≠ 0x0100 + s.SP → a ≠ 0x0100 + (s.SP + 255) % 256 → m1.Read a = m.Read a) ∧
      s1.PC = ad.EffectiveAddress ∧ s1.SP = (s.SP + 254) % 256 ∧
      s1.A = s.A ∧ s1.X = s.X ∧ s1.Y = s.Y ∧ s1.P = s.P ∧
      ∃ s2, ReturnFromSubroutine s1 { ad with Memory := some m1 } = .ok (s2, some m1) ∧
        s2.PC = s.PC ∧ s2.SP = s.SP ∧ s2.A = s.A ∧ s2.X = s.X ∧ s2.Y = s.Y ∧ s2.P = s.P := by
  obtain ⟨r1, r2, r3⟩ := address_reads m s.SP ((s.PC + 65535) % 65536 / 256 % 256)
    ((s.PC + 65535) % 65536 % 256) hSP
  have e1 : (BaseStack + (((s.SP + 255) % 256 + 255) % 256 + 1) % 256) % 65536 =
      0x0100 + (s.SP + 255) % 256 := by
    unfold BaseStack
    omega
  have e2 : (BaseStack + ((((s.SP + 255) % 256 + 255) % 256 + 1) % 256 + 1) % 256) % 65536 =
      0x0100 + s.SP := by
    unfold BaseStack
    omega
  have e3 : ((((s.SP + 255) % 256 + 255) % 256 + 1) % 256 + 1) % 256 = s.SP := by omega
  have hPCv : (MakeAddress ((s.PC + 65535) % 65536 % 256) ((s.PC + 65535) % 65536 / 256 % 256)
      + 1) % 65536 = s.PC := by
    rw [MakeAddress_eq _ _ (by omega) (by omega)]
    omega
  refine ⟨_, _, JumpSubRoutine_some s ad m hm, ?_, r2, r3, rfl, ?_, rfl, rfl, rfl, rfl,
    _, ReturnFromSubroutine_some _ _ _ rfl, ?_, e3, rfl, rfl, rfl, rfl⟩
  · rw [r1]
    omega
  · show ((s.SP + 255) % 256 + 255) % 256 = _
    omega
  · show (MakeAddress _ _ + 1) % 65536 = _
    simp only [e1, e2]
    rw [r1, r2, hPCv]

/-- Claim C10. For every stack pointer, `PushByte a` then `PullByte` returns `a` and
restores the state; two pushes then two pulls return the bytes in LIFO order and restore
the state; every access is at `0x0100 + sp` with `sp` wrapping modulo 256 (a push at
`sp = 0x00` leaves `sp = 0xFF`, a pull at `sp = 0xFF` reads `0x0100`). -/
theorem PushByte_PullByte (s : State) (ad : Addressing) (m : Memory) (a b : Nat)
    (hm : ad.Memory = some m) (hSP : s.SP < 256) :
    (∃ s1 ad1, ad.PushByte s a = .ok (s1, ad1) ∧
      ad1.Memory = some (m.Write (0x0100 + s.SP) a) ∧
      s1.SP = (s.SP + 255) % 256 ∧
      (s.SP = 0x00 → s1.SP = 0xFF) ∧
      ad1.PullByte s1 = .ok (s, a)) ∧
    (∃ s1 ad1 s2 ad2, ad.PushByte s a = .ok (s1, ad1) ∧ ad1.PushByte s1 b = .ok (s2, ad2) ∧
      ad2.Memory = some ((m.Write (0x0100 + s.SP) a).Write (0x0100 + (s.SP + 255) % 256) b) ∧
      s2.SP = (s.SP + 254) % 256 ∧
      ad2.PullByte s2 = .ok (s1, b) ∧ ad2.PullByte s1 = .ok (s, a)) ∧
    ad.PullByte s = .ok ({ s with SP := (s.SP + 1) % 256 }, m.Read (0x0100 + (s.SP + 1) % 256)) ∧
    (s.SP = 0xFF → ad.PullByte s = .ok ({ s with SP := 0x00 }, m.Read 0x0100)) := by
  have e1 : (BaseStack + s.SP) % 65536 = 0x0100 + s.SP := by
    unfold BaseStack
    omega
  have e2 : (BaseStack + (s.SP + 255) % 256) % 65536 = 0x0100 + (s.SP + 255) % 256 := by
    unfold BaseStack
    omega
  have e3 : (BaseStack + ((s.SP + 255) % 256 + 1) % 256) % 65536 = 0x0100 + s.SP := by
    unfold BaseStack
    omega
  have e4 : (BaseStack + (((s.SP + 255) % 256 + 255) % 256 + 1) % 256) % 65536 =
      0x0100 + (s.SP + 255) % 256 := by
    unfold BaseStack
    omega
  have e5 : ((s.SP + 255) % 256 + 1) % 256 = s.SP := by omega
  have e6 : (((s.SP + 255) % 256 + 255) % 256 + 1) % 256 = (s.SP + 255) % 256 := by omega
  have e7 : (BaseStack + (s.SP + 1) % 256) % 65536 = 0x0100 + (s.SP + 1) % 256 := by
    unfold BaseStack
    omega
  have d12 : 0x0100 + s.SP ≠ 0x0100 + (s.SP + 255) % 256 := by omega
  have hpull : ad.PullByte s =
      .ok ({ s with SP := (s.SP + 1) % 256 }, m.Read (0x0100 + (s.SP + 1) % 256)) := by
    rw [PullByte_some ad s m hm, e7]
  refine ⟨⟨_, _, PushByte_some ad s a m hm, ?_, rfl, ?_, ?_⟩,
    ⟨_, _, _, _, PushByte_some ad s a m hm, PushByte_some _ _ b _ rfl, ?_, ?_, ?_, ?_⟩,
    hpull, ?_⟩
  · show some _ = some _
    rw [e1]
  · intro h0
    show (s.SP + 255) % 256 = 0xFF
    omega
  · rw [PullByte_some _ _ _ rfl]
    simp only [e3, e5, e1, Read_Write, if_true]
  · show some _ = some _
    simp only [e1, e2]
  · show ((s.SP + 255) % 256 + 255) % 256 = _
    omega
  · rw [PullByte_some _ _ _ rfl]
    simp only [e4, e6, e2, Read_Write, if_true]
  · rw [PullByte_some _ _ _ rfl]
    simp only [e3, e5, e1, e2, Read_Write, if_neg d12, if_true]
  · intro hFF
    rw [hpull, hFF]

theorem testMemory_bytes (a : Nat) : testMemory.Read a < 256 := by
  show (if a = 0xFFFE then 0x02 else if a = 0xFFFF then 0xA0
    else if a = 0xFFFA then 0x04 else if a = 0xFFFB then 0xB0 else 0) < 256
  split_ifs <;> decide

theorem Break_frame_witness :
    ∃ s' m', Break testState testAddressing = .ok (s', some m') ∧
      m'.Read 0x01FB = 0xF0 ∧ m'.Read 0x01FA = 0xA1 ∧ m'.Read 0x01F9 = 0x33 ∧
      s'.SP = 0xF8 ∧ s'.PC = 0xA002 ∧ s'.P = 0x07 :=
  (Break_frame testState testAddressing testMemory rfl (by decide) (by decide) (by decide)
    (by decide)).imp fun _ h => h.imp fun _ h =>
      ⟨h.1, h.2.1.trans (by decide), h.2.2.1.trans (by decide), h.2.2.2.1.trans (by decide),
        h.2.2.2.2.2.1.trans (by decide), h.2.2.2.2.2.2.1.trans (by decide),
        h.2.2.2.2.2.2.2.1.trans (by decide)⟩

theorem Interrupt_Nmi_frame_witness :
    (∃ s' m', Interrupt testState testAddressing = .ok (s', some m') ∧
      m'.Read 0x01FB = 0xF0 ∧ m'.Read 0x01FA = 0xA0 ∧ m'.Read 0x01F9 = 0x23 ∧
      s'.SP = 0xF8 ∧ s'.PC = 0xA002) ∧
    (∃ s' m', Nmi testState testAddressing = .ok (s', some m') ∧
      m'.Read 0x01FB = 0xF0 ∧ m'.Read 0x01FA = 0xA0 ∧ m'.Read 0x01F9 = 0x23 ∧
      s'.SP = 0xF8 ∧ s'.PC = 0xB004) :=
  have h := Interrupt_Nmi_frame testState testAddressing testMemory rfl (by decide) (by decide)
    (by decide) testMemory_bytes
  ⟨h.1.imp fun _ h => h.imp fun _ h =>
      ⟨h.1, h.2.1.trans (by decide), h.2.2.1.trans (by decide), h.2.2.2.1.trans (by decide),
        h.2.2.2.2.2.1.trans (by decide), h.2.2.2.2.2.2.1.trans (by decide)⟩,
    h.2.1.imp fun _ h => h.imp fun _ h =>
      ⟨h.1, h.2.1.trans (by decide), h.2.2.1.trans (by decide), h.2.2.2.1.trans (by decide),
        h.2.2.2.2.2.1.trans (by decide), h.2.2.2.2.2.2.1.trans (by decide)⟩⟩

theorem Cpu_Interrupt_spec_witness :
    Cpu.Interrupt (some ⟨⟨0xF0A0, 0xFD, 0, 0, 0, 0x04⟩, some testMemory, ⟨[]⟩⟩) =
      (some ⟨⟨0xF0A0, 0xFD, 0, 0, 0, 0x04⟩, some testMemory, ⟨[]⟩⟩, none) ∧
    ∃ s' m', Interrupt testState { Addressing.zero with Memory := some testMemory } =
        .ok (s', some m') ∧
      Cpu.Interrupt (some ⟨testState, some testMemory, ⟨[]⟩⟩) =
        (some ⟨s', some m', ⟨[]⟩⟩, none) :=
  ⟨(Cpu_Interrupt_spec ⟨⟨0xF0A0, 0xFD, 0, 0, 0, 0x04⟩, some testMemory, ⟨[]⟩⟩ testMemory rfl).1
      (by decide),
    (Cpu_Interrupt_spec ⟨testState, some testMemory, ⟨[]⟩⟩ testMemory rfl).2 (by decide)⟩

theorem Break_then_ReturnFromInterrupt_witness :
    ∃ s1 m1, Break testState testAddressing = .ok (s1, some m1) ∧
      ∃ s2, ReturnFromInterrupt s1 { testAddressing with Memory := some m1 } =
          .ok (s2, some m1) ∧
        s2.PC = 0xF0A1 ∧ s2.SP = 0xFB ∧ s2.P = 0x23 :=
  (Break_then_ReturnFromInterrupt testState testAddressing testMemory rfl (by decide)
    (by decide)).imp fun _ h => h.imp fun _ h => ⟨h.1, h.2.imp fun _ h =>
      ⟨h.1, h.2.1.trans (by decide), h.2.2.1, h.2.2.2.2.2.2.1.trans (by decide)⟩⟩

theorem JumpSubRoutine_then_ReturnFromSubroutine_witness :
    ∃ s1 m1, JumpSubRoutine ⟨0xF0A0, 0x00, 1, 2, 3, 0x03⟩
        { testAddressing with EffectiveAddress := 0x1234 } = .ok (s1, some m1) ∧
      m1.Read 0x0100 = 0xF0 ∧ m1.Read 0x01FF = 0x9F ∧ s1.PC = 0x1234 ∧ s1.SP = 0xFE ∧
      ∃ s2, ReturnFromSubroutine s1
          { { testAddressing with EffectiveAddress := 0x1234 } with Memory := some m1 } =
            .ok (s2, some m1) ∧
        s2.PC = 0xF0A0 ∧ s2.SP = 0x00 :=
  (JumpSubRoutine_then_ReturnFromSubroutine ⟨0xF0A0, 0x00, 1, 2, 3, 0x03⟩
    { testAddressing with EffectiveAddress := 0x1234 } testMemory rfl (by decide)
    (by decide)).imp fun _ h => h.imp fun _ h =>
      ⟨h.1, h.2.1.trans (by decide), h.2.2.1.trans (by decide), h.2.2.2.2.1,
        h.2.2.2.2.2.1.trans (by decide),
        h.2.2.2.2.2.2.2.2.2.2.imp fun _ h => ⟨h.1, h.2.1, h.2.2.1⟩⟩

theorem PushByte_PullByte_witness :
    ∃ s1 ad1 s2 ad2, testAddressing.PushByte ⟨0xF0A0, 0x00, 1, 2, 3, 0x03⟩ 0x11 = .ok (s1, ad1) ∧
      ad1.PushByte s1 0x22 = .ok (s2, ad2) ∧ s2.SP = 0xFE ∧
      ad2.PullByte s2 = .ok (s1, 0x22) ∧
      ad2.PullByte s1 = .ok (⟨0xF0A0, 0x00, 1, 2, 3, 0x03⟩, 0x11) :=
  (PushByte_PullByte ⟨0xF0A0, 0x00, 1, 2, 3, 0x03⟩ testAddressing testMemory 0x11 0x22 rfl
    (by decide)).2.1.imp fun _ h => h.imp fun _ h => h.imp fun _ h => h.imp fun _ h =>
      ⟨h.1, h.2.1, h.2.2.2.1.trans (by decide), h.2.2.2.2.1, h.2.2.2.2.2⟩

/-! ## Addressing modes, PHP and PLP, Step -/

theorem and_ff00_eq (x : Nat) (h : x < 65536) : x &&& 0xFF00 = x / 256 * 256 := by
  apply Nat.eq_of_testBit_eq
  intro i
  have hm : x / 256 * 256 = 2 ^ 8 * (x >>> 8) := by
    rw [Nat.shiftRight_eq_div_pow]
    norm_num
    omega
  rw [Nat.testBit_and, hm, Nat.testBit_mul_pow_two, Nat.testBit_shiftRight]
  by_cases h8 : i < 8
  · have hf : Nat.testBit 0xFF00 i = false := by interval_cases i <;> decide
    simp [hf, h8]
  · by_cases h16 : i < 16
    · have ht : Nat.testBit 0xFF00 i = true := by interval_cases i <;> decide
      have hi : 8 + (i - 8) = i := by omega
      simp [ht, hi, Nat.le_of_not_lt h8]
    · have hxi : x < 2 ^ i :=
        lt_of_lt_of_le h (by
          calc 65536 = 2 ^ 16 := by norm_num
            _ ≤ 2 ^ i := Nat.pow_le_pow_right (by norm_num) (by omega))
      have hi : 8 + (i - 8) = i := by omega
      simp [Nat.testBit_lt_two_pow hxi, hi]

theorem page_or_eq (p q : Nat) (hp : p < 65536) :
    (p &&& 0xFF00) ||| (q &&& 0x00FF) = p / 256 * 256 + q % 256 := by
  rw [and_ff00_eq p hp, and_ff_eq_mod]
  have h := Nat.mul_add_lt_is_or (i := 8) (b := q % 256) (by omega) (p / 256)
  have e : p / 256 * 256 = 2 ^ 8 * (p / 256) := by omega
  rw [e, ← h]

theorem or_ff00_eq (v : Nat) (h : v < 256) : v ||| 0xFF00 = v + 0xFF00 := by
  have h1 := Nat.mul_add_lt_is_or (i := 8) (b := v) (by omega) 0xFF
  rw [Nat.or_comm]
  have e : (0xFF00 : Nat) = 2 ^ 8 * 0xFF := by norm_num
  rw [e, ← h1]
  omega

theorem ToFlags_pulled (b : Nat) :
    Status.ToFlags ((b &&& 0xEF) ||| 0x20) = { Status.ToFlags b with Break := false } := by
  have h : (b &&& 0xEF) ||| 0x20 = Status.WithConstantSet (Status.ClearBreak b) := rfl
  rw [h, ToFlags_eq, ToFlags_eq b]
  simp [hasBit_WithConstantSet, hasBit_ClearBreak]

/-- Claim C11. `PullStatus`, and with it `PullP`, sets `P = (b AND NOT 0x10) OR 0x20` for
the stacked byte `b`, whatever the previous `P`: B is cleared, Constant is set and C, Z,
I, D, V, N are those of `b`; `sp` is incremented modulo 256 and PC, A, X, Y and the
memory are unchanged. -/
theorem PullStatus_PullP (s : State) (ad : Addressing) (m : Memory)
    (hm : ad.Memory = some m) :
    ad.PullStatus s = .ok
      { s with SP := (s.SP + 1) % 256,
               P := (m.Read (0x0100 + (s.SP + 1) % 256) &&& 0xEF) ||| 0x20 } ∧
    PullP s ad = .ok
      ({ s with SP := (s.SP + 1) % 256,
                P := (m.Read (0x0100 + (s.SP + 1) % 256) &&& 0xEF) ||| 0x20 }, some m) ∧
    Status.ToFlags ((m.Read (0x0100 + (s.SP + 1) % 256) &&& 0xEF) ||| 0x20) =
      { Status.ToFlags (m.Read (0x0100 + (s.SP + 1) % 256)) with Break := false } ∧
    ((m.Read (0x0100 + (s.SP + 1) % 256) &&& 0xEF) ||| 0x20) &&& FlagConstant = FlagConstant := by
  have e : (BaseStack + (s.SP + 1) % 256) % 65536 = 0x0100 + (s.SP + 1) % 256 := by
    unfold BaseStack
    omega
  have h1 : ad.PullStatus s = .ok
      { s with SP := (s.SP + 1) % 256,
               P := (m.Read (0x0100 + (s.SP + 1) % 256) &&& 0xEF) ||| 0x20 } := by
    unfold Addressing.PullStatus
    rw [PullByte_some ad s m hm, e]
    rfl
  refine ⟨h1, ?_, ToFlags_pulled _, constant_bit_set _⟩
  unfold PullP
  rw [h1, hm]

/-- Claim C12. `PushP` writes `P OR 0x30` at `0x0100 + sp`, touches no other cell,
decrements `sp` modulo 256 and leaves `P`, PC, A, X, Y unchanged. -/
theorem PushP_writes (s : State) (ad : Addressing) (m : Memory)
    (hm : ad.Memory = some m) (hSP : s.SP < 256) (hP : s.P < 256) :
    ∃ m', PushP s ad = .ok ({ s with SP := (s.SP + 255) % 256 }, some m') ∧
      m'.Read (0x0100 + s.SP) = s.P ||| 0x30 ∧
      ∀ a, a ≠ 0x0100 + s.SP → m'.Read a = m.Read a := by
  have e : (BaseStack + s.SP) % 65536 = 0x0100 + s.SP := by
    unfold BaseStack
    omega
  refine ⟨m.Write (0x0100 + s.SP) (s.P ||| 0x30), ?_, ?_, ?_⟩
  · unfold PushP Addressing.PushStatus
    rw [PushByte_some ad s _ m hm, e, pushed_break_status s.P hP]
  · rw [Read_Write, if_pos rfl]
  · intro a ha
    rw [Read_Write, if_neg ha]

/-- Claim C13. For the pointer `p` stored little-endian at pc and pc+1, `Indirect` reads
the low byte of the effective address at `p` and the high byte at
`(p AND 0xFF00) OR ((p + 1) AND 0x00FF)`, which for `p = $xxFF` is `$xx00`; it reports
pc_advance 2 and no page crossing. -/
theorem Indirect_page_wrap (s : State) (m : Memory) (p : Nat) (hp : p < 65536)
    (hlo : m.Read s.PC = p % 256) (hhi : m.Read ((s.PC + 1) % 65536) = p / 256)
    (hb : ∀ a, m.Read a < 256) :
    ∃ ad, Indirect s (some m) = .ok ad ∧
      ad.EffectiveAddress = m.Read p + 256 * m.Read (p / 256 * 256 + (p + 1) % 256) ∧
      (p &&& 0xFF00) ||| ((p + 1) &&& 0x00FF) = p / 256 * 256 + (p + 1) % 256 ∧
      (p % 256 = 0xFF → p / 256 * 256 + (p + 1) % 256 = p / 256 * 256) ∧
      ad.Value = m.Read ad.EffectiveAddress ∧
      ad.ProgramCounterChange = 2 ∧ ad.PageBoundaryCrossed = false ∧
      ad.Memory = some m := by
  have hptr : MakeAddress (m.Read s.PC) (m.Read ((s.PC + 1) % 65536)) = p := by
    rw [hlo, hhi, MakeAddress_eq _ _ (by omega) (by omega)]
    omega
  have hplus : (p &&& 0xFF00) ||| (((p + 1) % 65536) &&& 0x00FF) =
      p / 256 * 256 + (p + 1) % 256 := by
    rw [page_or_eq p _ hp]
    omega
  refine ⟨_, rfl, ?_, ?_, ?_, rfl, rfl, rfl, rfl⟩
  · show MakeAddress _ _ = _
    simp only [hptr, hplus]
    exact MakeAddress_eq _ _ (hb _) (hb _)
  · exact page_or_eq p _ hp
  · intro h
    omega

theorem IndirectX_spec (s : State) (m : Memory) (hb : ∀ a, m.Read a < 256) :
    ∃ ad, IndirectX s (some m) = .ok ad ∧
      ad.EffectiveAddress =
        m.Read ((m.Read s.PC + s.X) % 256) + 256 * m.Read ((m.Read s.PC + s.X) % 256 + 1) ∧
      ad.Value = m.Read ad.EffectiveAddress ∧ ad.ProgramCounterChange = 1 ∧
      ad.PageBoundaryCrossed = false := by
  have e1 : ((m.Read s.PC + s.X) % 256) &&& 0x00FF = (m.Read s.PC + s.X) % 256 := by
    rw [and_ff_eq_mod]
    omega
  have e2 : ((m.Read s.PC + s.X) % 256 + 1) % 65536 = (m.Read s.PC + s.X) % 256 + 1 := by
    omega
  refine ⟨_, rfl, ?_, rfl, rfl, rfl⟩
  show MakeAddress _ _ = _
  simp only [e1, e2]
  exact MakeAddress_eq _ _ (hb _) (hb _)

/-- Claim C14, the code at the failing input. With operand `0xFF` and `X = 0` the pointer
is `0xFF`; `IndirectX` takes the low byte from `0x00FF` and the high byte from `0x0100`
(`0x02`), not from `0x0000` (`0xFF`): the effective address is `0x0200`, not `0xFF00`. -/
theorem IndirectX_pointer_at_0xFF :
    ∃ ad, IndirectX ⟨0x0000, 0xFD, 0, 0, 0, 0⟩ (some addressingMemory) = .ok ad ∧
      ad.EffectiveAddress = 0x0200 ∧
      addressingMemory.Read 0x00FF = 0x00 ∧ addressingMemory.Read 0x0000 = 0xFF ∧
      addressingMemory.Read 0x0100 = 0x02 :=
  ⟨_, rfl, by decide, by decide, by decide, by decide⟩

theorem page_ne (a b : Nat) (ha : a < 65536) (hb : b < 65536) :
    ((a &&& 0xFF00) != (b &&& 0xFF00)) = decide (b / 256 ≠ a / 256) := by
  rw [and_ff00_eq a ha, and_ff00_eq b hb, Bool.eq_iff_iff]
  simp only [bne_iff_ne, decide_eq_true_eq]
  omega

/-- Claim C15. `IndirectY` reads the base address from zero-page `op` (low) and
`(op + 1) mod 256` (high), sets the effective address to `(base + Y) mod 2^16` and reports
a page crossing exactly when the high byte of the effective address differs from that of
the base. -/
theorem IndirectY_spec (s : State) (m : Memory) (hb : ∀ a, m.Read a < 256) :
    ∃ ad, IndirectY s (some m) = .ok ad ∧
      ad.EffectiveAddress =
        (m.Read (m.Read s.PC) + 256 * m.Read ((m.Read s.PC + 1) % 256) + s.Y) % 65536 ∧
      ad.PageBoundaryCrossed =
        decide (ad.EffectiveAddress / 256 ≠
          (m.Read (m.Read s.PC) + 256 * m.Read ((m.Read s.PC + 1) % 256)) / 256) ∧
      ad.Value = m.Read ad.EffectiveAddress ∧
      ad.ProgramCounterChange = 1 ∧ ad.Memory = some m := by
  have hop := hb s.PC
  have e1 : m.Read s.PC &&& 0x00FF = m.Read s.PC := by
    rw [and_ff_eq_mod]
    omega
  have e2 : ((m.Read s.PC + 1) % 65536) &&& 0x00FF = (m.Read s.PC + 1) % 256 := by
    rw [and_ff_eq_mod]
    omega
  have hbase : MakeAddress (m.Read (m.Read s.PC)) (m.Read ((m.Read s.PC + 1) % 256)) =
      m.Read (m.Read s.PC) + 256 * m.Read ((m.Read s.PC + 1) % 256) :=
    MakeAddress_eq _ _ (hb _) (hb _)
  have hlt : m.Read (m.Read s.PC) + 256 * m.Read ((m.Read s.PC + 1) % 256) < 65536 := by
    have h1 := hb (m.Read s.PC)
    have h2 := hb ((m.Read s.PC + 1) % 256)
    omega
  refine ⟨_, rfl, ?_, ?_, rfl, rfl, rfl⟩
  · show (MakeAddress _ _ + s.Y) % 65536 = _
    simp only [e1, e2, hbase]
  · show ((MakeAddress _ _ &&& 0xFF00) != ((MakeAddress _ _ + s.Y) % 65536 &&& 0xFF00)) = _
    simp only [e1, e2, hbase]
    exact page_ne _ _ hlt (Nat.mod_lt _ (by norm_num))

theorem AbsoluteAddressing_spec (s : State) (m : Memory) (offset : Nat)
    (hb : ∀ a, m.Read a < 256) :
    ∃ ad, AbsoluteAddressing s (some m) offset = .ok ad ∧
      ad.EffectiveAddress =
        (m.Read s.PC + 256 * m.Read ((s.PC + 1) % 65536) + offset) % 65536 ∧
      ad.PageBoundaryCrossed =
        decide (ad.EffectiveAddress / 256 ≠
          (m.Read s.PC + 256 * m.Read ((s.PC + 1) % 65536)) / 256) ∧
      ad.Value = m.Read ad.EffectiveAddress ∧
      ad.ProgramCounterChange = 2 ∧ ad.Memory = some m := by
  have hbase : MakeAddress (m.Read s.PC) (m.Read ((s.PC + 1) % 65536)) =
      m.Read s.PC + 256 * m.Read ((s.PC + 1) % 65536) :=
    MakeAddress_eq _ _ (hb _) (hb _)
  have hlt : m.Read s.PC + 256 * m.Read ((s.PC + 1) % 65536) < 65536 := by
    have h1 := hb s.PC
    have h2 := hb ((s.PC + 1) % 65536)
    omega
  by_cases h0 : offset = 0
  · subst h0
    have hlt0 : (m.Read s.PC + 256 * m.Read ((s.PC + 1) % 65536) + 0) % 65536 =
        m.Read s.PC + 256 * m.Read ((s.PC + 1) % 65536) := by omega
    refine ⟨_, rfl, ?_, ?_, rfl, rfl, rfl⟩
    · simp only [ne_eq, not_true_eq_false, if_false, hbase, hlt0]
    · simp only [ne_eq, not_true_eq_false, if_false, hbase, decide_False]
  · refine ⟨_, rfl, ?_, ?_, rfl, rfl, rfl⟩
    · simp only [ne_eq, h0, not_false_eq_true, if_true, hbase]
    · simp only [ne_eq, h0, not_false_eq_true, if_true, hbase]
      exact page_ne _ _ hlt (Nat.mod_lt _ (by norm_num))

/-- Claim C16. `AbsoluteX` and `AbsoluteY` yield the effective address
`(base + index) mod 2^16` for the little-endian `base` at pc/pc+1, the byte there as
value, pc_advance 2, and a page crossing exactly when the high byte changed; `Absolute`
yields `base` and never a page crossing. -/
theorem Absolute_modes (s : State) (m : Memory) (hb : ∀ a, m.Read a < 256) :
    (∃ ad, AbsoluteX s (some m) = .ok ad ∧
      ad.EffectiveAddress =
        (m.Read s.PC + 256 * m.Read ((s.PC + 1) % 65536) + s.X) % 65536 ∧
      ad.PageBoundaryCrossed =
        decide (ad.EffectiveAddress / 256 ≠
          (m.Read s.PC + 256 * m.Read ((s.PC + 1) % 65536)) / 256) ∧
      ad.Value = m.Read ad.EffectiveAddress ∧ ad.ProgramCounterChange = 2) ∧
    (∃ ad, AbsoluteY s (some m) = .ok ad ∧
      ad.EffectiveAddress =
        (m.Read s.PC + 256 * m.Read ((s.PC + 1) % 65536) + s.Y) % 65536 ∧
      ad.PageBoundaryCrossed =
        decide (ad.EffectiveAddress / 256 ≠
          (m.Read s.PC + 256 * m.Read ((s.PC + 1) % 65536)) / 256) ∧
      ad.Value = m.Read ad.EffectiveAddress ∧ ad.ProgramCounterChange = 2) ∧
    (∃ ad, Absolute s (some m) = .ok ad ∧
      ad.EffectiveAddress = m.Read s.PC + 256 * m.Read ((s.PC + 1) % 65536) ∧
      ad.PageBoundaryCrossed = false ∧
      ad.Value = m.Read ad.EffectiveAddress ∧ ad.ProgramCounterChange = 2) := by
  refine ⟨?_, ?_, ?_⟩
  · obtain ⟨ad, h, h1, h2, h3, h4, -⟩ := AbsoluteAddressing_spec s m s.X hb
    exact ⟨ad, h, h1, h2, h3, h4⟩
  · obtain ⟨ad, h, h1, h2, h3, h4, -⟩ := AbsoluteAddressing_spec s m s.Y hb
    exact ⟨ad, h, h1, h2, h3, h4⟩
  · obtain ⟨ad, h, h1, -, h3, h4, -⟩ := AbsoluteAddressing_spec s m 0 hb
    have hlt : m.Read s.PC + 256 * m.Read ((s.PC + 1) % 65536) < 65536 := by
      have h1 := hb s.PC
      have h2 := hb ((s.PC + 1) % 65536)
      omega
    refine ⟨{ ad with PageBoundaryCrossed := false }, ?_, ?_, rfl, h3, h4⟩
    · unfold Absolute
      rw [h]
    · show ad.EffectiveAddress = _
      rw [h1]
      omega

/-- Claim C17. `ZeroPageX` and `ZeroPageY` yield the effective address
`(op + index) mod 256`, always inside page zero, with pc_advance 1 and no page crossing. -/
theorem ZeroPage_indexed (s : State) (m : Memory) :
    (∃ ad, ZeroPageX s (some m) = .ok ad ∧
      ad.EffectiveAddress = (m.Read s.PC + s.X) % 256 ∧ ad.EffectiveAddress ≤ 0x00FF ∧
      ad.Value = m.Read ad.EffectiveAddress ∧
      ad.ProgramCounterChange = 1 ∧ ad.PageBoundaryCrossed = false) ∧
    (∃ ad, ZeroPageY s (some m) = .ok ad ∧
      ad.EffectiveAddress = (m.Read s.PC + s.Y) % 256 ∧ ad.EffectiveAddress ≤ 0x00FF ∧
      ad.Value = m.Read ad.EffectiveAddress ∧
      ad.ProgramCounterChange = 1 ∧ ad.PageBoundaryCrossed = false) := by
  have ex : ((m.Read s.PC + s.X) % 256) &&& 0xFF = (m.Read s.PC + s.X) % 256 := by
    rw [and_ff_eq_mod]
    omega
  have ey : ((m.Read s.PC + s.Y) % 256) &&& 0xFF = (m.Read s.PC + s.Y) % 256 := by
    rw [and_ff_eq_mod]
    omega
  refine ⟨⟨_, rfl, ex, ?_, rfl, rfl, rfl⟩, ⟨_, rfl, ey, ?_, rfl, rfl, rfl⟩⟩
  · show ((m.Read s.PC + s.X) % 256) &&& 0xFF ≤ 0x00FF
    rw [ex]
    omega
  · show ((m.Read s.PC + s.Y) % 256) &&& 0xFF ≤ 0x00FF
    rw [ey]
    omega

/-- Claim C18. `Relative` yields the effective address `(pc + 1 + op) mod 2^16` for
`op < 0x80` and `(pc + 1 - (256 - op)) mod 2^16` for `op >= 0x80`, with value `op` and
pc_advance 1. -/
theorem Relative_spec (s : State) (m : Memory) (hop : m.Read s.PC < 256) :
    ∃ ad, Relative s (some m) = .ok ad ∧
      (m.Read s.PC < 0x80 → ad.EffectiveAddress = (s.PC + 1 + m.Read s.PC) % 65536) ∧
      (m.Read s.PC ≥ 0x80 →
        (ad.EffectiveAddress : Int) = ((s.PC : Int) + 1 - (256 - m.Read s.PC)) % 65536) ∧
      ad.Value = m.Read s.PC ∧ ad.ProgramCounterChange = 1 := by
  refine ⟨_, rfl, ?_, ?_, rfl, rfl⟩
  · intro h
    show (s.PC + 1 + (if (m.Read s.PC &&& 0x80) != 0 then m.Read s.PC ||| 0xFF00
      else m.Read s.PC)) % 65536 = _
    rw [and_80_ne_zero, if_neg (by simp; omega)]
  · intro h
    show (((s.PC + 1 + (if (m.Read s.PC &&& 0x80) != 0 then m.Read s.PC ||| 0xFF00
      else m.Read s.PC)) % 65536 : Nat) : Int) = _
    rw [and_80_ne_zero, if_pos (by simp; omega), or_ff00_eq _ hop]
    omega

theorem Execute_ok (i : Instruction) (s : State) (m : Memory) (af : AddressingFunc)
    (op : Operation) (ad : Addressing) (s' : State) (w : Option Memory)
    (haf : i.AddressingFunc = some af) (hop : i.Operation = some op)
    (had : af s (some m) = .ok ad)
    (hres : op { s with PC := (s.PC + ad.ProgramCounterChange) % 65536 } ad = .ok (s', w)) :
    i.Execute s (some m) = .ok (s',
      (if i.PageBoundaryPenalty && ad.PageBoundaryCrossed then (i.Cycles + 1) % uintSize
        else i.Cycles), w) := by
  unfold Instruction.Execute
  simp only [haf, hop, had, hres]

/-- Claim C19. When the opcode at pc is in the instruction set and its addressing function
and operation succeed, `Step` returns `Cycles + 1` cycles plus one exactly when the
instruction has the page boundary penalty and the addressing result reports a page
crossing; the operation runs on the state whose pc is advanced by `1 + pc_advance`, and
its result becomes the state of the Cpu. -/
theorem Step_cycles (c : Cpu) (m : Memory) (i : Instruction) (af : AddressingFunc)
    (op : Operation) (ad : Addressing) (s' : State) (w : Option Memory)
    (hm : c.memory = some m)
    (hget : c.instructionSet.Get (m.Read c.State.PC) = .ok i)
    (haf : i.AddressingFunc = some af) (hop : i.Operation = some op)
    (had : af { c.State with PC := (c.State.PC + 1) % 65536 } (some m) = .ok ad)
    (hres : op { c.State with
        PC := ((c.State.PC + 1) % 65536 + ad.ProgramCounterChange) % 65536 } ad = .ok (s', w)) :
    ∃ c' n, Cpu.Step (some c) = some (some c', n, none) ∧
      c'.State = s' ∧
      n = (i.Cycles + 1 + (if i.PageBoundaryPenalty && ad.PageBoundaryCrossed then 1 else 0))
        % uintSize ∧
      (i.Cycles + 2 < uintSize →
        n = i.Cycles + 1 + (if i.PageBoundaryPenalty && ad.PageBoundaryCrossed then 1 else 0)) := by
  have hex := Execute_ok i { c.State with PC := (c.State.PC + 1) % 65536 } m af op ad s' w
    haf hop had hres
  unfold Cpu.Step
  simp only [hm, hget, hex]
  refine ⟨_, _, rfl, rfl, ?_, ?_⟩
  · unfold uintSize
    split_ifs <;> omega
  · intro hlt
    unfold uintSize at hlt ⊢
    split_ifs <;> omega

/-- Claim C20, counterexample. A `Step` on an opcode that is not in the instruction set
returns an error and leaves the program counter advanced from `0x0700` to `0x0701`. -/
theorem Step_error_advances_pc :
    ∃ c', Cpu.Step (some errorCpu) = some (some c', 1, some Error.OpCodeNotInInstructionSet) ∧
      errorCpu.State.PC = 0x0700 ∧ c'.State.PC = 0x0701 :=
  ⟨_, rfl, rfl, rfl⟩

/-- Claim C20, amended. `Step` on a Cpu with a memory always returns, and when it returns
an error SP, A, X, Y and P are as before the call and PC is the old PC plus one modulo
`2^16`: only the increment of the opcode fetch is committed. -/
theorem Step_error_registers (c : Cpu) (m : Memory) (hm : c.memory = some m) :
    ∃ c' n err, Cpu.Step (some c) = some (some c', n, err) ∧
      (err ≠ none → c'.State = { c.State with PC := (c.State.PC + 1) % 65536 }) := by
  unfold Cpu.Step
  simp only [hm]
  cases hget : c.instructionSet.Get (m.Read c.State.PC) with
  | error e => exact ⟨_, _, _, rfl, fun _ => rfl⟩
  | ok i =>
    simp only []
    cases hex : i.Execute { c.State with PC := (c.State.PC + 1) % 65536 } (some m) with
    | error e => exact ⟨_, _, _, rfl, fun _ => rfl⟩
    | ok r => exact ⟨_, _, _, rfl, fun h => absurd rfl h⟩

theorem Step_cycles_witness :
    ∃ c' n, Cpu.Step (some stepCpu) = some (some c', n, none) ∧
      c'.State.PC = 0x0602 ∧ c'.State.A = 0x31 ∧ n = 2 := by
  obtain ⟨c', n, h, hs, hn, -⟩ := Step_cycles stepCpu stepMemory adcImmediate Immediate
    AddWithCarry _ _ _ rfl rfl rfl rfl rfl rfl
  exact ⟨c', n, h, by rw [hs]; rfl, by rw [hs]; rfl, hn.trans (by decide)⟩

theorem Step_error_registers_witness :
    ∃ c' n err, Cpu.Step (some errorCpu) = some (some c', n, err) ∧
      (err ≠ none → c'.State = ⟨0x0701, 0xFD, 0x11, 0x22, 0x33, 0x01⟩) :=
  Step_error_registers errorCpu stepMemory rfl

theorem addressingMemory_bytes (a : Nat) : addressingMemory.Read a < 256 := by
  show (if a = 0x0000 then 0xFF else if a = 0x0001 then 0x01
    else if a = 0x0100 then 0x02 else if a = 0x01FF then 0xAA
    else if a = 0x0200 then 0x03 else if a = 0x02AA then 0x0F else 0) < 256
  split_ifs <;> decide

theorem PullStatus_PullP_witness :
    PullP ⟨0x0600, 0xFF, 1, 2, 3, 0xC3⟩ { Addressing.zero with Memory := some addressingMemory } =
      .ok (⟨0x0600, 0x00, 1, 2, 3, 0x22⟩, some addressingMemory) :=
  (PullStatus_PullP ⟨0x0600, 0xFF, 1, 2, 3, 0xC3⟩
    { Addressing.zero with Memory := some addressingMemory } addressingMemory rfl).2.1

theorem PushP_writes_witness :
    ∃ m', PushP testState testAddressing = .ok (⟨0xF0A0, 0xFA, 0, 0, 0, 0x03⟩, some m') ∧
      m'.Read 0x01FB = 0x33 :=
  (PushP_writes testState testAddressing testMemory rfl (by decide) (by decide)).imp
    fun _ h => ⟨h.1, h.2.1.trans (by decide)⟩

theorem Indirect_page_wrap_witness :
    ∃ ad, Indirect ⟨0x0000, 0xFD, 0, 0, 0, 0⟩ (some addressingMemory) = .ok ad ∧
      ad.EffectiveAddress = 0x02AA ∧ ad.Value = 0x0F := by
  obtain ⟨ad, h, hea, -, -, hv, -⟩ := Indirect_page_wrap ⟨0x0000, 0xFD, 0, 0, 0, 0⟩
    addressingMemory 0x01FF (by decide) (by decide) (by decide) addressingMemory_bytes
  have hea2 : ad.EffectiveAddress = 0x02AA := hea.trans (by decide)
  exact ⟨ad, h, hea2, by rw [hv, hea2]; decide⟩

theorem IndirectY_spec_witness :
    ∃ ad, IndirectY ⟨0x0000, 0xFD, 0, 0, 0x11, 0⟩ (some addressingMemory) = .ok ad ∧
      ad.EffectiveAddress = 0xFF11 ∧ ad.PageBoundaryCrossed = false := by
  obtain ⟨ad, h, hea, hp, -⟩ := IndirectY_spec ⟨0x0000, 0xFD, 0, 0, 0x11, 0⟩
    addressingMemory addressingMemory_bytes
  have hea2 : ad.EffectiveAddress = 0xFF11 := hea.trans (by decide)
  exact ⟨ad, h, hea2, by rw [hp, hea2]; decide⟩

theorem Absolute_modes_witness :
    ∃ ad, AbsoluteX ⟨0x0000, 0xFD, 0, 0x01, 0, 0⟩ (some addressingMemory) = .ok ad ∧
      ad.EffectiveAddress = 0x0200 ∧ ad.PageBoundaryCrossed = true ∧ ad.Value = 0x03 := by
  obtain ⟨ad, h, hea, hp, hv, -⟩ := (Absolute_modes ⟨0x0000, 0xFD, 0, 0x01, 0, 0⟩
    addressingMemory addressingMemory_bytes).1
  have hea2 : ad.EffectiveAddress = 0x0200 := hea.trans (by decide)
  exact ⟨ad, h, hea2, by rw [hp, hea2]; decide, by rw [hv, hea2]; decide⟩

theorem Relative_spec_witness :
    ∃ ad, Relative ⟨0x0000, 0xFD, 0, 0, 0, 0⟩ (some addressingMemory) = .ok ad ∧
      (ad.EffectiveAddress : Int) = 0 ∧ ad.Value = 0xFF := by
  obtain ⟨ad, h, -, hea, hv, -⟩ := Relative_spec ⟨0x0000, 0xFD, 0, 0, 0, 0⟩
    addressingMemory (by decide)
  exact ⟨ad, h, (hea (by decide)).trans (by decide), hv.trans (by decide)⟩

/-! ## Step on an unknown opcode, Reset, the status round trip -/

/-- Claim C21. On a Cpu with a memory and a non-empty instruction set (as `NewCpu`
provides), when the byte at pc is not an opcode of the set, `Step` returns the error
`OpCodeNotInInstructionSet` with a cycle count of exactly 1; pc is advanced by one modulo
`2^16`, SP, A, X, Y and P are unchanged and the memory is the same. -/
theorem Step_unknown_opcode (c : Cpu) (m : Memory) (hm : c.memory = some m)
    (hne : c.instructionSet.validate = none)
    (hun : c.instructionSet.instructions.lookup (m.Read c.State.PC) = none) :
    ∃ c', Cpu.Step (some c) = some (some c', 1, some Error.OpCodeNotInInstructionSet) ∧
      c'.State = { c.State with PC := (c.State.PC + 1) % 65536 } ∧
      c'.State.SP = c.State.SP ∧ c'.State.A = c.State.A ∧ c'.State.X = c.State.X ∧
      c'.State.Y = c.State.Y ∧ c'.State.P = c.State.P ∧
      c'.memory = some m ∧ c'.instructionSet = c.instructionSet := by
  have hget : c.instructionSet.Get (m.Read c.State.PC) = .error Error.OpCodeNotInInstructionSet := by
    unfold InstructionSet.Get
    simp only [hne, hun]
  unfold Cpu.Step
  simp only [hm, hget]
  exact ⟨_, rfl, rfl, rfl, rfl, rfl, rfl, rfl, rfl, rfl⟩

theorem Step_unknown_opcode_witness :
    ∃ c', Cpu.Step (some errorCpu) = some (some c', 1, some Error.OpCodeNotInInstructionSet) ∧
      c'.State = ⟨0x0701, 0xFD, 0x11, 0x22, 0x33, 0x01⟩ ∧ c'.memory = some stepMemory := by
  obtain ⟨c', h, hs, -, -, -, -, -, hmem, -⟩ :=
    Step_unknown_opcode errorCpu stepMemory rfl rfl rfl
  exact ⟨c', h, hs, hmem⟩

/-- Claim C23. On a Cpu with a memory, whatever the registers were, `Reset` returns no
error, sets pc to the little-endian word at `0xFFFC/0xFFFD`, SP to `0xFD`, A, X and Y to
zero and P to zero, and leaves the memory and the instruction set as they were. -/
theorem Reset_spec (c : Cpu) (m : Memory) (hm : c.memory = some m)
    (hl : m.Read 0xFFFC < 256) (hh : m.Read 0xFFFD < 256) :
    ∃ c', Cpu.Reset (some c) = (some c', none) ∧
      c'.State = ⟨m.Read 0xFFFC + 256 * m.Read 0xFFFD, 0xFD, 0, 0, 0, 0⟩ ∧
      c'.memory = some m ∧ c'.instructionSet = c.instructionSet := by
  simp only [Cpu.Reset, ReadResetVectorFromMemory, hm, ReadVector_some]
  refine ⟨_, rfl, ?_, rfl, rfl⟩
  show State.mk _ _ _ _ _ _ = _
  rw [show (ResetVectorAddress + 1) % 65536 = 0xFFFD from rfl,
    show ResetVectorAddress = 0xFFFC from rfl, MakeAddress_eq _ _ hl hh]
  rfl

theorem Reset_spec_witness :
    ∃ c', Cpu.Reset (some resetCpu) = (some c', none) ∧
      c'.State = ⟨0x0600, 0xFD, 0, 0, 0, 0⟩ ∧ c'.memory = some resetMemory := by
  obtain ⟨c', h, hs, hmem, -⟩ :=
    Reset_spec resetCpu resetMemory rfl (by decide) (by decide)
  exact ⟨c', h, hs.trans (by decide), hmem⟩

/-- Claim C24, as stated, fails: after `Reset` of a Cpu whose status was `0xFF` the
interrupt-disable flag is clear. -/
theorem Reset_leaves_interrupt_clear :
    ∃ c', Cpu.Reset (some resetCpu) = (some c', none) ∧
      (Status.ToFlags resetCpu.State.P).Interrupt = true ∧
      (Status.ToFlags c'.State.P).Interrupt = false :=
  ⟨_, rfl, by decide, by decide⟩

/-- Claim C24, amended. For any memory, after `Reset` the status register is zero: every
flag, the interrupt-disable flag I included, is clear. -/
theorem Reset_status (c : Cpu) (m : Memory) (hm : c.memory = some m) :
    ∃ c', Cpu.Reset (some c) = (some c', none) ∧ c'.State.P = 0 ∧
      Status.ToFlags c'.State.P = ⟨false, false, false, false, false, false, false⟩ := by
  simp only [Cpu.Reset, ReadResetVectorFromMemory, hm, ReadVector_some]
  refine ⟨_, rfl, rfl, ?_⟩
  show Status.ToFlags 0 = _
  decide

theorem Reset_status_witness :
    ∃ c', Cpu.Reset (some resetCpu) = (some c', none) ∧ c'.State.P = 0 ∧
      (Status.ToFlags c'.State.P).Interrupt = false := by
  obtain ⟨c', h, hp, hf⟩ := Reset_status resetCpu resetMemory rfl
  exact ⟨c', h, hp, by rw [hf]⟩

set_option maxRecDepth 100000 in
theorem ToStatus_ToFlags_bytes :
    ∀ b < 256, Flags.ToStatus (Status.ToFlags b) = b ||| 0x20 := by
  decide

/-- Claim C30. For every status byte `b`, `ToStatus (ToFlags b) = b OR 0x20`: the seven
flags C, Z, I, D, B, V and N survive the round trip and the Constant bit is 1. -/
theorem ToStatus_ToFlags (b : Nat) (hb : b < 256) :
    Flags.ToStatus (Status.ToFlags b) = b ||| 0x20 ∧
      Status.ToFlags (Flags.ToStatus (Status.ToFlags b)) = Status.ToFlags b ∧
      hasBit (Flags.ToStatus (Status.ToFlags b)) 5 = true := by
  have h := ToStatus_ToFlags_bytes b hb
  refine ⟨h, ?_, ?_⟩
  · rw [h, ToFlags_WithConstantSet]
  · rw [h, show b ||| 0x20 = Status.WithConstantSet b from rfl, hasBit_WithConstantSet]
    simp

theorem ToStatus_ToFlags_witness :
    Flags.ToStatus (Status.ToFlags 0xD3) = 0xF3 ∧
      Status.ToFlags (Flags.ToStatus (Status.ToFlags 0xD3)) = Status.ToFlags 0xD3 :=
  ⟨(ToStatus_ToFlags 0xD3 (by decide)).1.trans (by decide), (ToStatus_ToFlags 0xD3 (by decide)).2.1⟩

/-! ## NewInstruction -/

theorem uintOfInt_wrapInt (z : Int) : uintOfInt (wrapInt z) = uintOfInt z := by
  unfold uintOfInt wrapInt
  congr 1
  norm_num
  omega

theorem wrapInt_emod (z : Int) : wrapInt z % 2 ^ 64 = z % 2 ^ 64 := by
  unfold wrapInt
  norm_num
  omega

theorem intOfUint_emod (x : Nat) : intOfUint x % 2 ^ 64 = (x : Int) % 2 ^ 64 := by
  unfold intOfUint
  norm_num
  omega

theorem intOfUint_small (x : Nat) (hx : x < 2 ^ 63) : intOfUint x = x := by
  unfold intOfUint
  norm_num at hx ⊢
  omega

/-- Claim C25, as stated, fails: with `b_op = 0`, `b_am = 2` and no adjustment
`NewInstruction` yields 2 cycles where the formula gives 1, and with `b_op = 1`,
`b_am = 0` and an adjustment of -1 it yields `2^64 - 1` where the formula gives 0. -/
theorem NewInstruction_not_clamped :
    (NewInstruction ⟨0xEA, ⟨1, 0, false, some NoOperation⟩, Records.Zpg, 0⟩).Cycles = 2 ∧
      max 0 ((0 : Int) + 2 + 0 - 1) = 1 ∧
      (NewInstruction ⟨0x4C, Records.Jmp, Records.Imp, -1⟩).Cycles = 2 ^ 64 - 1 ∧
      max 0 ((1 : Int) + 0 + (-1) - 1) = 0 := by
  decide

/-- Claim C25, amended. For an operation base `b_op < 2^63`, `NewInstruction` produces
`Cycles = (max(0, b_op - 1) + b_am + adj) mod 2^64`: one cycle is taken off only when
`b_op > 0`, so for `b_op = 0` the result is `b_am + adj`; a total within the range of a
Go `uint` is the cycle count itself, and a negative total is not clamped but wraps to
`2^64 + total`. -/
theorem NewInstruction_cycles (m : Mnemonic) (hop : m.Operation.Cycles < 2 ^ 63) :
    (NewInstruction m).Cycles =
        ((((m.Operation.Cycles - 1 : Nat) : Int) + m.Addressing.Cycles + m.CycleAdjust)
          % 2 ^ 64).toNat ∧
      (0 ≤ ((m.Operation.Cycles - 1 : Nat) : Int) + m.Addressing.Cycles + m.CycleAdjust →
        ((m.Operation.Cycles - 1 : Nat) : Int) + m.Addressing.Cycles + m.CycleAdjust < 2 ^ 64 →
        ((NewInstruction m).Cycles : Int) =
          ((m.Operation.Cycles - 1 : Nat) : Int) + m.Addressing.Cycles + m.CycleAdjust) ∧
      (((m.Operation.Cycles - 1 : Nat) : Int) + m.Addressing.Cycles + m.CycleAdjust < 0 →
        -2 ^ 64 ≤ ((m.Operation.Cycles - 1 : Nat) : Int) + m.Addressing.Cycles + m.CycleAdjust →
        ((NewInstruction m).Cycles : Int) =
          ((m.Operation.Cycles - 1 : Nat) : Int) + m.Addressing.Cycles + m.CycleAdjust + 2 ^ 64) := by
  have h1 : (NewInstruction m).Cycles =
      ((((m.Operation.Cycles - 1 : Nat) : Int) + m.Addressing.Cycles + m.CycleAdjust)
        % 2 ^ 64).toNat := by
    simp only [NewInstruction]
    rw [uintOfInt_wrapInt, intOfUint_small _ hop]
    unfold uintOfInt
    congr 1
    have hd : (if (m.Operation.Cycles : Int) > 0 then wrapInt ((m.Operation.Cycles : Int) - 1)
        else (m.Operation.Cycles : Int)) = ((m.Operation.Cycles - 1 : Nat) : Int) := by
      split_ifs with h
      · unfold wrapInt
        norm_num at hop ⊢
        omega
      · omega
    rw [hd]
    have ha : Int.ModEq (2 ^ 64) (intOfUint m.Addressing.Cycles) m.Addressing.Cycles :=
      intOfUint_emod m.Addressing.Cycles
    have hw : Int.ModEq (2 ^ 64)
        (wrapInt (((m.Operation.Cycles - 1 : Nat) : Int) + intOfUint m.Addressing.Cycles))
        (((m.Operation.Cycles - 1 : Nat) : Int) + intOfUint m.Addressing.Cycles) :=
      wrapInt_emod _
    exact (hw.trans (Int.ModEq.add_left _ ha)).add_right _
  refine ⟨h1, fun h0 h2 => ?_, fun h0 h2 => ?_⟩
  · rw [h1]
    generalize ((m.Operation.Cycles - 1 : Nat) : Int) + m.Addressing.Cycles + m.CycleAdjust = t
      at h0 h2 ⊢
    norm_num at h2 ⊢
    omega
  · rw [h1]
    generalize ((m.Operation.Cycles - 1 : Nat) : Int) + m.Addressing.Cycles + m.CycleAdjust = t
      at h0 h2 ⊢
    norm_num at h2 ⊢
    omega

theorem NewInstruction_cycles_witness :
    (NewInstruction ⟨0x00, Records.Brk, Records.Imp, 0⟩).Cycles = 6 :=
  (NewInstruction_cycles ⟨0x00, Records.Brk, Records.Imp, 0⟩ (by decide)).1.trans (by decide)

/-! ## The opcode table -/

theorem lookup_of_mem_keys {α : Type} (l : List (Nat × α)) (k : Nat)
    (h : k ∈ l.map Prod.fst) : ∃ v, l.lookup k = some v ∧ (k, v) ∈ l := by
  induction l with
  | nil => simp at h
  | cons b t ih =>
    obtain ⟨k', v'⟩ := b
    by_cases hk : k = k'
    · subst hk
      exact ⟨v', by simp [List.lookup], by simp⟩
    · have ht : k ∈ t.map Prod.fst := by
        simp only [List.map_cons, List.mem_cons] at h
        rcases h with h | h
        · exact absurd h hk
        · exact h
      obtain ⟨v, hv, hmem⟩ := ih ht
      refine ⟨v, ?_, List.mem_cons_of_mem _ hmem⟩
      rw [List.lookup_cons, show (k == k') = false from by simpa using hk]
      exact hv

theorem lookup_of_not_mem_keys {α : Type} (l : List (Nat × α)) (k : Nat)
    (h : k ∉ l.map Prod.fst) : l.lookup k = none := by
  induction l with
  | nil => rfl
  | cons b t ih =>
    obtain ⟨k', v'⟩ := b
    simp only [List.map_cons, List.mem_cons, not_or] at h
    rw [List.lookup_cons, show (k == k') = false from by simpa using h.1]
    exact ih h.2

theorem Get_of_lookup (is : InstructionSet) (opcode : Nat) (i : Instruction)
    (hne : is.validate = none) (h : is.instructions.lookup opcode = some i) :
    is.Get opcode = .ok i := by
  unfold InstructionSet.Get
  simp only [hne, h]

theorem Get_of_lookup_none (is : InstructionSet) (opcode : Nat)
    (hne : is.validate = none) (h : is.instructions.lookup opcode = none) :
    is.Get opcode = .error Error.OpCodeNotInInstructionSet := by
  unfold InstructionSet.Get
  simp only [hne, h]

set_option maxRecDepth 100000 in
theorem table_keys :
    ((AllOpcodes.map NewInstruction).foldl (fun instructions instruction =>
        mapInsert instruction.Opcode instruction instructions) []).map Prod.fst =
      (AllOpcodes.map (fun m => m.Opcode)).reverse := by
  decide

set_option maxRecDepth 100000 in
theorem table_size :
    AllOpcodes.length = 151 ∧ (AllOpcodes.map (fun m => m.Opcode)).Nodup ∧
      ((List.range 256).filter
        (fun opcode => decide (opcode ∉ AllOpcodes.map (fun m => m.Opcode)))).length = 105 := by
  decide


theorem table_length :
    ((AllOpcodes.map NewInstruction).foldl (fun instructions instruction =>
      mapInsert instruction.Opcode instruction instructions) []).length = 151 := by
  have h := congrArg List.length table_keys
  rw [List.length_map, List.length_reverse, List.length_map] at h
  exact h.trans table_size.1

theorem table_validate :
    (InstructionSet.mk ((AllOpcodes.map NewInstruction).foldl
      (fun instructions instruction =>
        mapInsert instruction.Opcode instruction instructions) [])).validate = none := by
  simp only [InstructionSet.validate, table_length]
  rfl

/-- The map built by `New6502InstructionSet`. -/
theorem New6502InstructionSet_eq :
    New6502InstructionSet = .ok ⟨(AllOpcodes.map NewInstruction).foldl
      (fun instructions instruction =>
        mapInsert instruction.Opcode instruction instructions) []⟩ := by
  unfold New6502InstructionSet NewInstructionSet
  simp only [table_validate]

set_option maxRecDepth 100000 in
theorem table_opcodes :
    ∀ b ∈ (AllOpcodes.map NewInstruction).foldl (fun instructions instruction =>
        mapInsert instruction.Opcode instruction instructions) [], b.2.Opcode = b.1 := by
  decide


/-- Claim C27. `New6502InstructionSet` succeeds; the static table lists 151 records with
pairwise distinct opcode bytes and the set holds exactly these 151 opcodes: `Get`
succeeds for each of them, with the instruction of that opcode, and returns
`OpCodeNotInInstructionSet` for each of the other 105 byte values. -/
theorem New6502InstructionSet_opcodes :
    ∃ is, New6502InstructionSet = .ok is ∧
      AllOpcodes.length = 151 ∧ (AllOpcodes.map (fun m => m.Opcode)).Nodup ∧
      is.instructions.length = 151 ∧
      (∀ opcode, opcode ∈ AllOpcodes.map (fun m => m.Opcode) →
        ∃ i, is.Get opcode = .ok i ∧ i.Opcode = opcode) ∧
      (∀ opcode, opcode ∉ AllOpcodes.map (fun m => m.Opcode) →
        is.Get opcode = .error Error.OpCodeNotInInstructionSet) ∧
      ((List.range 256).filter
        (fun opcode => decide (opcode ∉ AllOpcodes.map (fun m => m.Opcode)))).length = 105 := by
  have hl := table_length
  have hv := table_validate
  refine ⟨_, New6502InstructionSet_eq, table_size.1, table_size.2.1, hl, ?_, ?_, table_size.2.2⟩
  · intro opcode h
    have hk : opcode ∈ ((AllOpcodes.map NewInstruction).foldl (fun instructions instruction =>
        mapInsert instruction.Opcode instruction instructions) []).map Prod.fst := by
      rw [table_keys]
      exact List.mem_reverse.mpr h
    obtain ⟨i, hi, hmem⟩ := lookup_of_mem_keys _ _ hk
    exact ⟨i, Get_of_lookup _ _ _ hv hi, table_opcodes _ hmem⟩
  · intro opcode h
    have hk : opcode ∉ ((AllOpcodes.map NewInstruction).foldl (fun instructions instruction =>
        mapInsert instruction.Opcode instruction instructions) []).map Prod.fst := by
      rw [table_keys]
      exact fun hm => h (List.mem_reverse.mp hm)
    exact Get_of_lookup_none _ _ hv (lookup_of_not_mem_keys _ _ hk)

theorem New6502InstructionSet_opcodes_witness :
    ∃ is, New6502InstructionSet = .ok is ∧
      (∃ i, is.Get 0xEA = .ok i ∧ i.Opcode = 0xEA) ∧
      is.Get 0x02 = .error Error.OpCodeNotInInstructionSet := by
  obtain ⟨is, h, -, -, -, hin, hout, -⟩ := New6502InstructionSet_opcodes
  exact ⟨is, h, hin 0xEA (by set_option maxRecDepth 100000 in decide),
    hout 0x02 (by set_option maxRecDepth 100000 in decide)⟩

/-- Claim C26, evaluated. Over the whole table the cycle count reported by
`NewMnemonicDisplayDetails` equals the documented one for every opcode except two: for
DEC absolute (`0xCE`) and INC absolute (`0xEE`) the table yields 7 cycles where the
reference table in the comment above their entries documents 6.  DEC and INC
absolute,X (`0xDE`, `0xFE`) yield 7, JMP absolute (`0x4C`) 3 and STA (indirect),Y
(`0x91`) 6, as documented. -/
theorem table_cycles_against_documented :
    (AllOpcodes.filter (fun m =>
        documentedCycles.lookup m.Opcode != some (NewMnemonicDisplayDetails m).Cycles)).map
        (fun m => (m.Opcode, (NewMnemonicDisplayDetails m).Cycles,
          documentedCycles.lookup m.Opcode)) =
      [(0xCE, 7, some 6), (0xEE, 7, some 6)] ∧
    (MnemonicFromOpCode 0xCE).map (fun m => (NewInstruction m).Cycles + 1) = some 7 ∧
    (MnemonicFromOpCode 0xEE).map (fun m => (NewInstruction m).Cycles + 1) = some 7 ∧
    (MnemonicFromOpCode 0xDE).map (fun m => (NewInstruction m).Cycles + 1) = some 7 ∧
    (MnemonicFromOpCode 0xFE).map (fun m => (NewInstruction m).Cycles + 1) = some 7 ∧
    (MnemonicFromOpCode 0x4C).map (fun m => (NewInstruction m).Cycles + 1) = some 3 ∧
    (MnemonicFromOpCode 0x91).map (fun m => (NewInstruction m).Cycles + 1) = some 6 := by
  set_option maxRecDepth 100000 in decide

/-! ## Fill -/

theorem lookup_filter_ne {α : Type} (l : List (Nat × α)) (k o : Nat) (h : o ≠ k) :
    (l.filter (fun b => b.1 != k)).lookup o = l.lookup o := by
  induction l with
  | nil => rfl
  | cons b t ih =>
    obtain ⟨k', v'⟩ := b
    by_cases hk : k' = k
    · subst hk
      rw [List.filter_cons_of_neg (by simp), List.lookup_cons,
        show (o == k') = false from by simpa using h]
      exact ih
    · rw [List.filter_cons_of_pos (by simpa using hk), List.lookup_cons, List.lookup_cons, ih]

theorem lookup_mapInsert {α : Type} (l : List (Nat × α)) (k o : Nat) (v : α) :
    (mapInsert k v l).lookup o = if o = k then some v else l.lookup o := by
  unfold mapInsert
  by_cases h : o = k
  · subst h
    simp [List.lookup]
  · rw [List.lookup_cons, show (o == k) = false from by simpa using h, if_neg h]
    exact lookup_filter_ne l k o h

/-- The loop of `Fill` over the opcodes below `n`: they all have an instruction
afterwards, and the bindings of the other opcodes are as before. -/
theorem Fill_loop (is : InstructionSet) (instruction : Instruction) (n : Nat) (hn : n ≤ 256) :
    (∀ o < n, ((((List.range n).foldl fillStep (is, instruction)).1.instructions.lookup
        o).isSome) = true) ∧
    (∀ o, n ≤ o → ((List.range n).foldl fillStep (is, instruction)).1.instructions.lookup o =
        is.instructions.lookup o) := by
  induction n with
  | zero => exact ⟨fun o h => absurd h (Nat.not_lt_zero o), fun o _ => rfl⟩
  | succ n ih =>
    obtain ⟨h1, h2⟩ := ih (by omega)
    rw [List.range_succ, List.foldl_append]
    generalize (List.range n).foldl fillStep (is, instruction) = acc at h1 h2 ⊢
    have hkey : n % 256 = n := Nat.mod_eq_of_lt (by omega)
    simp only [List.foldl_cons, List.foldl_nil, fillStep, hkey]
    cases hl : acc.1.instructions.lookup n with
    | some i =>
      simp only []
      refine ⟨fun o ho => ?_, fun o ho => h2 o (by omega)⟩
      by_cases hon : o = n
      · rw [hon, hl]
        rfl
      · exact h1 o (by omega)
    | none =>
      simp only []
      refine ⟨fun o ho => ?_, fun o ho => ?_⟩
      · rw [lookup_mapInsert]
        by_cases hon : o = n
        · rw [if_pos hon]
          rfl
        · rw [if_neg hon]
          exact h1 o (by omega)
      · rw [lookup_mapInsert, if_neg (by omega)]
        exact h2 o (by omega)

/-- What `Fill` does on a non-empty set: it returns no error, afterwards `Get` succeeds
for every opcode from 0 to 254, and an opcode from 255 on is bound as it was before. -/
theorem Fill_spec (is : InstructionSet) (instruction : Instruction)
    (hne : is.validate = none) :
    (is.Fill instruction).2 = none ∧
      (∀ o < 255, ∃ i, (is.Fill instruction).1.Get o = .ok i) ∧
      (is.instructions.lookup 0xFF = none →
        (is.Fill instruction).1.Get 0xFF = .error Error.OpCodeNotInInstructionSet) := by
  obtain ⟨h1, h2⟩ := Fill_loop is instruction 255 (by omega)
  unfold InstructionSet.Fill
  simp only [hne]
  generalize (List.range 255).foldl fillStep (is, instruction) = acc at h1 h2 ⊢
  have hv : acc.1.validate = none := by
    have h0 := h1 0 (by omega)
    unfold InstructionSet.validate
    cases hi : acc.1.instructions with
    | nil => rw [hi] at h0; exact absurd h0 (by simp)
    | cons b t => simp
  refine ⟨trivial, fun o ho => ?_, fun h => ?_⟩
  · have ho1 := h1 o ho
    cases hl : acc.1.instructions.lookup o with
    | none => rw [hl] at ho1; exact absurd ho1 (by simp)
    | some i => exact ⟨i, Get_of_lookup acc.1 o i hv hl⟩
  · exact Get_of_lookup_none acc.1 0xFF hv ((h2 0xFF (by omega)).trans h)

/-- Claim C28, evaluated. `Fill` on the 6502 instruction set, which is not empty and
lacks the opcode `0xFF`, returns no error; afterwards `Get` succeeds for the opcodes 0
to 254 but still returns `OpCodeNotInInstructionSet` for `0xFF`: the loop
`for opcode := range 255` never reaches the last opcode. -/
theorem Fill_leaves_0xFF_unfilled :
    ∃ is, New6502InstructionSet = .ok is ∧ is.validate = none ∧
      (is.Fill fillInstruction).2 = none ∧
      (∀ o < 255, ∃ i, (is.Fill fillInstruction).1.Get o = .ok i) ∧
      (is.Fill fillInstruction).1.Get 0xFF = .error Error.OpCodeNotInInstructionSet := by
  refine ⟨_, New6502InstructionSet_eq, table_validate, (Fill_spec _ _ table_validate).1,
    (Fill_spec _ _ table_validate).2.1, (Fill_spec _ _ table_validate).2.2 ?_⟩
  apply lookup_of_not_mem_keys
  rw [table_keys]
  set_option maxRecDepth 100000 in decide

/-! ## RepeatingRam -/

theorem mask_and_eq_mod (size a : Nat)
    (hs : size = 8 ∨ size = 16 ∨ size = 32 ∨ size = 64 ∨ size = 128 ∨ size = 1024) :
    (size - 1) &&& a = a % size := by
  rw [Nat.and_comm]
  rcases hs with h | h | h | h | h | h <;> subst h
  · exact Nat.and_pow_two_sub_one_eq_mod a 3
  · exact Nat.and_pow_two_sub_one_eq_mod a 4
  · exact Nat.and_pow_two_sub_one_eq_mod a 5
  · exact Nat.and_pow_two_sub_one_eq_mod a 6
  · exact Nat.and_pow_two_sub_one_eq_mod a 7
  · exact Nat.and_pow_two_sub_one_eq_mod a 10

/-- Claim C29. `NewRepeatingRam` accepts exactly the sizes 8, 16, 32, 64, 128 and 1024
and rejects every other size with `InvalidMemorySizeProvided`; the ram it returns has a
buffer of `size` cells and the mask `size - 1`, which `Write` keeps.  On such a ram,
for every address `a` the cell accessed is `mask AND a = a mod size`, inside the buffer,
so `Read` and `Write` never fail, and after `Write b v` a `Read a` returns `v` when `a`
and `b` are congruent modulo `size` and the previous content otherwise. -/
theorem RepeatingRam_spec (size : Nat) :
    ((size = 8 ∨ size = 16 ∨ size = 32 ∨ size = 64 ∨ size = 128 ∨ size = 1024) →
      ∃ r, NewRepeatingRam size = .ok r ∧ r.Valid size) ∧
    (¬ (size = 8 ∨ size = 16 ∨ size = 32 ∨ size = 64 ∨ size = 128 ∨ size = 1024) →
      NewRepeatingRam size = .error Error.InvalidMemorySizeProvided) ∧
    ((size = 8 ∨ size = 16 ∨ size = 32 ∨ size = 64 ∨ size = 128 ∨ size = 1024) →
      ∀ r : RepeatingRam, r.Valid size → ∀ a b v : Nat,
        r.mask &&& a = a % size ∧ a % size < r.ram.length ∧
        ∃ old r', RepeatingRam.Read (some r) a = some old ∧
          RepeatingRam.Write (some r) b v = some (some r') ∧ r'.Valid size ∧
          RepeatingRam.Read (some r') a = some (if a % size = b % size then v else old)) := by
  refine ⟨fun hs => ?_, fun hs => ?_, fun hs r hr a b v => ?_⟩
  · refine ⟨_, if_pos hs, ?_, ?_, ?_⟩
    · exact List.length_replicate _ _
    · show size % 65536 = size
      omega
    · show (size + 65535) % 65536 = size - 1
      omega
  · exact if_neg hs
  · obtain ⟨hlen, hsize, hmask⟩ := hr
    have hpos : 0 < size := by omega
    have ha : r.mask &&& a = a % size := by rw [hmask]; exact mask_and_eq_mod size a hs
    have hb : r.mask &&& b = b % size := by rw [hmask]; exact mask_and_eq_mod size b hs
    have hal : a % size < r.ram.length := by rw [hlen]; exact Nat.mod_lt _ hpos
    have hbl : b % size < r.ram.length := by rw [hlen]; exact Nat.mod_lt _ hpos
    refine ⟨ha, hal, r.ram[a % size], { r with ram := r.ram.set (b % size) v }, ?_, ?_, ?_, ?_⟩
    · show r.ram[r.mask &&& a]? = _
      rw [ha]
      exact List.getElem?_eq_getElem hal
    · show (if r.mask &&& b < r.ram.length then _ else _) = _
      rw [hb, if_pos hbl]
    · exact ⟨by rw [List.length_set]; exact hlen, hsize, hmask⟩
    · show (r.ram.set (b % size) v)[r.mask &&& a]? = _
      rw [ha, List.getElem?_set]
      by_cases h : a % size = b % size
      · rw [if_pos h.symm, if_pos h, if_pos hbl]
      · rw [if_neg (fun h' => h h'.symm), if_neg h]
        exact List.getElem?_eq_getElem hal

theorem RepeatingRam_spec_witness :
    ∃ r, NewRepeatingRam 8 = .ok r ∧ r.Valid 8 ∧
      NewRepeatingRam 9 = .error Error.InvalidMemorySizeProvided ∧
      ∃ r', RepeatingRam.Write (some r) 0x1239 7 = some (some r') ∧
        RepeatingRam.Read (some r') 0xFFF9 = some 7 ∧
        RepeatingRam.Read (some r') 0xFFFA = some 0 := by
  obtain ⟨r, h, hv⟩ := (RepeatingRam_spec 8).1 (by decide)
  obtain ⟨-, -, old, r', ho, hw, -, hr⟩ :=
    (RepeatingRam_spec 8).2.2 (by decide) r hv 0xFFF9 0x1239 7
  refine ⟨r, h, hv, (RepeatingRam_spec 9).2.1 (by decide), r', hw, hr.trans (by simp), ?_⟩
  cases h
  cases hw
  decide

/-! ## Execute -/

theorem mem_of_lookup {α : Type} (l : List (Nat × α)) (k : Nat) (v : α)
    (h : l.lookup k = some v) : (k, v) ∈ l := by
  induction l with
  | nil => simp at h
  | cons b t ih =>
    obtain ⟨k', v'⟩ := b
    rw [List.lookup_cons] at h
    by_cases hk : k = k'
    · subst hk
      simp only [beq_self_eq_true, Option.some.injEq] at h
      subst h
      exact List.mem_cons_self _ _
    · rw [show (k == k') = false from by simpa using hk] at h
      exact List.mem_cons_of_mem _ (ih h)

theorem mem_of_Get (is : InstructionSet) (opcode : Nat) (i : Instruction)
    (h : is.Get opcode = .ok i) : (opcode, i) ∈ is.instructions := by
  unfold InstructionSet.Get at h
  cases hv : is.validate with
  | some e => simp [hv] at h
  | none =>
    cases hl : is.instructions.lookup opcode with
    | none => simp [hv, hl] at h
    | some v =>
      simp only [hv, hl, Except.ok.injEq] at h
      subst h
      exact mem_of_lookup _ _ _ hl

/-- The cycles `Instruction.Execute` reports: the base cycles, or one more. -/
theorem Execute_cycles (i : Instruction) (s s' : State) (mem w : Option Memory) (cyc : Nat)
    (h : i.Execute s mem = .ok (s', cyc, w)) :
    cyc = i.Cycles ∨ cyc = (i.Cycles + 1) % uintSize := by
  unfold Instruction.Execute at h
  cases mem with
  | none => simp at h
  | some m =>
    cases haf : i.AddressingFunc with
    | none => simp [haf] at h
    | some af =>
      cases hop : i.Operation with
      | none => simp [haf, hop] at h
      | some op =>
        cases had : af s (some m) with
        | error e => simp [haf, hop, had] at h
        | ok ad =>
          cases hres : op { s with PC := (s.PC + ad.ProgramCounterChange) % 65536 } ad with
          | error e => simp [haf, hop, had, hres] at h
          | ok r =>
            simp only [haf, hop, had, hres, Except.ok.injEq, Prod.mk.injEq] at h
            obtain ⟨-, hc, -⟩ := h
            by_cases hp : (i.PageBoundaryPenalty && ad.PageBoundaryCrossed) = true
            · rw [if_pos hp] at hc
              exact Or.inr hc.symm
            · rw [if_neg hp] at hc
              exact Or.inl hc.symm

/-- A `Step` of a Cpu with a memory returns; the Cpu keeps a memory and its instruction
set, and the cycles are at least 1 and, added to `n > 0`, within the range of a Go `uint`
when this holds for the cycles of every instruction of the set. -/
theorem Step_total (c : Cpu) (m : Memory) (n : Nat) (hm : c.memory = some m)
    (hn : 0 < n) (hU : n < uintSize)
    (hK : ∀ b ∈ c.instructionSet.instructions, n + b.2.Cycles + 2 ≤ uintSize) :
    ∃ c' k err, Cpu.Step (some c) = some (some c', k, err) ∧
      c'.instructionSet = c.instructionSet ∧ (∃ m', c'.memory = some m') ∧
      1 ≤ k ∧ n + k ≤ uintSize := by
  unfold Cpu.Step
  simp only [hm]
  cases hget : c.instructionSet.Get (m.Read c.State.PC) with
  | error e => exact ⟨_, _, _, rfl, rfl, ⟨m, rfl⟩, le_refl 1, hU⟩
  | ok i =>
    simp only []
    have hb : n + i.Cycles + 2 ≤ uintSize := hK _ (mem_of_Get _ _ _ hget)
    cases hex : i.Execute { c.State with PC := (c.State.PC + 1) % 65536 } (some m) with
    | error e => exact ⟨_, _, _, rfl, rfl, ⟨m, rfl⟩, by decide, by
        show n + (0 + 1) % uintSize ≤ uintSize
        rw [show (0 + 1) % uintSize = 1 from by decide]
        exact hU⟩
    | ok r =>
      obtain ⟨s', cyc, w⟩ := r
      have hc := Execute_cycles _ _ _ _ _ _ hex
      have hk : 1 ≤ (cyc + 1) % uintSize ∧ n + (cyc + 1) % uintSize ≤ uintSize := by
        have hu : uintSize = 18446744073709551616 := by decide
        rw [hu] at hb hc ⊢
        rcases hc with hc | hc <;> omega
      refine ⟨_, _, _, rfl, rfl, ?_, hk.1, hk.2⟩
      cases w with
      | none => exact ⟨m, rfl⟩
      | some w => exact ⟨w, rfl⟩

theorem executeLoop_done (cycles fuel : Nat) (c : Option Cpu) (e : Nat) (h : ¬ e < cycles) :
    executeLoop cycles fuel c e = some (c, e, none) := by
  cases fuel with
  | zero => exact if_neg h
  | succ f => exact if_neg h

/-- The loop of `Execute` with enough fuel: it makes the calls of `stepN` for some
`k ≥ 1`, adds up their cycles and stops at the first call that reaches `n` or fails. -/
theorem executeLoop_spec (is : InstructionSet) (n : Nat) (hU : n < uintSize)
    (hK : ∀ b ∈ is.instructions, n + b.2.Cycles + 2 ≤ uintSize) :
    ∀ (fuel : Nat) (c : Cpu) (elapsed : Nat), c.instructionSet = is → (∃ m, c.memory = some m) →
      elapsed < n → n - elapsed ≤ fuel →
      ∃ k c' ks err, 1 ≤ k ∧ k ≤ n - elapsed ∧ stepN k (some c) = some (some c', ks, err) ∧
        ks.length = k ∧
        executeLoop n fuel (some c) elapsed = some (some c', elapsed + ks.sum, err) ∧
        elapsed + ks.dropLast.sum < n ∧ (err = none → n ≤ elapsed + ks.sum) := by
  intro fuel
  induction fuel with
  | zero => intro c elapsed _ _ h1 h2; omega
  | succ fuel ih =>
    intro c elapsed his hmem hlt hfuel
    obtain ⟨m, hm⟩ := hmem
    obtain ⟨c1, k1, err1, hstep, his1, hmem1, hk1, hku⟩ :=
      Step_total c m n hm (by omega) hU (by rw [his]; exact hK)
    have hmod : (elapsed + k1) % uintSize = elapsed + k1 := Nat.mod_eq_of_lt (by omega)
    cases err1 with
    | some e =>
      refine ⟨1, c1, [k1], some e, le_refl 1, by omega, ?_, rfl, ?_, ?_, ?_⟩
      · show (match Cpu.Step (some c) with
          | none => none
          | some (c, stepCycles, some err) => some (c, [stepCycles], some err)
          | some (c, stepCycles, none) =>
            match stepN 0 c with
            | none => none
            | some (c, rest, err) => some (c, stepCycles :: rest, err)) = _
        rw [hstep]
      · show (if elapsed < n then _ else _) = _
        rw [if_pos hlt, hstep]
        simp only [hmod, List.sum_cons, List.sum_nil, Nat.add_zero]
      · simpa using hlt
      · intro h
        exact absurd h (by simp)
    | none =>
      by_cases hdone : elapsed + k1 < n
      · obtain ⟨k, c', ks, err, hk, hkn, hsn, hlen, hex, hdrop, herr⟩ :=
          ih c1 (elapsed + k1) (his1.trans his) hmem1 hdone (by omega)
        refine ⟨k + 1, c', k1 :: ks, err, by omega, by omega, ?_, by simp [hlen], ?_, ?_, ?_⟩
        · show (match Cpu.Step (some c) with
            | none => none
            | some (c, stepCycles, some err) => some (c, [stepCycles], some err)
            | some (c, stepCycles, none) =>
              match stepN k c with
              | none => none
              | some (c, rest, err) => some (c, stepCycles :: rest, err)) = _
          rw [hstep]
          simp only [hsn]
        · show (if elapsed < n then _ else _) = _
          rw [if_pos hlt, hstep]
          simp only [hmod, hex, List.sum_cons, Nat.add_assoc]
        · have hne : ks ≠ [] := by
            intro h
            rw [h] at hlen
            simp at hlen
            omega
          rw [List.dropLast_cons_of_ne_nil hne, List.sum_cons]
          omega
        · intro h
          have := herr h
          rw [List.sum_cons]
          omega
      · refine ⟨1, c1, [k1], none, le_refl 1, by omega, ?_, rfl, ?_, ?_, ?_⟩
        · show (match Cpu.Step (some c) with
            | none => none
            | some (c, stepCycles, some err) => some (c, [stepCycles], some err)
            | some (c, stepCycles, none) =>
              match stepN 0 c with
              | none => none
              | some (c, rest, err) => some (c, stepCycles :: rest, err)) = _
          rw [hstep]
          rfl
        · show (if elapsed < n then _ else _) = _
          rw [if_pos hlt, hstep]
          simp only [hmod, List.sum_cons, List.sum_nil, Nat.add_zero]
          exact executeLoop_done _ _ _ _ hdone
        · simpa using hlt
        · intro _
          simp only [List.sum_cons, List.sum_nil, Nat.add_zero]
          omega

/-- Claim C22. For `n > 0`, on a Cpu with a memory and with enough fuel, `Execute n`
returns, provided the count stays within a Go `uint` (`n` plus the cycles of any one
instruction of the set, plus 2, does not exceed `2^64`).  It makes `k ≥ 1` calls of
`Step` and returns the sum `t` of their cycle counts together with the error of the
last call; the Cpu holds the changes of all the calls made.  The sum without the last
call is below `n`, and when no call failed `t ≥ n`. -/
theorem Execute_spec (c : Cpu) (m : Memory) (n fuel : Nat) (hm : c.memory = some m)
    (hn : 0 < n) (hU : n < uintSize)
    (hK : ∀ b ∈ c.instructionSet.instructions, n + b.2.Cycles + 2 ≤ uintSize)
    (hfuel : n ≤ fuel) :
    ∃ k c' ks err, 1 ≤ k ∧ k ≤ n ∧ stepN k (some c) = some (some c', ks, err) ∧
      ks.length = k ∧ Cpu.Execute fuel (some c) n = some (some c', ks.sum, err) ∧
      ks.dropLast.sum < n ∧ (err = none → n ≤ ks.sum) := by
  obtain ⟨k, c', ks, err, hk, hkn, hsn, hlen, hex, hdrop, herr⟩ :=
    executeLoop_spec c.instructionSet n hU hK fuel c 0 rfl ⟨m, hm⟩ hn (by omega)
  refine ⟨k, c', ks, err, hk, by omega, hsn, hlen, ?_, by omega, fun h => by
    have := herr h
    omega⟩
  unfold Cpu.Execute
  simp only [show (n == 0) = false from by simpa using hn.ne', Bool.false_eq_true, if_false]
  rw [hex, Nat.zero_add]

theorem Execute_spec_witness :
    ∃ k c' ks err, 1 ≤ k ∧ k ≤ 5 ∧ stepN k (some stepCpu) = some (some c', ks, err) ∧
      ks.length = k ∧ Cpu.Execute 5 (some stepCpu) 5 = some (some c', ks.sum, err) ∧
      ks.dropLast.sum < 5 ∧ (err = none → 5 ≤ ks.sum) :=
  Execute_spec stepCpu stepMemory 5 5 rfl (by decide) (by decide) (by decide) (by decide)

/-! ## Vectors and branches -/

/-- Claim C31. On a memory, `WriteVectorToMemory` of a 16-bit vector `v` at an address
`V` stores the low byte of `v` at `V` and the high byte at `V + 1` and changes no other
cell, and `ReadVectorFromMemory` at `V` then returns `v`; this holds for every address
`V`, the vector addresses `0xFFFA`, `0xFFFC` and `0xFFFE` among them.  Both helpers
return `MemoryMustBeProvided` when the memory is nil. -/
theorem WriteVector_ReadVector (m : Memory) (V v : Nat) (hv : v < 65536) :
    ∃ m', WriteVectorToMemory (some m) V v = .ok m' ∧
      ReadVectorFromMemory (some m') V = .ok v ∧
      m'.Read V = v % 256 ∧ m'.Read ((V + 1) % 65536) = v / 256 ∧
      (∀ a, a ≠ V → a ≠ (V + 1) % 65536 → m'.Read a = m.Read a) ∧
      WriteVectorToMemory none V v = .error Error.MemoryMustBeProvided ∧
      ReadVectorFromMemory none V = .error Error.MemoryMustBeProvided := by
  have hne : V ≠ (V + 1) % 65536 := by omega
  have hw : WriteVectorToMemory (some m) V v =
      .ok ((m.Write V (v % 256)).Write ((V + 1) % 65536) (v / 256 % 256)) := by
    unfold WriteVectorToMemory
    simp only [SplitAddress_eq]
  have hlo : ((m.Write V (v % 256)).Write ((V + 1) % 65536) (v / 256 % 256)).Read V =
      v % 256 := by
    rw [Read_Write, if_neg hne, Read_Write, if_pos rfl]
  have hhi : ((m.Write V (v % 256)).Write ((V + 1) % 65536) (v / 256 % 256)).Read
      ((V + 1) % 65536) = v / 256 := by
    rw [Read_Write, if_pos rfl]
    omega
  refine ⟨_, hw, ?_, hlo, hhi, fun a h1 h2 => ?_, rfl, rfl⟩
  · rw [ReadVector_some, hlo, hhi, MakeAddress_eq _ _ (by omega) (by omega)]
    congr 1
    omega
  · rw [Read_Write, if_neg h2, Read_Write, if_neg h1]

theorem WriteVector_ReadVector_witness :
    ∃ m', WriteResetVectorToMemory (some testMemory) 0x1234 = .ok m' ∧
      ReadResetVectorFromMemory (some m') = .ok 0x1234 ∧
      m'.Read 0xFFFC = 0x34 ∧ m'.Read 0xFFFD = 0x12 := by
  obtain ⟨m', h1, h2, h3, h4, -, -, -⟩ :=
    WriteVector_ReadVector testMemory 0xFFFC 0x1234 (by decide)
  exact ⟨m', h1, h2, h3, h4⟩

/-- Claim C33. Each of the eight branch operations returns the snapshot with pc set to
the effective address exactly when the tested flag has the required value (BCC: C
clear, BCS: C set, BEQ: Z set, BNE: Z clear, BMI: N set, BPL: N clear, BVC: V clear,
BVS: V set) and with pc unchanged otherwise; SP, A, X, Y, P and the memory are
unchanged in both cases. -/
theorem Branch_spec (s : State) (ad : Addressing) :
    BranchOnCarryClear s ad = .ok ({ s with PC :=
      if (Status.ToFlags s.P).Carry = false then ad.EffectiveAddress else s.PC }, ad.Memory) ∧
    BranchOnCarrySet s ad = .ok ({ s with PC :=
      if (Status.ToFlags s.P).Carry = true then ad.EffectiveAddress else s.PC }, ad.Memory) ∧
    BranchOnEqual s ad = .ok ({ s with PC :=
      if (Status.ToFlags s.P).Zero = true then ad.EffectiveAddress else s.PC }, ad.Memory) ∧
    BranchOnNotEqual s ad = .ok ({ s with PC :=
      if (Status.ToFlags s.P).Zero = false then ad.EffectiveAddress else s.PC }, ad.Memory) ∧
    BranchOnMinus s ad = .ok ({ s with PC :=
      if (Status.ToFlags s.P).Negative = true then ad.EffectiveAddress else s.PC },
        ad.Memory) ∧
    BranchOnPlus s ad = .ok ({ s with PC :=
      if (Status.ToFlags s.P).Negative = false then ad.EffectiveAddress else s.PC },
        ad.Memory) ∧
    BranchOnOverflowClear s ad = .ok ({ s with PC :=
      if (Status.ToFlags s.P).Overflow = false then ad.EffectiveAddress else s.PC },
        ad.Memory) ∧
    BranchOnOverflowSet s ad = .ok ({ s with PC :=
      if (Status.ToFlags s.P).Overflow = true then ad.EffectiveAddress else s.PC },
        ad.Memory) := by
  refine ⟨?_, ?_, ?_, ?_, ?_, ?_, ?_, ?_⟩
  · unfold BranchOnCarryClear
    cases (Status.ToFlags s.P).Carry <;> rfl
  · unfold BranchOnCarrySet
    cases (Status.ToFlags s.P).Carry <;> rfl
  · unfold BranchOnEqual
    cases (Status.ToFlags s.P).Zero <;> rfl
  · unfold BranchOnNotEqual
    cases (Status.ToFlags s.P).Zero <;> rfl
  · unfold BranchOnMinus
    cases (Status.ToFlags s.P).Negative <;> rfl
  · unfold BranchOnPlus
    cases (Status.ToFlags s.P).Negative <;> rfl
  · unfold BranchOnOverflowClear
    cases (Status.ToFlags s.P).Overflow <;> rfl
  · unfold BranchOnOverflowSet
    cases (Status.ToFlags s.P).Overflow <;> rfl

/-! ## Flags of the compare, shift, load and transfer operations -/

theorem isNegative_hasBit (x : Nat) : isNegative x = hasBit x 7 := and_two_pow_ne_zero x 7

theorem hasBit_mod_256 (x j : Nat) (hj : j < 8) : hasBit (x % 256) j = hasBit x j := by
  unfold hasBit
  rw [show 256 = 2 ^ 8 from rfl, Nat.testBit_mod_two_pow]
  simp [hj]

/-- The status after setting C to `c` and then N and Z from `x`. -/
theorem hasBit_czn (p x j : Nat) (c : Bool) (hj : j < 8) :
    hasBit (zeroSet (negativeSet (if c then Status.SetCarry p else Status.ClearCarry p) x) x) j =
      if j = 0 then c
      else if j = 1 then isZero x
      else if j = 7 then isNegative x
      else hasBit p j := by
  unfold zeroSet negativeSet
  cases isZero x <;> cases isNegative x <;> cases c <;>
    simp only [hasBit_SetCarry, hasBit_ClearCarry, hasBit_SetZero, hasBit_ClearZero,
      hasBit_SetNegative, hasBit_ClearNegative, hj,
      if_true, if_false, Bool.false_eq_true] <;>
    interval_cases j <;> simp

/-- The status after setting N and Z from `x`, in the order of the loads. -/
theorem hasBit_nz (p x j : Nat) (hj : j < 8) :
    hasBit (zeroSet (negativeSet p x) x) j =
      if j = 1 then isZero x else if j = 7 then isNegative x else hasBit p j := by
  unfold zeroSet negativeSet
  cases isZero x <;> cases isNegative x <;>
    simp only [hasBit_SetZero, hasBit_ClearZero, hasBit_SetNegative, hasBit_ClearNegative, hj,
      if_true, if_false, Bool.false_eq_true] <;>
    interval_cases j <;> simp

/-- The status after setting Z and N from `x`, in the order of the transfers. -/
theorem hasBit_zn (p x j : Nat) (hj : j < 8) :
    hasBit (negativeSet (zeroSet p x) x) j =
      if j = 1 then isZero x else if j = 7 then isNegative x else hasBit p j := by
  unfold zeroSet negativeSet
  cases isZero x <;> cases isNegative x <;>
    simp only [hasBit_SetZero, hasBit_ClearZero, hasBit_SetNegative, hasBit_ClearNegative, hj,
      if_true, if_false, Bool.false_eq_true] <;>
    interval_cases j <;> simp

theorem reflects_of_bits (p r x : Nat) (hr : r = x % 256)
    (h1 : hasBit p 1 = isZero x) (h7 : hasBit p 7 = isNegative x) : reflects p r := by
  unfold reflects
  rw [ToFlags_eq]
  simp only []
  rw [h1, h7, isZero_eq, isNegative_hasBit, hr, hasBit_mod_256 x 7 (by decide)]
  exact ⟨rfl, rfl⟩

theorem reflects_nz (p r x : Nat) (hr : r = x % 256) :
    reflects (zeroSet (negativeSet p x) x) r :=
  reflects_of_bits _ r x hr (by rw [hasBit_nz _ _ _ (by decide)]; rfl)
    (by rw [hasBit_nz _ _ _ (by decide)]; rfl)

theorem reflects_zn (p r x : Nat) (hr : r = x % 256) :
    reflects (negativeSet (zeroSet p x) x) r :=
  reflects_of_bits _ r x hr (by rw [hasBit_zn _ _ _ (by decide)]; rfl)
    (by rw [hasBit_zn _ _ _ (by decide)]; rfl)

theorem reflects_czn (p r x : Nat) (c : Bool) (hr : r = x % 256) :
    reflects (zeroSet (negativeSet (if c then Status.SetCarry p else Status.ClearCarry p) x) x)
      r :=
  reflects_of_bits _ r x hr (by rw [hasBit_czn _ _ _ _ (by decide)]; rfl)
    (by rw [hasBit_czn _ _ _ _ (by decide)]; rfl)

theorem reflects_arith (p a v r x : Nat) (hr : r = x % 256) :
    reflects (zeroSet (negativeSet (carrySet (overflowSet p a v x) x) x) x) r :=
  reflects_of_bits _ r x hr (by rw [hasBit_arith _ _ _ _ _ (by decide)]; rfl)
    (by rw [hasBit_arith _ _ _ _ _ (by decide)]; rfl)

/-! ## Compare -/

/-- Claim C32. The compare operations change only the status, and for byte values of the
compared register `r` (A for CMP, X for CPX, Y for CPY) and of the operand they set C
exactly when `r ≥ value`, Z exactly when `r = value` and N to bit 7 of
`(r - value) mod 256`; the bits I, D, B, Constant and V of the status are unchanged. -/
theorem Compare_spec (s : State) (ad : Addressing) (r : Nat) (hr : r < 256)
    (hv : ad.Value < 256) :
    CompareWithA s ad = .ok ({ s with P := compare s.P s.A ad.Value }, ad.Memory) ∧
    CompareWithX s ad = .ok ({ s with P := compare s.P s.X ad.Value }, ad.Memory) ∧
    CompareWithY s ad = .ok ({ s with P := compare s.P s.Y ad.Value }, ad.Memory) ∧
    (Status.ToFlags (compare s.P r ad.Value)).Carry = decide (r ≥ ad.Value) ∧
    (Status.ToFlags (compare s.P r ad.Value)).Zero = decide (r = ad.Value) ∧
    (Status.ToFlags (compare s.P r ad.Value)).Negative =
      hasBit ((r + 256 - ad.Value) % 256) 7 ∧
    (∀ j, 2 ≤ j → j ≤ 6 → hasBit (compare s.P r ad.Value) j = hasBit s.P j) := by
  have hc : compare s.P r ad.Value =
      zeroSet (negativeSet (if decide (r ≥ ad.Value) then Status.SetCarry s.P
        else Status.ClearCarry s.P) ((r + (65536 - ad.Value)) % 65536))
        ((r + (65536 - ad.Value)) % 65536) := by
    unfold compare
    by_cases h : r ≥ ad.Value <;> simp [h]
  refine ⟨rfl, rfl, rfl, ?_, ?_, ?_, fun j h2 h6 => ?_⟩
  · rw [ToFlags_eq, hc]
    exact hasBit_czn _ _ 0 _ (by decide)
  · rw [ToFlags_eq, hc]
    show hasBit _ 1 = _
    rw [hasBit_czn _ _ 1 _ (by decide)]
    simp only [if_neg (show ¬ (1 = 0) from by decide), if_true, isZero_eq]
    rw [Bool.eq_iff_iff]
    simp only [decide_eq_true_eq]
    omega
  · rw [ToFlags_eq, hc]
    show hasBit _ 7 = _
    rw [hasBit_czn _ _ 7 _ (by decide)]
    simp only [if_neg (show ¬ (7 = 0) from by decide), if_neg (show ¬ (7 = 1) from by decide),
      if_true, isNegative_hasBit]
    rw [← hasBit_mod_256 _ 7 (by decide)]
    congr 1
    omega
  · rw [hc, hasBit_czn _ _ j _ (by omega), if_neg (by omega), if_neg (by omega),
      if_neg (by omega)]

theorem Compare_spec_witness :
    CompareWithA ⟨0x0600, 0xFD, 0x10, 0, 0, 0x24⟩ { Addressing.zero with Value := 0x20 } =
        .ok (⟨0x0600, 0xFD, 0x10, 0, 0, compare 0x24 0x10 0x20⟩, none) ∧
      (Status.ToFlags (compare 0x24 0x10 0x20)).Carry = false ∧
      (Status.ToFlags (compare 0x24 0x10 0x20)).Zero = false ∧
      (Status.ToFlags (compare 0x24 0x10 0x20)).Negative = true := by
  obtain ⟨h, -, -, hc, hz, hn, -⟩ := Compare_spec ⟨0x0600, 0xFD, 0x10, 0, 0, 0x24⟩
    { Addressing.zero with Value := 0x20 } 0x10 (by decide) (by decide)
  exact ⟨h, hc.trans (by decide), hz.trans (by decide), hn.trans (by decide)⟩

/-! ## Shifts, rotates, increments and decrements through Store -/

theorem Store_spec (ad : Addressing) (s : State) (r : Nat) :
    (ad.Accumulator = true → ad.Store s r = .ok ({ s with A := r }, ad.Memory)) ∧
    (ad.Accumulator = false → ∀ m, ad.Memory = some m →
      ad.Store s r = .ok (s, some (m.Write ad.EffectiveAddress r))) ∧
    (ad.Accumulator = false → ad.Memory = none →
      ad.Store s r = .error Error.MemoryMustBeProvided) := by
  unfold Addressing.Store
  refine ⟨fun h => ?_, fun h m hm => ?_, fun h hm => ?_⟩
  · simp only [h, if_true]
  · simp only [h, hm, Bool.false_eq_true, if_false]
  · simp only [h, hm, Bool.false_eq_true, if_false]

theorem storesResult_of_Store (op : Operation) (f : Status → Nat → Nat)
    (g : Status → Nat → Status)
    (h : ∀ s ad, op s ad = ad.Store { s with P := g s.P ad.Value } (f s.P ad.Value)) :
    storesResult op := by
  intro s v
  refine ⟨f s.P v, g s.P v, fun ad hv => ?_⟩
  subst hv
  rw [h]
  obtain ⟨h1, h2, h3⟩ := Store_spec ad { s with P := g s.P ad.Value } (f s.P ad.Value)
  exact ⟨h1, h2, h3⟩

set_option maxRecDepth 100000 in
theorem rol_nocarry : ∀ v < 256,
    ((v <<< 1) % 65536 &&& 0x00FF) % 256 = ((v <<< 1) ||| 0) % 256 ∧
      isCarrySet ((v <<< 1) % 65536) = hasBit v 7 ∧
      ((v <<< 1) ||| 0) % 256 = ((v <<< 1) % 65536) % 256 := by
  decide

set_option maxRecDepth 100000 in
theorem rol_carry : ∀ v < 256,
    ((((v <<< 1) % 65536 + 1) % 65536) &&& 0x00FF) % 256 = ((v <<< 1) ||| 1) % 256 ∧
      isCarrySet (((v <<< 1) % 65536 + 1) % 65536) = hasBit v 7 ∧
      ((v <<< 1) ||| 1) % 256 = (((v <<< 1) % 65536 + 1) % 65536) % 256 := by
  decide

set_option maxRecDepth 100000 in
theorem ror_nocarry : ∀ v < 256,
    ((((if (v &&& 0x01) != 0 then v ||| 0x200 else v) >>> 1) &&& 0x00FF) % 256 =
        (v >>> 1) ||| (0 <<< 7)) ∧
      isCarrySet ((if (v &&& 0x01) != 0 then v ||| 0x200 else v) >>> 1) = hasBit v 0 ∧
      (v >>> 1) ||| (0 <<< 7) =
        ((if (v &&& 0x01) != 0 then v ||| 0x200 else v) >>> 1) % 256 := by
  decide

set_option maxRecDepth 100000 in
theorem ror_carry : ∀ v < 256,
    ((((if ((v ||| 0x100) &&& 0x01) != 0 then v ||| 0x100 ||| 0x200 else v ||| 0x100) >>> 1)
        &&& 0x00FF) % 256 = (v >>> 1) ||| (1 <<< 7)) ∧
      isCarrySet ((if ((v ||| 0x100) &&& 0x01) != 0 then v ||| 0x100 ||| 0x200
        else v ||| 0x100) >>> 1) = hasBit v 0 ∧
      (v >>> 1) ||| (1 <<< 7) =
        ((if ((v ||| 0x100) &&& 0x01) != 0 then v ||| 0x100 ||| 0x200
          else v ||| 0x100) >>> 1) % 256 := by
  decide

/-- Claim C34. For an operand byte `v` and the carry-in `c`, `RotateLeft` hands
`((v << 1) OR c) mod 256` to `Store` with the new C equal to bit 7 of `v`, and
`RotateRight` hands `(v >> 1) OR (c << 7)` to `Store` with the new C equal to bit 0 of
`v`; in both the new Z says that the result is zero and the new N is bit 7 of the
result, and the bits I, D, B, Constant and V of the status are unchanged. -/
theorem Rotate_spec (s : State) (ad : Addressing) (hv : ad.Value < 256) :
    ∃ pl pr,
      RotateLeft s ad =
        ad.Store { s with P := pl } (((ad.Value <<< 1) ||| carryIn s.P) % 256) ∧
      (Status.ToFlags pl).Carry = hasBit ad.Value 7 ∧
      reflects pl (((ad.Value <<< 1) ||| carryIn s.P) % 256) ∧
      (∀ j, 2 ≤ j → j ≤ 6 → hasBit pl j = hasBit s.P j) ∧
      RotateRight s ad =
        ad.Store { s with P := pr } ((ad.Value >>> 1) ||| (carryIn s.P <<< 7)) ∧
      (Status.ToFlags pr).Carry = hasBit ad.Value 0 ∧
      reflects pr ((ad.Value >>> 1) ||| (carryIn s.P <<< 7)) ∧
      (∀ j, 2 ≤ j → j ≤ 6 → hasBit pr j = hasBit s.P j) := by
  have frame : ∀ x j, 2 ≤ j → j ≤ 6 →
      hasBit (zeroSet (negativeSet (carrySet s.P x) x) x) j = hasBit s.P j := by
    intro x j h2 h6
    unfold carrySet
    rw [hasBit_czn _ _ j _ (by omega), if_neg (by omega), if_neg (by omega), if_neg (by omega)]
  have carry : ∀ x, (Status.ToFlags (zeroSet (negativeSet (carrySet s.P x) x) x)).Carry =
      isCarrySet x := by
    intro x
    rw [ToFlags_eq]
    unfold carrySet
    exact hasBit_czn _ _ 0 _ (by decide)
  have refl : ∀ x r, r = x % 256 →
      reflects (zeroSet (negativeSet (carrySet s.P x) x) x) r := by
    intro x r hr
    unfold carrySet
    exact reflects_czn _ _ _ _ hr
  cases hC : (Status.ToFlags s.P).Carry with
  | false =>
    have hc : carryIn s.P = 0 := by simp [carryIn, hC]
    obtain ⟨l1, l2, l3⟩ := rol_nocarry ad.Value hv
    obtain ⟨r1, r2, r3⟩ := ror_nocarry ad.Value hv
    refine ⟨_, _, ?_, (carry _).trans l2, refl _ _ (hc ▸ l3), frame _, ?_,
      (carry _).trans r2, refl _ _ (hc ▸ r3), frame _⟩
    · simp only [RotateLeft, hC, Bool.false_eq_true, if_false, hc, l1]
    · simp only [RotateRight, hC, Bool.false_eq_true, if_false, hc, r1]
  | true =>
    have hc : carryIn s.P = 1 := by simp [carryIn, hC]
    obtain ⟨l1, l2, l3⟩ := rol_carry ad.Value hv
    obtain ⟨r1, r2, r3⟩ := ror_carry ad.Value hv
    refine ⟨_, _, ?_, (carry _).trans l2, refl _ _ (hc ▸ l3), frame _, ?_,
      (carry _).trans r2, refl _ _ (hc ▸ r3), frame _⟩
    · simp only [RotateLeft, hC, if_true, hc, l1]
    · simp only [RotateRight, hC, if_true, hc, r1]


theorem Rotate_spec_witness :
    ∃ pl pr,
      RotateLeft ⟨0x0600, 0xFD, 0x81, 0, 0, 0x01⟩
          { Addressing.zero with Value := 0x81, Accumulator := true } =
        .ok (⟨0x0600, 0xFD, 0x03, 0, 0, pl⟩, none) ∧
      (Status.ToFlags pl).Carry = true ∧
      RotateRight ⟨0x0600, 0xFD, 0x81, 0, 0, 0x01⟩
          { Addressing.zero with Value := 0x81, Accumulator := true } =
        .ok (⟨0x0600, 0xFD, 0xC0, 0, 0, pr⟩, none) ∧
      (Status.ToFlags pr).Carry = true := by
  obtain ⟨pl, pr, h1, h2, -, -, h3, h4, -, -⟩ := Rotate_spec ⟨0x0600, 0xFD, 0x81, 0, 0, 0x01⟩
    { Addressing.zero with Value := 0x81, Accumulator := true } (by decide)
  exact ⟨pl, pr, h1, h2.trans (by decide), h3, h4.trans (by decide)⟩

/-- Claim C37. ASL, LSR, ROL, ROR, INC and DEC compute their result and their status
from the snapshot and the operand and hand them to `Store`: with the accumulator
sentinel the result is written to `A` and the memory reference is returned untouched
(none is needed); without it the result is written to the memory cell at the effective
address and `A` is unchanged; without it and without a memory the operation fails with
`MemoryMustBeProvided`. -/
theorem Store_operations :
    storesResult ArithmeticShiftLeft ∧ storesResult LogicalShiftRight ∧
      storesResult RotateLeft ∧ storesResult RotateRight ∧
      storesResult Increment ∧ storesResult Decrement := by
  refine ⟨?_, ?_, ?_, ?_, ?_, ?_⟩
  · exact storesResult_of_Store _
      (fun _ v => (((v <<< 1) % 65536) &&& 0x00FF) % 256)
      (fun p v => zeroSet (negativeSet (carrySet p ((v <<< 1) % 65536)) ((v <<< 1) % 65536))
        ((v <<< 1) % 65536))
      (fun _ _ => rfl)
  · exact storesResult_of_Store _
      (fun _ v => ((if (v &&& 0x01) != 0 then (v >>> 1) ||| 0x0100 else v >>> 1) &&& 0x00FF) % 256)
      (fun p v => zeroSet (negativeSet (carrySet p
          (if (v &&& 0x01) != 0 then (v >>> 1) ||| 0x0100 else v >>> 1))
          (if (v &&& 0x01) != 0 then (v >>> 1) ||| 0x0100 else v >>> 1))
          (if (v &&& 0x01) != 0 then (v >>> 1) ||| 0x0100 else v >>> 1))
      (fun _ _ => rfl)
  · exact storesResult_of_Store _
      (fun p v => ((if (Status.ToFlags p).Carry then ((v <<< 1) % 65536 + 1) % 65536
        else (v <<< 1) % 65536) &&& 0x00FF) % 256)
      (fun p v => zeroSet (negativeSet (carrySet p
          (if (Status.ToFlags p).Carry then ((v <<< 1) % 65536 + 1) % 65536
            else (v <<< 1) % 65536))
          (if (Status.ToFlags p).Carry then ((v <<< 1) % 65536 + 1) % 65536
            else (v <<< 1) % 65536))
          (if (Status.ToFlags p).Carry then ((v <<< 1) % 65536 + 1) % 65536
            else (v <<< 1) % 65536))
      (fun _ _ => rfl)
  · exact storesResult_of_Store _
      (fun p v => (((if ((if (Status.ToFlags p).Carry then v ||| 0x100 else v) &&& 0x01) != 0
          then (if (Status.ToFlags p).Carry then v ||| 0x100 else v) ||| 0x200
          else (if (Status.ToFlags p).Carry then v ||| 0x100 else v)) >>> 1) &&& 0x00FF) % 256)
      (fun p v => zeroSet (negativeSet (carrySet p
          ((if ((if (Status.ToFlags p).Carry then v ||| 0x100 else v) &&& 0x01) != 0
            then (if (Status.ToFlags p).Carry then v ||| 0x100 else v) ||| 0x200
            else (if (Status.ToFlags p).Carry then v ||| 0x100 else v)) >>> 1))
          ((if ((if (Status.ToFlags p).Carry then v ||| 0x100 else v) &&& 0x01) != 0
            then (if (Status.ToFlags p).Carry then v ||| 0x100 else v) ||| 0x200
            else (if (Status.ToFlags p).Carry then v ||| 0x100 else v)) >>> 1))
          ((if ((if (Status.ToFlags p).Carry then v ||| 0x100 else v) &&& 0x01) != 0
            then (if (Status.ToFlags p).Carry then v ||| 0x100 else v) ||| 0x200
            else (if (Status.ToFlags p).Carry then v ||| 0x100 else v)) >>> 1))
      (fun _ _ => rfl)
  · exact storesResult_of_Store _
      (fun _ v => (v + 1) % 256)
      (fun p v => zeroSet (negativeSet p ((v + 1) % 256)) ((v + 1) % 256))
      (fun _ _ => rfl)
  · exact storesResult_of_Store _
      (fun _ v => (v + 255) % 256)
      (fun p v => zeroSet (negativeSet p ((v + 255) % 256)) ((v + 255) % 256))
      (fun _ _ => rfl)


theorem Store_operations_witness :
    ∃ r p,
      Increment testState { Addressing.zero with
          Value := 0x7F, EffectiveAddress := 0x10, Memory := some testMemory } =
        .ok ({ testState with P := p }, some (testMemory.Write 0x10 r)) ∧
      Increment testState { Addressing.zero with Value := 0x7F, Accumulator := true } =
        .ok ({ testState with A := r, P := p }, none) := by
  obtain ⟨r, p, h⟩ := Store_operations.2.2.2.2.1 testState 0x7F
  exact ⟨r, p, (h _ rfl).2.1 rfl _ rfl, (h _ rfl).1 rfl⟩

/-! ## Z and N after the operations that produce a byte -/

/-- Claim C35. For a snapshot of bytes and an operand byte, after each of LDA, LDX, LDY,
TAX, TAY, TSX, TXA, TYA, PLA, AND, ORA, EOR, INC, DEC, INX, INY, DEX, DEY, ASL, LSR, ROL,
ROR, ADC and SBC the new Z says that the byte the operation wrote (to a register, or
through `Store` to `A` or to memory) is zero and the new N is bit 7 of that byte; TXS
copies X to SP and leaves the status as it was. -/
theorem ZeroNegative_spec (s : State) (ad : Addressing) (hs : s.WF) (hv : ad.Value < 256) :
    (∃ p, LoadA s ad = .ok ({ s with A := ad.Value, P := p }, ad.Memory) ∧
      reflects p ad.Value) ∧
    (∃ p, LoadX s ad = .ok ({ s with X := ad.Value, P := p }, ad.Memory) ∧
      reflects p ad.Value) ∧
    (∃ p, LoadY s ad = .ok ({ s with Y := ad.Value, P := p }, ad.Memory) ∧
      reflects p ad.Value) ∧
    (∃ p, TransferAtoX s ad = .ok ({ s with X := s.A, P := p }, ad.Memory) ∧
      reflects p s.A) ∧
    (∃ p, TransferAtoY s ad = .ok ({ s with Y := s.A, P := p }, ad.Memory) ∧
      reflects p s.A) ∧
    (∃ p, TransferSPtoX s ad = .ok ({ s with X := s.SP, P := p }, ad.Memory) ∧
      reflects p s.SP) ∧
    (∃ p, TransferXtoA s ad = .ok ({ s with A := s.X, P := p }, ad.Memory) ∧
      reflects p s.X) ∧
    (∃ p, TransferYtoA s ad = .ok ({ s with A := s.Y, P := p }, ad.Memory) ∧
      reflects p s.Y) ∧
    (∀ m, ad.Memory = some m → m.Read (0x0100 + (s.SP + 1) % 256) < 256 →
      ∃ p, PullA s ad = .ok
          ({ s with SP := (s.SP + 1) % 256, A := m.Read (0x0100 + (s.SP + 1) % 256), P := p },
            some m) ∧
        reflects p (m.Read (0x0100 + (s.SP + 1) % 256))) ∧
    (∃ p, AndWithA s ad = .ok ({ s with A := ad.Value &&& s.A, P := p }, ad.Memory) ∧
      reflects p (ad.Value &&& s.A)) ∧
    (∃ p, OrWithA s ad = .ok ({ s with A := ad.Value ||| s.A, P := p }, ad.Memory) ∧
      reflects p (ad.Value ||| s.A)) ∧
    (∃ p, ExclusiveOrWithA s ad = .ok ({ s with A := ad.Value ^^^ s.A, P := p }, ad.Memory) ∧
      reflects p (ad.Value ^^^ s.A)) ∧
    (∃ r p, Increment s ad = ad.Store { s with P := p } r ∧ reflects p r) ∧
    (∃ r p, Decrement s ad = ad.Store { s with P := p } r ∧ reflects p r) ∧
    (∃ p, IncrementX s ad = .ok ({ s with X := (s.X + 1) % 256, P := p }, ad.Memory) ∧
      reflects p ((s.X + 1) % 256)) ∧
    (∃ p, IncrementY s ad = .ok ({ s with Y := (s.Y + 1) % 256, P := p }, ad.Memory) ∧
      reflects p ((s.Y + 1) % 256)) ∧
    (∃ p, DecrementX s ad = .ok ({ s with X := (s.X + 255) % 256, P := p }, ad.Memory) ∧
      reflects p ((s.X + 255) % 256)) ∧
    (∃ p, DecrementY s ad = .ok ({ s with Y := (s.Y + 255) % 256, P := p }, ad.Memory) ∧
      reflects p ((s.Y + 255) % 256)) ∧
    (∃ r p, ArithmeticShiftLeft s ad = ad.Store { s with P := p } r ∧ reflects p r) ∧
    (∃ r p, LogicalShiftRight s ad = ad.Store { s with P := p } r ∧ reflects p r) ∧
    (∃ r p, RotateLeft s ad = ad.Store { s with P := p } r ∧ reflects p r) ∧
    (∃ r p, RotateRight s ad = ad.Store { s with P := p } r ∧ reflects p r) ∧
    (∃ r p, AddWithCarry s ad = .ok ({ s with P := p, A := r }, ad.Memory) ∧ reflects p r) ∧
    (∃ r p, SubtractWithCarry s ad = .ok ({ s with P := p, A := r }, ad.Memory) ∧
      reflects p r) ∧
    TransferXtoSP s ad = .ok ({ s with SP := s.X }, ad.Memory) := by
  obtain ⟨-, hSP, hA, hX, hY, -⟩ := hs
  have mod : ∀ x, x < 256 → x = x % 256 := fun x h => (Nat.mod_eq_of_lt h).symm
  have hand : ad.Value &&& s.A < 256 := lt_of_le_of_lt Nat.and_le_left hv
  have hor : ad.Value ||| s.A < 256 := Nat.or_lt_two_pow (n := 8) hv hA
  have hxor : ad.Value ^^^ s.A < 256 := Nat.xor_lt_two_pow (n := 8) hv hA
  refine ⟨⟨_, rfl, reflects_nz _ _ _ (mod _ hv)⟩, ⟨_, rfl, reflects_nz _ _ _ (mod _ hv)⟩,
    ⟨_, rfl, reflects_nz _ _ _ (mod _ hv)⟩, ⟨_, rfl, reflects_zn _ _ _ (mod _ hA)⟩,
    ⟨_, rfl, reflects_zn _ _ _ (mod _ hA)⟩, ⟨_, rfl, reflects_zn _ _ _ (mod _ hSP)⟩,
    ⟨_, rfl, reflects_zn _ _ _ (mod _ hX)⟩, ⟨_, rfl, reflects_zn _ _ _ (mod _ hY)⟩,
    ?_,
    ⟨_, rfl, reflects_nz _ _ _ (mod _ hand)⟩, ⟨_, rfl, reflects_nz _ _ _ (mod _ hor)⟩,
    ⟨_, rfl, reflects_nz _ _ _ (mod _ hxor)⟩,
    ⟨_, _, rfl, reflects_nz _ _ _ (Nat.mod_mod _ _).symm⟩,
    ⟨_, _, rfl, reflects_nz _ _ _ (Nat.mod_mod _ _).symm⟩,
    ⟨_, rfl, reflects_nz _ _ _ (Nat.mod_mod _ _).symm⟩,
    ⟨_, rfl, reflects_nz _ _ _ (Nat.mod_mod _ _).symm⟩,
    ⟨_, rfl, reflects_nz _ _ _ (Nat.mod_mod _ _).symm⟩,
    ⟨_, rfl, reflects_nz _ _ _ (Nat.mod_mod _ _).symm⟩,
    ⟨_, _, rfl, ?_⟩, ⟨_, _, rfl, ?_⟩, ⟨_, _, rfl, ?_⟩, ⟨_, _, rfl, ?_⟩,
    ⟨_, _, rfl, reflects_arith _ _ _ _ _ rfl⟩, ⟨_, _, rfl, reflects_arith _ _ _ _ _ rfl⟩, rfl⟩
  · intro m hm hb
    have e : (BaseStack + (s.SP + 1) % 256) % 65536 = 0x0100 + (s.SP + 1) % 256 := by
      unfold BaseStack
      omega
    refine ⟨_, ?_, reflects_nz s.P _ _ (mod _ hb)⟩
    unfold PullA
    rw [PullByte_some ad s m hm, e]
    simp only [hm]
  · unfold carrySet
    exact reflects_czn _ _ _ _ (by rw [and_ff_eq_mod, Nat.mod_mod])
  · unfold carrySet
    exact reflects_czn _ _ _ _ (by rw [and_ff_eq_mod, Nat.mod_mod])
  · unfold carrySet
    exact reflects_czn _ _ _ _ (by rw [and_ff_eq_mod, Nat.mod_mod])
  · unfold carrySet
    exact reflects_czn _ _ _ _ (by rw [and_ff_eq_mod, Nat.mod_mod])


theorem ZeroNegative_spec_witness :
    (∃ p, LoadA testState { Addressing.zero with Value := 0x80 } =
        .ok ({ testState with A := 0x80, P := p }, none) ∧ reflects p 0x80) ∧
      TransferXtoSP testState Addressing.zero = .ok ({ testState with SP := 0 }, none) :=
  ⟨(ZeroNegative_spec testState { Addressing.zero with Value := 0x80 }
      (by decide) (by decide)).1,
    (ZeroNegative_spec testState Addressing.zero (by decide) (by decide)).2.2.2.2.2.2.2.2.2.2.2.2.2.2.2.2.2.2.2.2.2.2.2.2⟩

/-! ## Overflow of ADC in decimal mode -/

theorem adcResult_decimal_value (a v c : Nat) (ha : validBcd a) (hv : validBcd v)
    (hc : c ≤ 1) :
    adcResult true a v c =
      (if a / 16 * 10 + a % 16 + (v / 16 * 10 + v % 16) + c ≥ 100 then 256 else 0) +
        ((a / 16 * 10 + a % 16 + (v / 16 * 10 + v % 16) + c) % 100 / 10 * 16 +
          (a / 16 * 10 + a % 16 + (v / 16 * 10 + v % 16) + c) % 100 % 10) := by
  obtain ⟨ha0, ha1, ha2⟩ := (validBcd_iff a).mp ha
  obtain ⟨hv0, hv1, hv2⟩ := (validBcd_iff v).mp hv
  unfold adcResult
  simp only [if_true, and_0f_eq_mod, and_f0_eq a ha0, and_f0_eq v hv0, or_10_mod]
  generalize hlo : (a % 16 + v % 16 + c) % 65536 = lo
  have hlo1 : lo = a % 16 + v % 16 + c := by omega
  generalize hlo' : (if lo ≥ 10 then 16 + (lo + 6) % 65536 % 16 else lo) = lo'
  have hlo2 : lo' = lo % 10 + 16 * (lo / 10) := by
    subst hlo'
    split_ifs <;> omega
  generalize hres : (lo' + (a / 16 * 16 + v / 16 * 16) % 65536) % 65536 = res
  have hres1 : res = lo % 10 + 16 * (lo / 10 + a / 16 + v / 16) := by omega
  have hsum : a / 16 * 10 + a % 16 + (v / 16 * 10 + v % 16) + c =
      10 * (lo / 10 + a / 16 + v / 16) + lo % 10 := by omega
  rw [hsum]
  generalize hhi : lo / 10 + a / 16 + v / 16 = hi at hres1
  have hhi1 : hi ≤ 19 := by omega
  have hd : lo % 10 ≤ 9 := by omega
  generalize lo % 10 = d at hres1 hd
  subst hres1
  clear hres hlo2 hlo' hlo hlo1 hhi
  by_cases h10 : hi < 10
  · have e1 : (10 * hi + d) % 100 = 10 * hi + d := by omega
    have e2 : (10 * hi + d) / 10 = hi := by omega
    have e3 : (10 * hi + d) % 10 = d := by omega
    rw [e1, e2, e3]
    clear e1 e2 e3
    split_ifs <;> omega
  · have e1 : (10 * hi + d) % 100 = 10 * (hi - 10) + d := by omega
    have e2 : (10 * (hi - 10) + d) / 10 = hi - 10 := by omega
    have e3 : (10 * (hi - 10) + d) % 10 = d := by omega
    rw [e1, e2, e3]
    clear e1 e2 e3
    split_ifs <;> omega

/-- The overflow test of ADC in decimal mode, in terms of the decimal sum `d`. -/
theorem isOverflow_decimal (a v c : Nat) (ha : validBcd a) (hv : validBcd v) (hc : c ≤ 1) :
    isOverflow true a v (adcResult true a v c) =
      (decide (hasBit a 7 = hasBit v 7) &&
        (if a < 0x80 then decide (a / 16 * 10 + a % 16 + (v / 16 * 10 + v % 16) + c ≥ 80)
          else decide (a / 16 * 10 + a % 16 + (v / 16 * 10 + v % 16) + c < 180))) := by
  obtain ⟨ha0, ha1, ha2⟩ := (validBcd_iff a).mp ha
  obtain ⟨hv0, hv1, hv2⟩ := (validBcd_iff v).mp hv
  rw [isOverflow_eq, adcResult_decimal_value a v c ha hv hc, hasBit_div_mod, hasBit_div_mod]
  simp only [if_true]
  have h128 : (2 : Nat) ^ 7 = 128 := by norm_num
  rw [h128]
  generalize hd : a / 16 * 10 + a % 16 + (v / 16 * 10 + v % 16) + c = d
  have hq : d % 100 / 10 ≤ 9 := by omega
  have ht : d % 100 % 10 ≤ 9 := by omega
  have hqt : d % 100 = 10 * (d % 100 / 10) + d % 100 % 10 := by omega
  generalize d % 100 / 10 = q at hq hqt
  generalize d % 100 % 10 = t at ht hqt
  have hd199 : d ≤ 199 := by omega
  by_cases hs : a / 128 % 2 = v / 128 % 2
  · have hs' : decide (decide (a / 128 % 2 = 1) = decide (v / 128 % 2 = 1)) = true := by
      simp only [decide_eq_true_eq, decide_eq_decide]
      omega
    rw [hs', decide_eq_true hs, Bool.true_and, Bool.true_and]
    by_cases h100 : d ≥ 100
    · rw [if_pos h100]
      by_cases ha80 : a < 0x80
      · rw [if_pos ha80, if_pos (by omega)]
        simp only [decide_eq_decide]
        omega
      · rw [if_neg ha80, if_pos (by omega)]
        simp only [decide_eq_decide]
        omega
    · rw [if_neg h100]
      by_cases ha80 : a < 0x80
      · rw [if_pos ha80]
        by_cases hA0 : 0 + (q * 16 + t) ≥ 0xA0
        · omega
        · rw [if_neg hA0]
          simp only [decide_eq_decide]
          omega
      · omega
  · have hs' : decide (decide (a / 128 % 2 = 1) = decide (v / 128 % 2 = 1)) = false := by
      simp only [decide_eq_false_iff_not, decide_eq_decide]
      omega
    rw [hs', decide_eq_false hs, Bool.false_and, Bool.false_and]


/-- Claim C36, as stated, fails: in decimal mode `0x58 + 0x46` with carry-in 1 gives the
accumulator `0x05` and sets V, although the operands have the same sign bit and the
sign bit of the result equals that of A. -/
theorem AddWithCarry_decimal_sets_overflow :
    ∃ s', AddWithCarry ⟨0x0600, 0xFD, 0x58, 0, 0, 0x09⟩
        { Addressing.zero with Value := 0x46 } = .ok (s', none) ∧
      s'.A = 0x05 ∧ (Status.ToFlags s'.P).Overflow = true ∧
      hasBit 0x58 7 = hasBit 0x46 7 ∧ hasBit s'.A 7 = hasBit 0x58 7 :=
  ⟨_, rfl, by decide, by decide, by decide, by decide⟩

/-- Claim C36, amended. In decimal mode, for valid packed-BCD operands with the decimal
sum `d = A + value + carry`, `AddWithCarry` sets V exactly when A and the value have the
same sign bit and either both are below `0x80` and `d ≥ 80`, or both are from `0x80` on
and `d < 180`.  This is the rule of binary mode (same sign bit, and the sign bit of the
new accumulator differs from that of A) except when both operands are below `0x80` and
`d ≥ 100`: then V is set although the new accumulator is below `0x80`. -/
theorem AddWithCarry_decimal_overflow (s : State) (ad : Addressing)
    (hA : validBcd s.A) (hV : validBcd ad.Value) (hD : (Status.ToFlags s.P).Decimal = true) :
    ∃ s', AddWithCarry s ad = .ok (s', ad.Memory) ∧
      (Status.ToFlags s'.P).Overflow =
        (decide (hasBit s.A 7 = hasBit ad.Value 7) &&
          (if s.A < 0x80 then
            decide (DecodeBcdValue s.A + DecodeBcdValue ad.Value + carryIn s.P ≥ 80)
          else decide (DecodeBcdValue s.A + DecodeBcdValue ad.Value + carryIn s.P < 180))) ∧
      (¬ (s.A < 0x80 ∧ ad.Value < 0x80 ∧
          DecodeBcdValue s.A + DecodeBcdValue ad.Value + carryIn s.P ≥ 100) →
        (Status.ToFlags s'.P).Overflow =
          (decide (hasBit s.A 7 = hasBit ad.Value 7) &&
            decide (hasBit s'.A 7 ≠ hasBit s.A 7))) ∧
      (s.A < 0x80 → ad.Value < 0x80 →
        DecodeBcdValue s.A + DecodeBcdValue ad.Value + carryIn s.P ≥ 100 →
        (Status.ToFlags s'.P).Overflow = true ∧ hasBit s'.A 7 = false) := by
  have hc := carryIn_le s.P
  obtain ⟨ha0, ha1, ha2⟩ := (validBcd_iff s.A).mp hA
  obtain ⟨hv0, hv1, hv2⟩ := (validBcd_iff ad.Value).mp hV
  have hval := adcResult_decimal_value s.A ad.Value (carryIn s.P) hA hV hc
  have hov := isOverflow_decimal s.A ad.Value (carryIn s.P) hA hV hc
  have hs : AddWithCarry s ad = .ok
      ({ s with
          P := zeroSet (negativeSet (carrySet (overflowSet s.P s.A ad.Value
            (adcResult true s.A ad.Value (carryIn s.P)))
            (adcResult true s.A ad.Value (carryIn s.P)))
            (adcResult true s.A ad.Value (carryIn s.P)))
            (adcResult true s.A ad.Value (carryIn s.P)),
          A := adcResult true s.A ad.Value (carryIn s.P) % 256 }, ad.Memory) := by
    simp only [AddWithCarry, hD]
  have hflag : (Status.ToFlags (zeroSet (negativeSet (carrySet (overflowSet s.P s.A ad.Value
      (adcResult true s.A ad.Value (carryIn s.P)))
      (adcResult true s.A ad.Value (carryIn s.P)))
      (adcResult true s.A ad.Value (carryIn s.P)))
      (adcResult true s.A ad.Value (carryIn s.P)))).Overflow =
      isOverflow true s.A ad.Value (adcResult true s.A ad.Value (carryIn s.P)) := by
    rw [Flags_arith, hD]
  have hmain := hflag.trans hov
  rw [← DecodeBcdValue_eq _ hA, ← DecodeBcdValue_eq _ hV] at hmain
  have hbitA : hasBit s.A 7 = decide (128 ≤ s.A) := by
    rw [hasBit_div_mod, show (2 : Nat) ^ 7 = 128 from by norm_num]
    exact decide_eq_decide.mpr (by omega)
  have hbitV : hasBit ad.Value 7 = decide (128 ≤ ad.Value) := by
    rw [hasBit_div_mod, show (2 : Nat) ^ 7 = 128 from by norm_num]
    exact decide_eq_decide.mpr (by omega)
  have hbitR : hasBit (adcResult true s.A ad.Value (carryIn s.P) % 256) 7 =
      decide (80 ≤ (DecodeBcdValue s.A + DecodeBcdValue ad.Value + carryIn s.P) % 100) := by
    rw [hval, hasBit_div_mod, show (2 : Nat) ^ 7 = 128 from by norm_num,
      DecodeBcdValue_eq _ hA, DecodeBcdValue_eq _ hV]
    generalize s.A / 16 * 10 + s.A % 16 + (ad.Value / 16 * 10 + ad.Value % 16) +
      carryIn s.P = d
    have hq : d % 100 / 10 ≤ 9 := by omega
    have ht : d % 100 % 10 ≤ 9 := by omega
    have hqt : d % 100 = 10 * (d % 100 / 10) + d % 100 % 10 := by omega
    generalize d % 100 / 10 = q at hq hqt ⊢
    generalize d % 100 % 10 = t at ht hqt ⊢
    have h1 : ((if d ≥ 100 then 256 else 0) + (q * 16 + t)) % 256 = q * 16 + t := by
      split_ifs <;> omega
    rw [h1, hqt]
    apply decide_eq_decide.mpr
    by_cases h8 : 8 ≤ q
    · have h2 : (q * 16 + t) / 128 = 1 := by omega
      rw [h2]
      exact ⟨fun _ => by omega, fun _ => rfl⟩
    · have h2 : (q * 16 + t) / 128 = 0 := by omega
      rw [h2]
      exact ⟨fun h => absurd h (by decide), fun h => by omega⟩
  have hdec : DecodeBcdValue s.A + DecodeBcdValue ad.Value + carryIn s.P ≤ 199 ∧
      (s.A < 128 → DecodeBcdValue s.A ≤ 79) ∧ (128 ≤ s.A → 80 ≤ DecodeBcdValue s.A) ∧
      (ad.Value < 128 → DecodeBcdValue ad.Value ≤ 79) ∧
      (128 ≤ ad.Value → 80 ≤ DecodeBcdValue ad.Value) := by
    rw [DecodeBcdValue_eq _ hA, DecodeBcdValue_eq _ hV]
    omega
  obtain ⟨hd199, hda, hda', hdv, hdv'⟩ := hdec
  refine ⟨_, hs, hmain, fun hex => ?_, fun h1 h2 h3 => ?_⟩
  · show (Status.ToFlags _).Overflow =
      (decide (hasBit s.A 7 = hasBit ad.Value 7) &&
        decide (hasBit (adcResult true s.A ad.Value (carryIn s.P) % 256) 7 ≠ hasBit s.A 7))
    rw [hmain, hbitR, hbitA, hbitV]
    clear hval hov hmain hflag hs hbitR hbitA hbitV
    generalize DecodeBcdValue s.A = da at *
    generalize DecodeBcdValue ad.Value = dv at *
    generalize carryIn s.P = c at *
    by_cases ha80 : s.A < 128 <;> by_cases hv80 : ad.Value < 128 <;>
      by_cases h100 : da + dv + c ≥ 100 <;> by_cases h80 : 80 ≤ (da + dv + c) % 100 <;>
      simp [ha80, hv80, h80] <;> omega
  · rw [hmain, hbitA, hbitV]
    refine ⟨?_, ?_⟩
    · simp [h1, h2, Nat.not_le.mpr h1, Nat.not_le.mpr h2]
      omega
    · show hasBit (adcResult true s.A ad.Value (carryIn s.P) % 256) 7 = false
      rw [hbitR]
      simp only [decide_eq_false_iff_not]
      have := hda h1
      have := hdv h2
      omega

theorem AddWithCarry_decimal_overflow_witness :
    ∃ s', AddWithCarry ⟨0x0600, 0xFD, 0x50, 0, 0, 0x08⟩
        { Addressing.zero with Value := 0x50 } = .ok (s', none) ∧
      (Status.ToFlags s'.P).Overflow = true := by
  obtain ⟨s', h, hov, -, -⟩ := AddWithCarry_decimal_overflow ⟨0x0600, 0xFD, 0x50, 0, 0, 0x08⟩
    { Addressing.zero with Value := 0x50 } (by decide) (by decide) (by decide)
  exact ⟨s', h, hov.trans (by decide)⟩

/-! ## Steps of a Cpu with the 6502 instruction set -/

theorem set6502_eq :
    set6502 = ⟨(AllOpcodes.map NewInstruction).foldl (fun instructions instruction =>
      mapInsert instruction.Opcode instruction instructions) []⟩ := by
  unfold set6502
  rw [New6502InstructionSet_eq]

theorem set6502_ok : New6502InstructionSet = .ok set6502 := by
  rw [set6502_eq]
  exact New6502InstructionSet_eq

theorem set6502_validate : set6502.validate = none := by
  rw [set6502_eq]
  exact table_validate

/-- A successful `Step`, as an equation for the Cpu it leaves. -/
theorem Step_ok (c : Cpu) (m : Memory) (i : Instruction) (af : AddressingFunc)
    (op : Operation) (ad : Addressing) (s' : State) (w : Option Memory)
    (hm : c.memory = some m)
    (hget : c.instructionSet.Get (m.Read c.State.PC) = .ok i)
    (haf : i.AddressingFunc = some af) (hop : i.Operation = some op)
    (had : af { c.State with PC := (c.State.PC + 1) % 65536 } (some m) = .ok ad)
    (hres : op { c.State with
        PC := ((c.State.PC + 1) % 65536 + ad.ProgramCounterChange) % 65536 } ad = .ok (s', w)) :
    ∃ c', Cpu.Step (some c) = some (some c',
        ((if i.PageBoundaryPenalty && ad.PageBoundaryCrossed then (i.Cycles + 1) % uintSize
          else i.Cycles) + 1) % uintSize, none) ∧
      c'.State = s' ∧ c'.instructionSet = c.instructionSet ∧
      (w = none → c'.memory = some m) ∧ (∀ m', w = some m' → c'.memory = some m') := by
  have hex := Execute_ok i { c.State with PC := (c.State.PC + 1) % 65536 } m af op ad s' w
    haf hop had hres
  unfold Cpu.Step
  simp only [hm, hget, hex]
  refine ⟨_, rfl, rfl, rfl, ?_, ?_⟩
  · intro h
    subst h
    rfl
  · intro m' h
    subst h
    rfl

set_option maxRecDepth 100000 in
theorem set6502_branches :
    set6502.instructions.lookup 0x10 =
        some (NewInstruction (Mnemonic.mk 0x10 Records.Bpl Records.Rel 0)) ∧
      set6502.instructions.lookup 0x30 =
        some (NewInstruction (Mnemonic.mk 0x30 Records.Bmi Records.Rel 0)) ∧
      set6502.instructions.lookup 0x50 =
        some (NewInstruction (Mnemonic.mk 0x50 Records.Bvc Records.Rel 0)) ∧
      set6502.instructions.lookup 0x70 =
        some (NewInstruction (Mnemonic.mk 0x70 Records.Bvs Records.Rel 0)) ∧
      set6502.instructions.lookup 0x90 =
        some (NewInstruction (Mnemonic.mk 0x90 Records.Bcc Records.Rel 0)) ∧
      set6502.instructions.lookup 0xB0 =
        some (NewInstruction (Mnemonic.mk 0xB0 Records.Bcs Records.Rel 0)) ∧
      set6502.instructions.lookup 0xD0 =
        some (NewInstruction (Mnemonic.mk 0xD0 Records.Bne Records.Rel 0)) ∧
      set6502.instructions.lookup 0xF0 =
        some (NewInstruction (Mnemonic.mk 0xF0 Records.Beq Records.Rel 0)) := by
  rw [set6502_eq]
  exact ⟨rfl, rfl, rfl, rfl, rfl, rfl, rfl, rfl⟩

set_option maxRecDepth 100000 in
theorem set6502_nop :
    set6502.instructions.lookup 0xEA =
      some (NewInstruction (Mnemonic.mk 0xEA Records.Nop Records.Imp 0)) := by
  rw [set6502_eq]
  rfl

/-- A `Step` on an instruction that is a branch operation with relative addressing and
one base cycle takes 2 cycles. -/
theorem Step_branch (c : Cpu) (m : Memory) (i : Instruction) (op : Operation)
    (hm : c.memory = some m)
    (hget : c.instructionSet.Get (m.Read c.State.PC) = .ok i)
    (haf : i.AddressingFunc = some Relative) (hop : i.Operation = some op)
    (hcyc : i.Cycles = 1)
    (hbr : ∀ s ad, ∃ s', op s ad = .ok (s', ad.Memory)) :
    ∃ c', Cpu.Step (some c) = some (some c', 2, none) ∧ c'.memory = some m ∧
      c'.instructionSet = c.instructionSet := by
  obtain ⟨s', hres⟩ := hbr
    { c.State with PC := ((c.State.PC + 1) % 65536 + 1) % 65536 }
    { Addressing.zero with
      EffectiveAddress := ((c.State.PC + 1) % 65536 + 1 +
        (if (m.Read ((c.State.PC + 1) % 65536) &&& 0x80) != 0
          then m.Read ((c.State.PC + 1) % 65536) ||| 0xFF00
          else m.Read ((c.State.PC + 1) % 65536))) % 65536
      Value := m.Read ((c.State.PC + 1) % 65536)
      ProgramCounterChange := 1
      Memory := some m }
  obtain ⟨c', h, -, hset, -, hmem⟩ := Step_ok c m i Relative op _ s' _ hm hget haf hop rfl hres
  refine ⟨c', ?_, hmem m rfl, hset⟩
  rw [h, hcyc]
  have e : ((if (i.PageBoundaryPenalty && false) = true then (1 + 1) % uintSize else 1) + 1)
      % uintSize = 2 := by
    rw [Bool.and_false]
    decide
  exact congrArg (fun k => some (some c', k, none)) e

/-- Every branch operation returns a snapshot and the memory it was given. -/
theorem Branch_ok (s : State) (ad : Addressing) :
    (∃ s', BranchOnCarryClear s ad = .ok (s', ad.Memory)) ∧
    (∃ s', BranchOnCarrySet s ad = .ok (s', ad.Memory)) ∧
    (∃ s', BranchOnEqual s ad = .ok (s', ad.Memory)) ∧
    (∃ s', BranchOnNotEqual s ad = .ok (s', ad.Memory)) ∧
    (∃ s', BranchOnMinus s ad = .ok (s', ad.Memory)) ∧
    (∃ s', BranchOnPlus s ad = .ok (s', ad.Memory)) ∧
    (∃ s', BranchOnOverflowClear s ad = .ok (s', ad.Memory)) ∧
    (∃ s', BranchOnOverflowSet s ad = .ok (s', ad.Memory)) :=
  ⟨⟨_, rfl⟩, ⟨_, rfl⟩, ⟨_, rfl⟩, ⟨_, rfl⟩, ⟨_, rfl⟩, ⟨_, rfl⟩, ⟨_, rfl⟩, ⟨_, rfl⟩⟩

/-- Claim C39. On a Cpu with the 6502 instruction set and a memory, a `Step` whose
opcode is one of the eight branch opcodes returns no error and exactly 2 cycles, for
every state and every memory: whether the branch is taken and where its target lies
make no difference, since `Relative` never reports a page crossing. -/
theorem Branch_step_cycles (c : Cpu) (m : Memory) (hset : c.instructionSet = set6502)
    (hm : c.memory = some m)
    (hop : m.Read c.State.PC = 0x10 ∨ m.Read c.State.PC = 0x30 ∨ m.Read c.State.PC = 0x50 ∨
      m.Read c.State.PC = 0x70 ∨ m.Read c.State.PC = 0x90 ∨ m.Read c.State.PC = 0xB0 ∨
      m.Read c.State.PC = 0xD0 ∨ m.Read c.State.PC = 0xF0) :
    New6502InstructionSet = .ok set6502 ∧
      (∀ s, ∃ ad, Relative s (some m) = .ok ad ∧ ad.PageBoundaryCrossed = false) ∧
      ∃ c', Cpu.Step (some c) = some (some c', 2, none) := by
  obtain ⟨b1, b2, b3, b4, b5, b6, b7, b8⟩ := set6502_branches
  refine ⟨set6502_ok, fun s => ⟨_, rfl, rfl⟩, ?_⟩
  have hv : c.instructionSet.validate = none := hset ▸ set6502_validate
  rcases hop with h | h | h | h | h | h | h | h
  · obtain ⟨c', hc, -, -⟩ := Step_branch c m _ BranchOnPlus hm
      (Get_of_lookup _ _ _ hv (by rw [h, hset]; exact b1)) rfl rfl (by decide)
      (fun s ad => (Branch_ok s ad).2.2.2.2.2.1)
    exact ⟨c', hc⟩
  · obtain ⟨c', hc, -, -⟩ := Step_branch c m _ BranchOnMinus hm
      (Get_of_lookup _ _ _ hv (by rw [h, hset]; exact b2)) rfl rfl (by decide)
      (fun s ad => (Branch_ok s ad).2.2.2.2.1)
    exact ⟨c', hc⟩
  · obtain ⟨c', hc, -, -⟩ := Step_branch c m _ BranchOnOverflowClear hm
      (Get_of_lookup _ _ _ hv (by rw [h, hset]; exact b3)) rfl rfl (by decide)
      (fun s ad => (Branch_ok s ad).2.2.2.2.2.2.1)
    exact ⟨c', hc⟩
  · obtain ⟨c', hc, -, -⟩ := Step_branch c m _ BranchOnOverflowSet hm
      (Get_of_lookup _ _ _ hv (by rw [h, hset]; exact b4)) rfl rfl (by decide)
      (fun s ad => (Branch_ok s ad).2.2.2.2.2.2.2)
    exact ⟨c', hc⟩
  · obtain ⟨c', hc, -, -⟩ := Step_branch c m _ BranchOnCarryClear hm
      (Get_of_lookup _ _ _ hv (by rw [h, hset]; exact b5)) rfl rfl (by decide)
      (fun s ad => (Branch_ok s ad).1)
    exact ⟨c', hc⟩
  · obtain ⟨c', hc, -, -⟩ := Step_branch c m _ BranchOnCarrySet hm
      (Get_of_lookup _ _ _ hv (by rw [h, hset]; exact b6)) rfl rfl (by decide)
      (fun s ad => (Branch_ok s ad).2.1)
    exact ⟨c', hc⟩
  · obtain ⟨c', hc, -, -⟩ := Step_branch c m _ BranchOnNotEqual hm
      (Get_of_lookup _ _ _ hv (by rw [h, hset]; exact b7)) rfl rfl (by decide)
      (fun s ad => (Branch_ok s ad).2.2.2.1)
    exact ⟨c', hc⟩
  · obtain ⟨c', hc, -, -⟩ := Step_branch c m _ BranchOnEqual hm
      (Get_of_lookup _ _ _ hv (by rw [h, hset]; exact b8)) rfl rfl (by decide)
      (fun s ad => (Branch_ok s ad).2.2.1)
    exact ⟨c', hc⟩


theorem Branch_step_cycles_witness :
    ∃ c', Cpu.Step (some branchCpu) = some (some c', 2, none) :=
  (Branch_step_cycles branchCpu branchMemory rfl rfl (by decide)).2.2

/-! ## The B bit of the status register -/

theorem b4_set (p i : Nat) (hi : i ≠ 4) : hasBit (p ||| 2 ^ i) 4 = hasBit p 4 := by
  rw [hasBit_setFlag]
  simp [Ne.symm hi]

theorem b4_clear (p i : Nat) (hi : i ≠ 4) : hasBit (p &&& (0xFF ^^^ 2 ^ i)) 4 = hasBit p 4 := by
  rw [hasBit_clearFlag _ _ _ (by decide)]
  simp [Ne.symm hi]

theorem b4_SetCarry (p : Nat) : hasBit (Status.SetCarry p) 4 = hasBit p 4 :=
  b4_set p 0 (by decide)

theorem b4_ClearCarry (p : Nat) : hasBit (Status.ClearCarry p) 4 = hasBit p 4 :=
  b4_clear p 0 (by decide)

theorem b4_SetZero (p : Nat) : hasBit (Status.SetZero p) 4 = hasBit p 4 :=
  b4_set p 1 (by decide)

theorem b4_ClearZero (p : Nat) : hasBit (Status.ClearZero p) 4 = hasBit p 4 :=
  b4_clear p 1 (by decide)

theorem b4_SetInterrupt (p : Nat) : hasBit (Status.SetInterrupt p) 4 = hasBit p 4 :=
  b4_set p 2 (by decide)

theorem b4_ClearInterrupt (p : Nat) : hasBit (Status.ClearInterrupt p) 4 = hasBit p 4 :=
  b4_clear p 2 (by decide)

theorem b4_SetDecimal (p : Nat) : hasBit (Status.SetDecimal p) 4 = hasBit p 4 :=
  b4_set p 3 (by decide)

theorem b4_ClearDecimal (p : Nat) : hasBit (Status.ClearDecimal p) 4 = hasBit p 4 :=
  b4_clear p 3 (by decide)

theorem b4_SetOverflow (p : Nat) : hasBit (Status.SetOverflow p) 4 = hasBit p 4 :=
  b4_set p 6 (by decide)

theorem b4_ClearOverflow (p : Nat) : hasBit (Status.ClearOverflow p) 4 = hasBit p 4 :=
  b4_clear p 6 (by decide)

theorem b4_SetNegative (p : Nat) : hasBit (Status.SetNegative p) 4 = hasBit p 4 :=
  b4_set p 7 (by decide)

theorem b4_ClearNegative (p : Nat) : hasBit (Status.ClearNegative p) 4 = hasBit p 4 :=
  b4_clear p 7 (by decide)

theorem b4_zeroSet (p x : Nat) : hasBit (zeroSet p x) 4 = hasBit p 4 := by
  unfold zeroSet
  split <;> simp only [b4_SetZero, b4_ClearZero]

theorem b4_negativeSet (p x : Nat) : hasBit (negativeSet p x) 4 = hasBit p 4 := by
  unfold negativeSet
  split <;> simp only [b4_SetNegative, b4_ClearNegative]

theorem b4_carrySet (p x : Nat) : hasBit (carrySet p x) 4 = hasBit p 4 := by
  unfold carrySet
  split <;> simp only [b4_SetCarry, b4_ClearCarry]

theorem b4_overflowSet (p a v r : Nat) : hasBit (overflowSet p a v r) 4 = hasBit p 4 := by
  unfold overflowSet
  split <;> simp only [b4_SetOverflow, b4_ClearOverflow]

theorem b4_compare (p r v : Nat) : hasBit (compare p r v) 4 = hasBit p 4 := by
  unfold compare
  simp only [b4_zeroSet, b4_negativeSet]
  split <;> simp only [b4_SetCarry, b4_ClearCarry]

theorem b4_pulled (b : Nat) : hasBit (Status.SetConstant (Status.ClearBreak b)) 4 = false := by
  show hasBit (Status.WithConstantSet (Status.ClearBreak b)) 4 = false
  rw [hasBit_WithConstantSet, hasBit_ClearBreak _ _ (by decide)]
  simp

theorem Store_P (ad : Addressing) (s s' : State) (r : Nat) (w : Option Memory)
    (h : ad.Store s r = .ok (s', w)) : s'.P = s.P := by
  unfold Addressing.Store at h
  split at h
  · cases h
    rfl
  · split at h
    · cases h
    · cases h
      rfl



theorem keeps_AddWithCarry : keepsBreakClear AddWithCarry := by
  intro s ad s' w h hb
  unfold AddWithCarry at h
  cases h
  simp only [b4_zeroSet, b4_negativeSet, b4_carrySet, b4_overflowSet, b4_compare, b4_SetCarry,
    b4_ClearCarry, b4_SetInterrupt, b4_ClearInterrupt, b4_SetDecimal, b4_ClearDecimal,
    b4_SetOverflow, b4_ClearOverflow]
  exact hb

theorem keeps_AndWithA : keepsBreakClear AndWithA := by
  intro s ad s' w h hb
  unfold AndWithA at h
  cases h
  simp only [b4_zeroSet, b4_negativeSet, b4_carrySet, b4_overflowSet, b4_compare, b4_SetCarry,
    b4_ClearCarry, b4_SetInterrupt, b4_ClearInterrupt, b4_SetDecimal, b4_ClearDecimal,
    b4_SetOverflow, b4_ClearOverflow]
  exact hb

theorem keeps_ClearCarry : keepsBreakClear ClearCarry := by
  intro s ad s' w h hb
  unfold ClearCarry at h
  cases h
  simp only [b4_zeroSet, b4_negativeSet, b4_carrySet, b4_overflowSet, b4_compare, b4_SetCarry,
    b4_ClearCarry, b4_SetInterrupt, b4_ClearInterrupt, b4_SetDecimal, b4_ClearDecimal,
    b4_SetOverflow, b4_ClearOverflow]
  exact hb

theorem keeps_ClearDecimal : keepsBreakClear ClearDecimal := by
  intro s ad s' w h hb
  unfold ClearDecimal at h
  cases h
  simp only [b4_zeroSet, b4_negativeSet, b4_carrySet, b4_overflowSet, b4_compare, b4_SetCarry,
    b4_ClearCarry, b4_SetInterrupt, b4_ClearInterrupt, b4_SetDecimal, b4_ClearDecimal,
    b4_SetOverflow, b4_ClearOverflow]
  exact hb

theorem keeps_ClearInterrupt : keepsBreakClear ClearInterrupt := by
  intro s ad s' w h hb
  unfold ClearInterrupt at h
  cases h
  simp only [b4_zeroSet, b4_negativeSet, b4_carrySet, b4_overflowSet, b4_compare, b4_SetCarry,
    b4_ClearCarry, b4_SetInterrupt, b4_ClearInterrupt, b4_SetDecimal, b4_ClearDecimal,
    b4_SetOverflow, b4_ClearOverflow]
  exact hb

theorem keeps_ClearOverflow : keepsBreakClear ClearOverflow := by
  intro s ad s' w h hb
  unfold ClearOverflow at h
  cases h
  simp only [b4_zeroSet, b4_negativeSet, b4_carrySet, b4_overflowSet, b4_compare, b4_SetCarry,
    b4_ClearCarry, b4_SetInterrupt, b4_ClearInterrupt, b4_SetDecimal, b4_ClearDecimal,
    b4_SetOverflow, b4_ClearOverflow]
  exact hb

theorem keeps_CompareWithA : keepsBreakClear CompareWithA := by
  intro s ad s' w h hb
  unfold CompareWithA at h
  cases h
  simp only [b4_zeroSet, b4_negativeSet, b4_carrySet, b4_overflowSet, b4_compare, b4_SetCarry,
    b4_ClearCarry, b4_SetInterrupt, b4_ClearInterrupt, b4_SetDecimal, b4_ClearDecimal,
    b4_SetOverflow, b4_ClearOverflow]
  exact hb

theorem keeps_CompareWithX : keepsBreakClear CompareWithX := by
  intro s ad s' w h hb
  unfold CompareWithX at h
  cases h
  simp only [b4_zeroSet, b4_negativeSet, b4_carrySet, b4_overflowSet, b4_compare, b4_SetCarry,
    b4_ClearCarry, b4_SetInterrupt, b4_ClearInterrupt, b4_SetDecimal, b4_ClearDecimal,
    b4_SetOverflow, b4_ClearOverflow]
  exact hb

theorem keeps_CompareWithY : keepsBreakClear CompareWithY := by
  intro s ad s' w h hb
  unfold CompareWithY at h
  cases h
  simp only [b4_zeroSet, b4_negativeSet, b4_carrySet, b4_overflowSet, b4_compare, b4_SetCarry,
    b4_ClearCarry, b4_SetInterrupt, b4_ClearInterrupt, b4_SetDecimal, b4_ClearDecimal,
    b4_SetOverflow, b4_ClearOverflow]
  exact hb

theorem keeps_DecrementX : keepsBreakClear DecrementX := by
  intro s ad s' w h hb
  unfold DecrementX at h
  cases h
  simp only [b4_zeroSet, b4_negativeSet, b4_carrySet, b4_overflowSet, b4_compare, b4_SetCarry,
    b4_ClearCarry, b4_SetInterrupt, b4_ClearInterrupt, b4_SetDecimal, b4_ClearDecimal,
    b4_SetOverflow, b4_ClearOverflow]
  exact hb

theorem keeps_DecrementY : keepsBreakClear DecrementY := by
  intro s ad s' w h hb
  unfold DecrementY at h
  cases h
  simp only [b4_zeroSet, b4_negativeSet, b4_carrySet, b4_overflowSet, b4_compare, b4_SetCarry,
    b4_ClearCarry, b4_SetInterrupt, b4_ClearInterrupt, b4_SetDecimal, b4_ClearDecimal,
    b4_SetOverflow, b4_ClearOverflow]
  exact hb

theorem keeps_ExclusiveOrWithA : keepsBreakClear ExclusiveOrWithA := by
  intro s ad s' w h hb
  unfold ExclusiveOrWithA at h
  cases h
  simp only [b4_zeroSet, b4_negativeSet, b4_carrySet, b4_overflowSet, b4_compare, b4_SetCarry,
    b4_ClearCarry, b4_SetInterrupt, b4_ClearInterrupt, b4_SetDecimal, b4_ClearDecimal,
    b4_SetOverflow, b4_ClearOverflow]
  exact hb

theorem keeps_IncrementX : keepsBreakClear IncrementX := by
  intro s ad s' w h hb
  unfold IncrementX at h
  cases h
  simp only [b4_zeroSet, b4_negativeSet, b4_carrySet, b4_overflowSet, b4_compare, b4_SetCarry,
    b4_ClearCarry, b4_SetInterrupt, b4_ClearInterrupt, b4_SetDecimal, b4_ClearDecimal,
    b4_SetOverflow, b4_ClearOverflow]
  exact hb

theorem keeps_IncrementY : keepsBreakClear IncrementY := by
  intro s ad s' w h hb
  unfold IncrementY at h
  cases h
  simp only [b4_zeroSet, b4_negativeSet, b4_carrySet, b4_overflowSet, b4_compare, b4_SetCarry,
    b4_ClearCarry, b4_SetInterrupt, b4_ClearInterrupt, b4_SetDecimal, b4_ClearDecimal,
    b4_SetOverflow, b4_ClearOverflow]
  exact hb

theorem keeps_Jump : keepsBreakClear Jump := by
  intro s ad s' w h hb
  unfold Jump at h
  cases h
  exact hb

theorem keeps_LoadA : keepsBreakClear LoadA := by
  intro s ad s' w h hb
  unfold LoadA at h
  cases h
  simp only [b4_zeroSet, b4_negativeSet, b4_carrySet, b4_overflowSet, b4_compare, b4_SetCarry,
    b4_ClearCarry, b4_SetInterrupt, b4_ClearInterrupt, b4_SetDecimal, b4_ClearDecimal,
    b4_SetOverflow, b4_ClearOverflow]
  exact hb

theorem keeps_LoadX : keepsBreakClear LoadX := by
  intro s ad s' w h hb
  unfold LoadX at h
  cases h
  simp only [b4_zeroSet, b4_negativeSet, b4_carrySet, b4_overflowSet, b4_compare, b4_SetCarry,
    b4_ClearCarry, b4_SetInterrupt, b4_ClearInterrupt, b4_SetDecimal, b4_ClearDecimal,
    b4_SetOverflow, b4_ClearOverflow]
  exact hb

theorem keeps_LoadY : keepsBreakClear LoadY := by
  intro s ad s' w h hb
  unfold LoadY at h
  cases h
  simp only [b4_zeroSet, b4_negativeSet, b4_carrySet, b4_overflowSet, b4_compare, b4_SetCarry,
    b4_ClearCarry, b4_SetInterrupt, b4_ClearInterrupt, b4_SetDecimal, b4_ClearDecimal,
    b4_SetOverflow, b4_ClearOverflow]
  exact hb

theorem keeps_NoOperation : keepsBreakClear NoOperation := by
  intro s ad s' w h hb
  unfold NoOperation at h
  cases h
  exact hb

theorem keeps_OrWithA : keepsBreakClear OrWithA := by
  intro s ad s' w h hb
  unfold OrWithA at h
  cases h
  simp only [b4_zeroSet, b4_negativeSet, b4_carrySet, b4_overflowSet, b4_compare, b4_SetCarry,
    b4_ClearCarry, b4_SetInterrupt, b4_ClearInterrupt, b4_SetDecimal, b4_ClearDecimal,
    b4_SetOverflow, b4_ClearOverflow]
  exact hb

theorem keeps_SubtractWithCarry : keepsBreakClear SubtractWithCarry := by
  intro s ad s' w h hb
  unfold SubtractWithCarry at h
  cases h
  simp only [b4_zeroSet, b4_negativeSet, b4_carrySet, b4_overflowSet, b4_compare, b4_SetCarry,
    b4_ClearCarry, b4_SetInterrupt, b4_ClearInterrupt, b4_SetDecimal, b4_ClearDecimal,
    b4_SetOverflow, b4_ClearOverflow]
  exact hb

theorem keeps_SetCarry : keepsBreakClear SetCarry := by
  intro s ad s' w h hb
  unfold SetCarry at h
  cases h
  simp only [b4_zeroSet, b4_negativeSet, b4_carrySet, b4_overflowSet, b4_compare, b4_SetCarry,
    b4_ClearCarry, b4_SetInterrupt, b4_ClearInterrupt, b4_SetDecimal, b4_ClearDecimal,
    b4_SetOverflow, b4_ClearOverflow]
  exact hb

theorem keeps_SetDecimal : keepsBreakClear SetDecimal := by
  intro s ad s' w h hb
  unfold SetDecimal at h
  cases h
  simp only [b4_zeroSet, b4_negativeSet, b4_carrySet, b4_overflowSet, b4_compare, b4_SetCarry,
    b4_ClearCarry, b4_SetInterrupt, b4_ClearInterrupt, b4_SetDecimal, b4_ClearDecimal,
    b4_SetOverflow, b4_ClearOverflow]
  exact hb

theorem keeps_SetInterrupt : keepsBreakClear SetInterrupt := by
  intro s ad s' w h hb
  unfold SetInterrupt at h
  cases h
  simp only [b4_zeroSet, b4_negativeSet, b4_carrySet, b4_overflowSet, b4_compare, b4_SetCarry,
    b4_ClearCarry, b4_SetInterrupt, b4_ClearInterrupt, b4_SetDecimal, b4_ClearDecimal,
    b4_SetOverflow, b4_ClearOverflow]
  exact hb

theorem keeps_TransferAtoX : keepsBreakClear TransferAtoX := by
  intro s ad s' w h hb
  unfold TransferAtoX at h
  cases h
  simp only [b4_zeroSet, b4_negativeSet, b4_carrySet, b4_overflowSet, b4_compare, b4_SetCarry,
    b4_ClearCarry, b4_SetInterrupt, b4_ClearInterrupt, b4_SetDecimal, b4_ClearDecimal,
    b4_SetOverflow, b4_ClearOverflow]
  exact hb

theorem keeps_TransferAtoY : keepsBreakClear TransferAtoY := by
  intro s ad s' w h hb
  unfold TransferAtoY at h
  cases h
  simp only [b4_zeroSet, b4_negativeSet, b4_carrySet, b4_overflowSet, b4_compare, b4_SetCarry,
    b4_ClearCarry, b4_SetInterrupt, b4_ClearInterrupt, b4_SetDecimal, b4_ClearDecimal,
    b4_SetOverflow, b4_ClearOverflow]
  exact hb

theorem keeps_TransferSPtoX : keepsBreakClear TransferSPtoX := by
  intro s ad s' w h hb
  unfold TransferSPtoX at h
  cases h
  simp only [b4_zeroSet, b4_negativeSet, b4_carrySet, b4_overflowSet, b4_compare, b4_SetCarry,
    b4_ClearCarry, b4_SetInterrupt, b4_ClearInterrupt, b4_SetDecimal, b4_ClearDecimal,
    b4_SetOverflow, b4_ClearOverflow]
  exact hb

theorem keeps_TransferXtoA : keepsBreakClear TransferXtoA := by
  intro s ad s' w h hb
  unfold TransferXtoA at h
  cases h
  simp only [b4_zeroSet, b4_negativeSet, b4_carrySet, b4_overflowSet, b4_compare, b4_SetCarry,
    b4_ClearCarry, b4_SetInterrupt, b4_ClearInterrupt, b4_SetDecimal, b4_ClearDecimal,
    b4_SetOverflow, b4_ClearOverflow]
  exact hb

theorem keeps_TransferXtoSP : keepsBreakClear TransferXtoSP := by
  intro s ad s' w h hb
  unfold TransferXtoSP at h
  cases h
  exact hb

theorem keeps_TransferYtoA : keepsBreakClear TransferYtoA := by
  intro s ad s' w h hb
  unfold TransferYtoA at h
  cases h
  simp only [b4_zeroSet, b4_negativeSet, b4_carrySet, b4_overflowSet, b4_compare, b4_SetCarry,
    b4_ClearCarry, b4_SetInterrupt, b4_ClearInterrupt, b4_SetDecimal, b4_ClearDecimal,
    b4_SetOverflow, b4_ClearOverflow]
  exact hb

theorem keeps_TestBitsInMemoryWithAccumulator : keepsBreakClear TestBitsInMemoryWithAccumulator := by
  intro s ad s' w h hb
  unfold TestBitsInMemoryWithAccumulator at h
  cases h
  split <;> simp only [b4_zeroSet, b4_negativeSet, b4_carrySet, b4_overflowSet, b4_compare, b4_SetCarry,
    b4_ClearCarry, b4_SetInterrupt, b4_ClearInterrupt, b4_SetDecimal, b4_ClearDecimal,
    b4_SetOverflow, b4_ClearOverflow] <;> exact hb

theorem keeps_BranchOnCarryClear : keepsBreakClear BranchOnCarryClear := by
  intro s ad s' w h hb
  unfold BranchOnCarryClear at h
  cases h
  split <;> exact hb

theorem keeps_BranchOnCarrySet : keepsBreakClear BranchOnCarrySet := by
  intro s ad s' w h hb
  unfold BranchOnCarrySet at h
  cases h
  split <;> exact hb

theorem keeps_BranchOnEqual : keepsBreakClear BranchOnEqual := by
  intro s ad s' w h hb
  unfold BranchOnEqual at h
  cases h
  split <;> exact hb

theorem keeps_BranchOnMinus : keepsBreakClear BranchOnMinus := by
  intro s ad s' w h hb
  unfold BranchOnMinus at h
  cases h
  split <;> exact hb

theorem keeps_BranchOnNotEqual : keepsBreakClear BranchOnNotEqual := by
  intro s ad s' w h hb
  unfold BranchOnNotEqual at h
  cases h
  split <;> exact hb

theorem keeps_BranchOnOverflowClear : keepsBreakClear BranchOnOverflowClear := by
  intro s ad s' w h hb
  unfold BranchOnOverflowClear at h
  cases h
  split <;> exact hb

theorem keeps_BranchOnOverflowSet : keepsBreakClear BranchOnOverflowSet := by
  intro s ad s' w h hb
  unfold BranchOnOverflowSet at h
  cases h
  split <;> exact hb

theorem keeps_BranchOnPlus : keepsBreakClear BranchOnPlus := by
  intro s ad s' w h hb
  unfold BranchOnPlus at h
  cases h
  split <;> exact hb

theorem keeps_ArithmeticShiftLeft : keepsBreakClear ArithmeticShiftLeft := by
  intro s ad s' w h hb
  unfold ArithmeticShiftLeft at h
  rw [Store_P _ _ _ _ _ h]
  simp only [b4_zeroSet, b4_negativeSet, b4_carrySet, b4_overflowSet, b4_compare, b4_SetCarry,
    b4_ClearCarry, b4_SetInterrupt, b4_ClearInterrupt, b4_SetDecimal, b4_ClearDecimal,
    b4_SetOverflow, b4_ClearOverflow]
  exact hb

theorem keeps_LogicalShiftRight : keepsBreakClear LogicalShiftRight := by
  intro s ad s' w h hb
  unfold LogicalShiftRight at h
  rw [Store_P _ _ _ _ _ h]
  simp only [b4_zeroSet, b4_negativeSet, b4_carrySet, b4_overflowSet, b4_compare, b4_SetCarry,
    b4_ClearCarry, b4_SetInterrupt, b4_ClearInterrupt, b4_SetDecimal, b4_ClearDecimal,
    b4_SetOverflow, b4_ClearOverflow]
  exact hb

theorem keeps_RotateLeft : keepsBreakClear RotateLeft := by
  intro s ad s' w h hb
  unfold RotateLeft at h
  rw [Store_P _ _ _ _ _ h]
  simp only [b4_zeroSet, b4_negativeSet, b4_carrySet, b4_overflowSet, b4_compare, b4_SetCarry,
    b4_ClearCarry, b4_SetInterrupt, b4_ClearInterrupt, b4_SetDecimal, b4_ClearDecimal,
    b4_SetOverflow, b4_ClearOverflow]
  exact hb

theorem keeps_RotateRight : keepsBreakClear RotateRight := by
  intro s ad s' w h hb
  unfold RotateRight at h
  rw [Store_P _ _ _ _ _ h]
  simp only [b4_zeroSet, b4_negativeSet, b4_carrySet, b4_overflowSet, b4_compare, b4_SetCarry,
    b4_ClearCarry, b4_SetInterrupt, b4_ClearInterrupt, b4_SetDecimal, b4_ClearDecimal,
    b4_SetOverflow, b4_ClearOverflow]
  exact hb

theorem keeps_Increment : keepsBreakClear Increment := by
  intro s ad s' w h hb
  unfold Increment at h
  rw [Store_P _ _ _ _ _ h]
  simp only [b4_zeroSet, b4_negativeSet, b4_carrySet, b4_overflowSet, b4_compare, b4_SetCarry,
    b4_ClearCarry, b4_SetInterrupt, b4_ClearInterrupt, b4_SetDecimal, b4_ClearDecimal,
    b4_SetOverflow, b4_ClearOverflow]
  exact hb

theorem keeps_Decrement : keepsBreakClear Decrement := by
  intro s ad s' w h hb
  unfold Decrement at h
  rw [Store_P _ _ _ _ _ h]
  simp only [b4_zeroSet, b4_negativeSet, b4_carrySet, b4_overflowSet, b4_compare, b4_SetCarry,
    b4_ClearCarry, b4_SetInterrupt, b4_ClearInterrupt, b4_SetDecimal, b4_ClearDecimal,
    b4_SetOverflow, b4_ClearOverflow]
  exact hb

theorem keeps_StoreA : keepsBreakClear StoreA := by
  intro s ad s' w h hb
  unfold StoreA at h
  rw [Store_P _ _ _ _ _ h]
  exact hb

theorem keeps_StoreX : keepsBreakClear StoreX := by
  intro s ad s' w h hb
  unfold StoreX at h
  rw [Store_P _ _ _ _ _ h]
  exact hb

theorem keeps_StoreY : keepsBreakClear StoreY := by
  intro s ad s' w h hb
  unfold StoreY at h
  rw [Store_P _ _ _ _ _ h]
  exact hb

theorem keeps_Break : keepsBreakClear Break := by
  intro s ad s' w h hb
  cases hmem : ad.Memory with
  | none =>
    simp [Break, ReadIrqVectorFromMemory, ReadVectorFromMemory, hmem] at h
  | some m =>
    rw [Break_some s ad m hmem] at h
    cases h
    simp only [b4_SetInterrupt]
    exact hb

theorem keeps_JumpSubRoutine : keepsBreakClear JumpSubRoutine := by
  intro s ad s' w h hb
  cases hmem : ad.Memory with
  | none =>
    simp [JumpSubRoutine, Addressing.PushAddress, Addressing.PushByte, hmem] at h
  | some m =>
    rw [JumpSubRoutine_some s ad m hmem] at h
    cases h
    exact hb

theorem keeps_ReturnFromSubroutine : keepsBreakClear ReturnFromSubroutine := by
  intro s ad s' w h hb
  cases hmem : ad.Memory with
  | none =>
    simp [ReturnFromSubroutine, Addressing.PullAddress, Addressing.PullByte, hmem] at h
  | some m =>
    rw [ReturnFromSubroutine_some s ad m hmem] at h
    cases h
    exact hb

theorem keeps_ReturnFromInterrupt : keepsBreakClear ReturnFromInterrupt := by
  intro s ad s' w h _
  cases hmem : ad.Memory with
  | none =>
    simp [ReturnFromInterrupt, Addressing.PullStatus, Addressing.PullByte, hmem] at h
  | some m =>
    rw [ReturnFromInterrupt_some s ad m hmem] at h
    cases h
    exact b4_pulled _

theorem keeps_PushA : keepsBreakClear PushA := by
  intro s ad s' w h hb
  cases hmem : ad.Memory with
  | none =>
    simp [PushA, Addressing.PushByte, hmem] at h
  | some m =>
    unfold PushA at h
    rw [PushByte_some ad s _ m hmem] at h
    cases h
    exact hb

theorem keeps_PushP : keepsBreakClear PushP := by
  intro s ad s' w h hb
  cases hmem : ad.Memory with
  | none =>
    simp [PushP, Addressing.PushStatus, Addressing.PushByte, hmem] at h
  | some m =>
    unfold PushP Addressing.PushStatus at h
    rw [PushByte_some ad s _ m hmem] at h
    cases h
    exact hb

theorem keeps_PullA : keepsBreakClear PullA := by
  intro s ad s' w h hb
  cases hmem : ad.Memory with
  | none =>
    simp [PullA, Addressing.PullByte, hmem] at h
  | some m =>
    unfold PullA at h
    rw [PullByte_some ad s m hmem] at h
    cases h
    simp only [b4_zeroSet, b4_negativeSet]
    exact hb

theorem keeps_PullP : keepsBreakClear PullP := by
  intro s ad s' w h _
  cases hmem : ad.Memory with
  | none =>
    simp [PullP, Addressing.PullStatus, Addressing.PullByte, hmem] at h
  | some m =>
    unfold PullP Addressing.PullStatus at h
    rw [PullByte_some ad s m hmem] at h
    cases h
    exact b4_pulled _

/-- Every operation of the opcode table leaves a clear B bit clear. -/
theorem table_keeps_break_clear :
    ∀ m ∈ AllOpcodes, ∀ op, m.Operation.Operation = some op → keepsBreakClear op := by
  intro m hm op hop
  simp only [AllOpcodes, opcodes, List.mem_cons, List.mem_singleton, List.not_mem_nil,
    or_false] at hm
  repeat' (rcases hm with hm | hm)
  iterate 8 (cases hop; exact keeps_AddWithCarry)
  iterate 8 (cases hop; exact keeps_AndWithA)
  iterate 5 (cases hop; exact keeps_ArithmeticShiftLeft)
  iterate 1 (cases hop; exact keeps_BranchOnCarryClear)
  iterate 1 (cases hop; exact keeps_BranchOnCarrySet)
  iterate 1 (cases hop; exact keeps_BranchOnEqual)
  iterate 2 (cases hop; exact keeps_TestBitsInMemoryWithAccumulator)
  iterate 1 (cases hop; exact keeps_BranchOnMinus)
  iterate 1 (cases hop; exact keeps_BranchOnNotEqual)
  iterate 1 (cases hop; exact keeps_BranchOnPlus)
  iterate 1 (cases hop; exact keeps_Break)
  iterate 1 (cases hop; exact keeps_BranchOnOverflowClear)
  iterate 1 (cases hop; exact keeps_BranchOnOverflowSet)
  iterate 1 (cases hop; exact keeps_ClearCarry)
  iterate 1 (cases hop; exact keeps_ClearDecimal)
  iterate 1 (cases hop; exact keeps_ClearInterrupt)
  iterate 1 (cases hop; exact keeps_ClearOverflow)
  iterate 8 (cases hop; exact keeps_CompareWithA)
  iterate 3 (cases hop; exact keeps_CompareWithX)
  iterate 3 (cases hop; exact keeps_CompareWithY)
  iterate 4 (cases hop; exact keeps_Decrement)
  iterate 1 (cases hop; exact keeps_DecrementX)
  iterate 1 (cases hop; exact keeps_DecrementY)
  iterate 8 (cases hop; exact keeps_ExclusiveOrWithA)
  iterate 4 (cases hop; exact keeps_Increment)
  iterate 1 (cases hop; exact keeps_IncrementX)
  iterate 1 (cases hop; exact keeps_IncrementY)
  iterate 2 (cases hop; exact keeps_Jump)
  iterate 1 (cases hop; exact keeps_JumpSubRoutine)
  iterate 8 (cases hop; exact keeps_LoadA)
  iterate 5 (cases hop; exact keeps_LoadX)
  iterate 5 (cases hop; exact keeps_LoadY)
  iterate 5 (cases hop; exact keeps_LogicalShiftRight)
  iterate 1 (cases hop; exact keeps_NoOperation)
  iterate 8 (cases hop; exact keeps_OrWithA)
  iterate 1 (cases hop; exact keeps_PushA)
  iterate 1 (cases hop; exact keeps_PushP)
  iterate 1 (cases hop; exact keeps_PullA)
  iterate 1 (cases hop; exact keeps_PullP)
  iterate 5 (cases hop; exact keeps_RotateLeft)
  iterate 5 (cases hop; exact keeps_RotateRight)
  iterate 1 (cases hop; exact keeps_ReturnFromInterrupt)
  iterate 1 (cases hop; exact keeps_ReturnFromSubroutine)
  iterate 8 (cases hop; exact keeps_SubtractWithCarry)
  iterate 1 (cases hop; exact keeps_SetCarry)
  iterate 1 (cases hop; exact keeps_SetDecimal)
  iterate 1 (cases hop; exact keeps_SetInterrupt)
  iterate 7 (cases hop; exact keeps_StoreA)
  iterate 3 (cases hop; exact keeps_StoreX)
  iterate 3 (cases hop; exact keeps_StoreY)
  iterate 1 (cases hop; exact keeps_TransferAtoX)
  iterate 1 (cases hop; exact keeps_TransferAtoY)
  iterate 1 (cases hop; exact keeps_TransferSPtoX)
  iterate 1 (cases hop; exact keeps_TransferXtoA)
  iterate 1 (cases hop; exact keeps_TransferXtoSP)
  iterate 1 (cases hop; exact keeps_TransferYtoA)

/-- A binding of the map built from a list of instructions holds one of them. -/
theorem mem_of_lookup_foldl (l : List Instruction) :
    ∀ (acc : List (Nat × Instruction)) (k : Nat) (i : Instruction),
      (l.foldl (fun instructions instruction =>
        mapInsert instruction.Opcode instruction instructions) acc).lookup k = some i →
      i ∈ l ∨ acc.lookup k = some i := by
  induction l with
  | nil => exact fun acc k i h => Or.inr h
  | cons x t ih =>
    intro acc k i h
    rw [List.foldl_cons] at h
    rcases ih _ k i h with h1 | h1
    · exact Or.inl (List.mem_cons_of_mem _ h1)
    · rw [lookup_mapInsert] at h1
      by_cases hk : k = x.Opcode
      · rw [if_pos hk] at h1
        cases h1
        exact Or.inl (List.mem_cons_self _ _)
      · rw [if_neg hk] at h1
        exact Or.inr h1

/-- An instruction that `Get` returns from the 6502 set is built by `NewInstruction`
from a record of the table. -/
theorem set6502_Get (opcode : Nat) (i : Instruction) (h : set6502.Get opcode = .ok i) :
    ∃ m ∈ AllOpcodes, i = NewInstruction m := by
  have hl : set6502.instructions.lookup opcode = some i := by
    unfold InstructionSet.Get at h
    rw [set6502_validate] at h
    cases hl : set6502.instructions.lookup opcode with
    | none => simp [hl] at h
    | some v =>
      simp only [hl, Except.ok.injEq] at h
      rw [h]
  rw [set6502_eq] at hl
  rcases mem_of_lookup_foldl _ _ _ _ hl with h1 | h1
  · obtain ⟨m, hm, rfl⟩ := List.mem_map.mp h1
    exact ⟨m, hm, rfl⟩
  · simp at h1

set_option maxRecDepth 100000 in
theorem table_cycles_le : ∀ m ∈ AllOpcodes, (NewInstruction m).Cycles ≤ 6 := by
  decide

/-! ## The B bit along the run of a Cpu -/

/-- A successful `Instruction.Execute` ran the operation of the instruction on the
snapshot with the same status. -/
theorem Execute_op (i : Instruction) (s s' : State) (mem w : Option Memory) (cyc : Nat)
    (h : i.Execute s mem = .ok (s', cyc, w)) :
    ∃ op ad pc, i.Operation = some op ∧ op { s with PC := pc } ad = .ok (s', w) := by
  unfold Instruction.Execute at h
  cases mem with
  | none => simp at h
  | some m =>
    cases haf : i.AddressingFunc with
    | none => simp [haf] at h
    | some af =>
      cases hop : i.Operation with
      | none => simp [haf, hop] at h
      | some op =>
        cases had : af s (some m) with
        | error e => simp [haf, hop, had] at h
        | ok ad =>
          cases hres : op { s with PC := (s.PC + ad.ProgramCounterChange) % 65536 } ad with
          | error e => simp [haf, hop, had, hres] at h
          | ok r =>
            simp only [haf, hop, had, hres, Except.ok.injEq, Prod.mk.injEq] at h
            obtain ⟨h1, -, h3⟩ := h
            refine ⟨op, ad, (s.PC + ad.ProgramCounterChange) % 65536, rfl, ?_⟩
            rw [hres, ← h1, ← h3]

set_option maxRecDepth 100000 in
theorem table_cycles_bound :
    ∀ b ∈ (AllOpcodes.map NewInstruction).foldl (fun instructions instruction =>
        mapInsert instruction.Opcode instruction instructions) [], b.2.Cycles ≤ 6 := by
  decide

theorem set6502_cycles : ∀ b ∈ set6502.instructions, b.2.Cycles ≤ 6 := by
  rw [set6502_eq]
  exact table_cycles_bound

/-- A `Step` of a Cpu with the 6502 instruction set and a memory: it returns, with 1 to
8 cycles, and the Cpu keeps its instruction set, a memory and a clear B bit. -/
theorem Step_6502 (c : Cpu) (m : Memory) (hset : c.instructionSet = set6502)
    (hm : c.memory = some m) :
    ∃ c' k err, Cpu.Step (some c) = some (some c', k, err) ∧
      c'.instructionSet = set6502 ∧ (∃ m', c'.memory = some m') ∧ 1 ≤ k ∧ k ≤ 8 ∧
      (hasBit c.State.P 4 = false → hasBit c'.State.P 4 = false) := by
  have hu : uintSize = 18446744073709551616 := by decide
  unfold Cpu.Step
  simp only [hm]
  cases hget : c.instructionSet.Get (m.Read c.State.PC) with
  | error e =>
    exact ⟨_, _, _, rfl, hset, ⟨m, rfl⟩, le_refl 1, by decide, fun h => h⟩
  | ok i =>
    simp only []
    have hcyc : i.Cycles ≤ 6 := set6502_cycles _ (hset ▸ mem_of_Get _ _ _ hget)
    cases hex : i.Execute { c.State with PC := (c.State.PC + 1) % 65536 } (some m) with
    | error e =>
      exact ⟨_, _, _, rfl, hset, ⟨m, rfl⟩, by decide, by decide, fun h => h⟩
    | ok r =>
      obtain ⟨s', cyc, w⟩ := r
      have hc := Execute_cycles _ _ _ _ _ _ hex
      obtain ⟨op, ad, pc, hop, hres⟩ := Execute_op _ _ _ _ _ _ hex
      obtain ⟨m0, hm0, hi⟩ := set6502_Get _ _ (hset ▸ hget)
      have hkeep : keepsBreakClear op := by
        apply table_keeps_break_clear m0 hm0
        rw [← hop, hi]
        rfl
      have hk : 1 ≤ (cyc + 1) % uintSize ∧ (cyc + 1) % uintSize ≤ 8 := by
        rw [hu] at hc ⊢
        rcases hc with hc | hc <;> omega
      refine ⟨_, _, _, rfl, hset, ?_, hk.1, hk.2, fun hb => hkeep _ _ _ _ hres hb⟩
      cases w with
      | none => exact ⟨m, rfl⟩
      | some w => exact ⟨w, rfl⟩

theorem Cpu_Interrupt_keeps (c : Cpu) (m : Memory) (hm : c.memory = some m) :
    ∃ c' e, Cpu.Interrupt (some c) = (some c', e) ∧
      c'.instructionSet = c.instructionSet ∧ (∃ m', c'.memory = some m') ∧
      (hasBit c.State.P 4 = false → hasBit c'.State.P 4 = false) := by
  by_cases hI : (Status.ToFlags c.State.P).Interrupt = true
  · refine ⟨c, none, ?_, rfl, ⟨m, hm⟩, fun hb => hb⟩
    simp only [Cpu.Interrupt, hI, if_true]
  · have h : ∃ s' m', Interrupt c.State { Addressing.zero with Memory := c.memory } =
        .ok (s', some m') ∧ s'.P = Status.SetInterrupt c.State.P :=
      ⟨_, _, Interrupt_some c.State { Addressing.zero with Memory := c.memory } m hm, rfl⟩
    obtain ⟨s', m', h1, hp⟩ := h
    refine ⟨{ c with State := s', memory := some m' }, none, ?_, rfl, ⟨m', rfl⟩, fun hb => ?_⟩
    · simp only [Cpu.Interrupt, hI, h1]
      rfl
    · show hasBit s'.P 4 = false
      rw [hp, b4_SetInterrupt]
      exact hb

theorem Cpu_Nmi_keeps (c : Cpu) (m : Memory) (hm : c.memory = some m) :
    ∃ c' e, Cpu.Nmi (some c) = (some c', e) ∧
      c'.instructionSet = c.instructionSet ∧ (∃ m', c'.memory = some m') ∧
      (hasBit c.State.P 4 = false → hasBit c'.State.P 4 = false) := by
  have h : ∃ s' m', Nmi c.State { Addressing.zero with Memory := c.memory } =
      .ok (s', some m') ∧ s'.P = Status.SetInterrupt c.State.P :=
    ⟨_, _, Nmi_some c.State { Addressing.zero with Memory := c.memory } m hm, rfl⟩
  obtain ⟨s', m', h1, hp⟩ := h
  refine ⟨{ c with State := s', memory := some m' }, none, ?_, rfl, ⟨m', rfl⟩, fun hb => ?_⟩
  · simp only [Cpu.Nmi, h1]
  · show hasBit s'.P 4 = false
    rw [hp, b4_SetInterrupt]
    exact hb

/-- Every sequence of calls on a Cpu with the 6502 instruction set, a memory and a clear
B bit runs through and leaves such a Cpu. -/
theorem runEvents_keeps (events : List Event) :
    ∀ c : Cpu, c.instructionSet = set6502 → (∃ m, c.memory = some m) →
      hasBit c.State.P 4 = false →
      ∃ c', runEvents events (some c) = some (some c') ∧ c'.instructionSet = set6502 ∧
        (∃ m, c'.memory = some m) ∧ hasBit c'.State.P 4 = false := by
  induction events with
  | nil => exact fun c h1 h2 h3 => ⟨c, rfl, h1, h2, h3⟩
  | cons ev t ih =>
    intro c hset hmem hb
    obtain ⟨m, hm⟩ := hmem
    cases ev with
    | Step =>
      obtain ⟨c1, k, err, hstep, hs1, hm1, -, -, hb1⟩ := Step_6502 c m hset hm
      obtain ⟨c', hrun, h⟩ := ih c1 hs1 hm1 (hb1 hb)
      refine ⟨c', ?_, h⟩
      show (match applyEvent (some c) Event.Step with
        | none => none
        | some c => runEvents t c) = _
      simp only [applyEvent, hstep]
      exact hrun
    | Interrupt =>
      obtain ⟨c1, e, hi, hs1, hm1, hb1⟩ := Cpu_Interrupt_keeps c m hm
      obtain ⟨c', hrun, h⟩ := ih c1 (hs1.trans hset) hm1 (hb1 hb)
      refine ⟨c', ?_, h⟩
      show (match applyEvent (some c) Event.Interrupt with
        | none => none
        | some c => runEvents t c) = _
      simp only [applyEvent, hi]
      exact hrun
    | Nmi =>
      obtain ⟨c1, e, hi, hs1, hm1, hb1⟩ := Cpu_Nmi_keeps c m hm
      obtain ⟨c', hrun, h⟩ := ih c1 (hs1.trans hset) hm1 (hb1 hb)
      refine ⟨c', ?_, h⟩
      show (match applyEvent (some c) Event.Nmi with
        | none => none
        | some c => runEvents t c) = _
      simp only [applyEvent, hi]
      exact hrun

theorem Cpu_Reset_keeps (c : Cpu) :
    ∃ c' e, Cpu.Reset (some c) = (some c', e) ∧
      (hasBit c.State.P 4 = false → hasBit c'.State.P 4 = false) := by
  cases h : ReadResetVectorFromMemory c.memory with
  | error err =>
    refine ⟨c, some err, ?_, fun hb => hb⟩
    simp only [Cpu.Reset, h]
  | ok start =>
    refine ⟨{ c with State := ⟨start, StackPointerStart, 0, 0, 0, 0⟩ }, none, ?_,
      fun _ => show hasBit 0 4 = false from by decide⟩
    simp only [Cpu.Reset, h]

theorem Cpu_Reset_ok (c : Cpu) (m : Memory) (hm : c.memory = some m) :
    ∃ c', Cpu.Reset (some c) = (some c', none) ∧ c'.instructionSet = c.instructionSet ∧
      c'.memory = some m ∧ c'.State.P = 0 := by
  simp only [Cpu.Reset, ReadResetVectorFromMemory, hm, ReadVector_some]
  exact ⟨_, rfl, rfl, rfl, rfl⟩

theorem pushed_break_bit (p : Nat) :
    hasBit (Status.WithConstantSet (Status.WithBreakSet p) % 256) 4 = true := by
  rw [hasBit_mod_256 _ _ (by decide), hasBit_WithConstantSet, hasBit_WithBreakSet]
  simp

theorem pushed_bit (p : Nat) :
    hasBit (Status.WithConstantSet p % 256) 4 = hasBit p 4 := by
  rw [hasBit_mod_256 _ _ (by decide), hasBit_WithConstantSet]
  simp

/-- Claim C38. The B bit is bit 4 of the status.  Every operation of the 6502 table that
succeeds from a status with B clear returns a status with B clear, and so do `Reset`,
`Cpu.Interrupt` and `Cpu.Nmi`.  `PushP` and `Break` push a byte with B set and leave the B
bit of `P` as it was, while `Interrupt` and `Nmi` push a byte with the B bit of `P`.
Hence on a Cpu with the 6502 instruction set and a memory, after `Reset` every sequence of
`Step`, `Interrupt` and `Nmi` calls runs through and ends with B clear in `P`. -/
theorem Break_bit_never_stored (c : Cpu) (m : Memory) (events : List Event)
    (hset : c.instructionSet = set6502) (hm : c.memory = some m) :
    New6502InstructionSet = .ok set6502 ∧
    (∀ p, (Status.ToFlags p).Break = hasBit p 4) ∧
    (∀ mn ∈ AllOpcodes, ∀ op, mn.Operation.Operation = some op → keepsBreakClear op) ∧
    (∀ c : Cpu, ∃ c' e, Cpu.Reset (some c) = (some c', e) ∧
      (hasBit c.State.P 4 = false → hasBit c'.State.P 4 = false)) ∧
    (∀ (c : Cpu) (m : Memory), c.memory = some m →
      (∃ c' e, Cpu.Interrupt (some c) = (some c', e) ∧
        (hasBit c.State.P 4 = false → hasBit c'.State.P 4 = false)) ∧
      (∃ c' e, Cpu.Nmi (some c) = (some c', e) ∧
        (hasBit c.State.P 4 = false → hasBit c'.State.P 4 = false))) ∧
    (∀ (s : State) (ad : Addressing) (m : Memory), ad.Memory = some m → s.SP < 256 →
      (∃ s' m', PushP s ad = .ok (s', some m') ∧ s'.P = s.P ∧
        hasBit (m'.Read (0x0100 + s.SP)) 4 = true) ∧
      (∃ s' m', Break s ad = .ok (s', some m') ∧ hasBit s'.P 4 = hasBit s.P 4 ∧
        hasBit (m'.Read (0x0100 + (s.SP + 254) % 256)) 4 = true) ∧
      (∃ s' m', Interrupt s ad = .ok (s', some m') ∧ hasBit s'.P 4 = hasBit s.P 4 ∧
        hasBit (m'.Read (0x0100 + (s.SP + 254) % 256)) 4 = hasBit s.P 4) ∧
      (∃ s' m', Nmi s ad = .ok (s', some m') ∧ hasBit s'.P 4 = hasBit s.P 4 ∧
        hasBit (m'.Read (0x0100 + (s.SP + 254) % 256)) 4 = hasBit s.P 4)) ∧
    ∃ c0, Cpu.Reset (some c) = (some c0, none) ∧ hasBit c0.State.P 4 = false ∧
      ∃ c', runEvents events (some c0) = some (some c') ∧ hasBit c'.State.P 4 = false := by
  refine ⟨set6502_ok, fun p => by rw [ToFlags_eq], table_keeps_break_clear, Cpu_Reset_keeps,
    fun c m hm => ⟨?_, ?_⟩, fun s ad m hm hSP => ⟨?_, ?_, ?_, ?_⟩, ?_⟩
  · obtain ⟨c', e, h, -, -, hb⟩ := Cpu_Interrupt_keeps c m hm
    exact ⟨c', e, h, hb⟩
  · obtain ⟨c', e, h, -, -, hb⟩ := Cpu_Nmi_keeps c m hm
    exact ⟨c', e, h, hb⟩
  · have e : (BaseStack + s.SP) % 65536 = 0x0100 + s.SP := by
      unfold BaseStack
      omega
    refine ⟨{ s with SP := (s.SP + 255) % 256 }, m.Write (0x0100 + s.SP)
      (Status.WithConstantSet (Status.WithBreakSet s.P) % 256), ?_, rfl, ?_⟩
    · unfold PushP Addressing.PushStatus
      rw [PushByte_some ad s _ m hm, e]
    · rw [Read_Write, if_pos rfl, pushed_break_bit]
  · obtain ⟨-, -, r3, -⟩ := frame_reads m s.SP ((s.PC + 1) % 65536 / 256 % 256)
      ((s.PC + 1) % 65536 % 256) (Status.WithConstantSet (Status.WithBreakSet s.P) % 256) hSP
    refine ⟨_, _, Break_some s ad m hm, b4_SetInterrupt _, ?_⟩
    rw [r3, pushed_break_bit]
  · obtain ⟨-, -, r3, -⟩ := frame_reads m s.SP (s.PC / 256 % 256)
      (s.PC % 256) (Status.WithConstantSet s.P % 256) hSP
    refine ⟨_, _, Interrupt_some s ad m hm, b4_SetInterrupt _, ?_⟩
    rw [r3, pushed_bit]
  · obtain ⟨-, -, r3, -⟩ := frame_reads m s.SP (s.PC / 256 % 256)
      (s.PC % 256) (Status.WithConstantSet s.P % 256) hSP
    refine ⟨_, _, Nmi_some s ad m hm, b4_SetInterrupt _, ?_⟩
    rw [r3, pushed_bit]
  · obtain ⟨c0, h0, hs0, hm0, hp0⟩ := Cpu_Reset_ok c m hm
    have hb0 : hasBit c0.State.P 4 = false := by
      rw [hp0]
      rfl
    obtain ⟨c', hrun, -, -, hb⟩ := runEvents_keeps events c0 (hs0.trans hset) ⟨m, hm0⟩ hb0
    exact ⟨c0, h0, hb0, c', hrun, hb⟩

theorem Break_bit_never_stored_witness :
    ∃ c0, Cpu.Reset (some nopCpu) = (some c0, none) ∧ hasBit c0.State.P 4 = false ∧
      ∃ c', runEvents [Event.Step, Event.Interrupt, Event.Nmi, Event.Step] (some c0) =
        some (some c') ∧ hasBit c'.State.P 4 = false :=
  (Break_bit_never_stored nopCpu nopMemory [Event.Step, Event.Interrupt, Event.Nmi, Event.Step]
    rfl rfl).2.2.2.2.2.2

/-! ## Termination of Execute -/

/-- A `Step` on the opcode `0xEA` (NOP) of the 6502 instruction set: 2 cycles, no error,
the same memory. -/
theorem Step_nop (c : Cpu) (m : Memory) (hset : c.instructionSet = set6502)
    (hm : c.memory = some m) (hop : m.Read c.State.PC = 0xEA) :
    ∃ c', Cpu.Step (some c) = some (some c', 2, none) ∧ c'.memory = some m ∧
      c'.instructionSet = set6502 := by
  have hv : c.instructionSet.validate = none := hset ▸ set6502_validate
  obtain ⟨c', h, -, hs, -, hmem⟩ := Step_ok c m _ Implied NoOperation
    { Addressing.zero with Memory := some m } _ (some m) hm
    (Get_of_lookup _ _ _ hv (by rw [hop, hset]; exact set6502_nop)) rfl rfl rfl rfl
  refine ⟨c', ?_, hmem m rfl, hs.trans hset⟩
  rw [h]
  have e : ((if ((NewInstruction (Mnemonic.mk 0xEA Records.Nop Records.Imp 0)).PageBoundaryPenalty
      && false) = true
        then ((NewInstruction (Mnemonic.mk 0xEA Records.Nop Records.Imp 0)).Cycles + 1) % uintSize
        else (NewInstruction (Mnemonic.mk 0xEA Records.Nop Records.Imp 0)).Cycles) + 1)
      % uintSize = 2 := by
    decide
  exact congrArg (fun k => some (some c', k, none)) e

/-- On the memory full of NOPs every `Step` succeeds with 2 cycles. -/
theorem nop_stepN (k : Nat) :
    ∀ c : Cpu, c.instructionSet = set6502 → c.memory = some nopMemory →
      ∃ c', stepN k (some c) = some (some c', List.replicate k 2, none) := by
  induction k with
  | zero => exact fun c _ _ => ⟨c, rfl⟩
  | succ k ih =>
    intro c hset hm
    obtain ⟨c1, h1, hm1, hs1⟩ := Step_nop c nopMemory hset hm rfl
    obtain ⟨c', h⟩ := ih c1 hs1 hm1
    refine ⟨c', ?_⟩
    simp only [stepN, h1, h]
    rfl

/-- On the memory full of NOPs the loop of `Execute` for `2 ^ 64 - 1` cycles, entered
with an even count, does not end, whatever the fuel. -/
theorem nop_executeLoop (fuel : Nat) :
    ∀ (c : Cpu) (e : Nat), c.instructionSet = set6502 → c.memory = some nopMemory →
      e % 2 = 0 → e < uintSize → executeLoop (uintSize - 1) fuel (some c) e = none := by
  have hu : uintSize = 18446744073709551616 := by decide
  induction fuel with
  | zero =>
    intro c e _ _ h2 hlt
    have hlt1 : e < uintSize - 1 := by
      rw [hu] at hlt ⊢
      omega
    exact if_pos hlt1
  | succ f ih =>
    intro c e hset hm h2 hlt
    have hlt1 : e < uintSize - 1 := by
      rw [hu] at hlt ⊢
      omega
    obtain ⟨c1, h1, hm1, hs1⟩ := Step_nop c nopMemory hset hm rfl
    have h := ih c1 ((e + 2) % uintSize) hs1 hm1 (by rw [hu]; omega) (by rw [hu]; omega)
    simp only [executeLoop, hlt1, if_true, h1]
    exact h

theorem nop_Execute (fuel : Nat) : Cpu.Execute fuel (some nopCpu) (2 ^ 64 - 1) = none := by
  have h := nop_executeLoop fuel nopCpu 0 rfl rfl rfl (by decide)
  unfold Cpu.Execute
  simp only [show ((2 ^ 64 - 1 : Nat) == 0) = false from by decide, Bool.false_eq_true,
    if_false]
  exact h

/-- Claim C22, as stated, fails for `n = 2 ^ 64 - 1`: on the Cpu that `NewCpu` builds
over a memory full of NOPs no `Step` fails, each takes 2 cycles, and `Execute` returns
no sum, however many calls of `Step` it is given. -/
theorem Execute_returns_no_sum :
    NewCpu set6502 (some nopMemory) = .ok nopCpu ∧
      ∀ fuel, (∃ c' ks, stepN fuel (some nopCpu) = some (some c', ks, none)) ∧
        Cpu.Execute fuel (some nopCpu) (2 ^ 64 - 1) = none := by
  refine ⟨?_, fun fuel => ⟨?_, nop_Execute fuel⟩⟩
  · simp only [NewCpu, set6502_validate]
    rfl
  · obtain ⟨c', h⟩ := nop_stepN fuel nopCpu rfl rfl
    exact ⟨c', _, h⟩

/-- Claim C40, as stated, fails for `n = 2 ^ 64 - 1`: on the Cpu with the 6502
instruction set over a memory full of NOPs every `Step` returns 2 cycles, the count of
`Execute` runs through the even numbers and wraps to 0 at `2 ^ 64`, and `Execute` has
not returned after `k` calls of `Step`, for every `k`; `k = n` among them. -/
theorem Execute_never_terminates :
    New6502InstructionSet = .ok nopCpu.instructionSet ∧ 0 < 2 ^ 64 - 1 ∧
      (∀ k, (∃ c', stepN k (some nopCpu) = some (some c', List.replicate k 2, none)) ∧
        Cpu.Execute k (some nopCpu) (2 ^ 64 - 1) = none) ∧
      Cpu.Execute (2 ^ 64 - 1) (some nopCpu) (2 ^ 64 - 1) = none :=
  ⟨set6502_ok, by decide, fun k => ⟨nop_stepN k nopCpu rfl rfl, nop_Execute k⟩,
    nop_Execute _⟩

/-- Claim C40, amended. On a Cpu with the 6502 instruction set and a memory every `Step`
returns, with a cycle count between 1 and 8, whether it fails or not; consequently for
every `n` with `0 < n` and `n + 8 ≤ 2 ^ 64`, `Execute` of `n` cycles returns after
`k` calls of `Step` with `1 ≤ k ≤ n`. -/
theorem Step_cycles_Execute_terminates (c : Cpu) (m : Memory) (n fuel : Nat)
    (hset : c.instructionSet = set6502) (hm : c.memory = some m)
    (hn : 0 < n) (hU : n + 8 ≤ uintSize) (hfuel : n ≤ fuel) :
    New6502InstructionSet = .ok set6502 ∧
      (∃ c' k err, Cpu.Step (some c) = some (some c', k, err) ∧ 1 ≤ k ∧ k ≤ 8) ∧
      ∃ k c' ks err, 1 ≤ k ∧ k ≤ n ∧ stepN k (some c) = some (some c', ks, err) ∧
        ks.length = k ∧ Cpu.Execute fuel (some c) n = some (some c', ks.sum, err) := by
  refine ⟨set6502_ok, ?_, ?_⟩
  · obtain ⟨c', k, err, h, -, -, h1, h8, -⟩ := Step_6502 c m hset hm
    exact ⟨c', k, err, h, h1, h8⟩
  · have hK : ∀ b ∈ set6502.instructions, n + b.2.Cycles + 2 ≤ uintSize := by
      intro b hb
      have := set6502_cycles b hb
      omega
    obtain ⟨k, c', ks, err, hk, hkn, hsn, hlen, hex, -, -⟩ :=
      executeLoop_spec set6502 n (by omega) hK fuel c 0 hset ⟨m, hm⟩ hn (by omega)
    refine ⟨k, c', ks, err, hk, by omega, hsn, hlen, ?_⟩
    unfold Cpu.Execute
    simp only [show (n == 0) = false from by simpa using hn.ne', Bool.false_eq_true, if_false]
    rw [hex, Nat.zero_add]

theorem Step_cycles_Execute_terminates_witness :
    ∃ k c' ks err, 1 ≤ k ∧ k ≤ 5 ∧ stepN k (some nopCpu) = some (some c', ks, err) ∧
      ks.length = k ∧ Cpu.Execute 5 (some nopCpu) 5 = some (some c', ks.sum, err) :=
  (Step_cycles_Execute_terminates nopCpu nopMemory 5 5 rfl rfl (by decide) (by decide)
    (by decide)).2.2

end Processor
